import Mathlib

/-!
# Railclone backend: validator, resource naming and the deployment orchestrator

A shallow embedding of
* `internal/validator/validator.go` (`Validator`, `CheckEnvVars`),
* `internal/models/deployments.go` (`Deployment`, `AvailableDeployments`, `ValidateDeployment`,
  `DeleteFromUser`),
* `cmd/api/deployment.go` (the validation block of `updateUserDeploymentHandler`,
  `deleteUserDeploymentHandler`),
* `internal/deployments/deployments.go` (`Create`, `Update`, `Delete`),
followed by theorems about them.

Conventions.  Go `int32` / `int64` values are `Int`; the embedded code only compares and
prints them, so no wrap-around arithmetic occurs.  A Go `map[string]string` is a list of
entries with pairwise distinct keys; the order of the list stands for one iteration order.
`Update` runs its loop over a map once in every attempt of a retry scope, and the runtime
is free to take another order each time: there the order is an input (`MapOrder`).
-/

namespace Railclone

/-! ## Go maps with string keys and values -/

/-- Go `map[string]string`: finitely many entries, no key twice. -/
structure StrMap where
  entries : List (String × String)
  nodupKeys : (entries.map Prod.fst).Nodup

namespace StrMap

/-- The empty map (also the model of a nil map: both have length zero and no entry). -/
def empty : StrMap := ⟨[], List.nodup_nil⟩

/-- Keys of the map. -/
def keys (m : StrMap) : List String := m.entries.map Prod.fst

/-- Values of the map. -/
def values (m : StrMap) : List String := m.entries.map Prod.snd

/-- Go `len(m)`. -/
def len (m : StrMap) : Nat := m.entries.length

/-- Go `_, exists := m[key]`. -/
def hasKey (m : StrMap) (key : String) : Bool := m.keys.contains key

/-- Go `m[key] = value`: overwrite the entry of `key`, or add one. -/
def set (m : StrMap) (key value : String) : StrMap :=
  ⟨(key, value) :: m.entries.filter (fun e => e.1 ≠ key), by
    rw [List.map_cons, List.nodup_cons]
    constructor
    · intro h
      obtain ⟨e, he, hk⟩ := List.mem_map.1 h
      have := (List.mem_filter.1 he).2
      simp at this
      exact this hk
    · exact List.Nodup.sublist ((List.filter_sublist _).map Prod.fst) m.nodupKeys⟩

end StrMap

/-! ## `internal/validator/validator.go` -/

/-- Go `type Validator struct { Errors map[string]string }`. -/
structure Validator where
  Errors : StrMap

/-- Go `validator.New`. -/
def Validator.New : Validator := ⟨StrMap.empty⟩

/-- Go `(*Validator).AddError`: the first message recorded under a key is kept. -/
def Validator.AddError (v : Validator) (key message : String) : Validator :=
  if !v.Errors.hasKey key then ⟨v.Errors.set key message⟩ else v

/-- Go `(*Validator).Valid`. -/
def Validator.Valid (v : Validator) : Bool := v.Errors.len == 0

/-- Go `(*Validator).Check`. -/
def Validator.Check (v : Validator) (ok : Bool) (key message : String) : Validator :=
  if !ok then v.AddError key message else v

/-- Go `arrContains`: linear search through a slice. -/
def arrContains (x : String) : List String → Bool
  | [] => false
  | v :: rest => if v == x then true else arrContains x rest

/-- The loop of Go `mapContains`: `for _, v := range arr` binds `v` to the VALUE of each entry. -/
def mapContainsLoop (x : String) : List (String × String) → Bool
  | [] => false
  | (_, v) :: rest => if v == x then true else mapContainsLoop x rest

/-- Go `mapContains`. -/
def mapContains (x : String) (arr : StrMap) : Bool := mapContainsLoop x arr.entries

/-- First loop of `CheckEnvVars`: `false` stands for the early `return false`. -/
def checkAvailableLoop (envArr : StrMap) : List String → Bool
  | [] => true
  | key :: rest => if !mapContains key envArr then false else checkAvailableLoop envArr rest

/-- Second loop of `CheckEnvVars`, over the keys of the map. -/
def checkKeysLoop (availableEnvKeys : List String) : List (String × String) → Bool
  | [] => true
  | (key, _) :: rest =>
    if !arrContains key availableEnvKeys then false else checkKeysLoop availableEnvKeys rest

/-- Go `CheckEnvVars`. -/
def CheckEnvVars (envArr : StrMap) (availableEnvKeys : List String) : Bool :=
  if !checkAvailableLoop envArr availableEnvKeys then false
  else if !checkKeysLoop availableEnvKeys envArr.entries then false
  else true

/-! ## `internal/models/deployments.go` -/

/-- Go `models.Deployment` (the two timestamps carry no logic and are left out). -/
structure Deployment where
  ID : Int
  Image : String
  Port : Int
  Volume : Int
  Replicas : Int
  EnvVars : StrMap
  UserID : Int
  Running : Bool

/-- Go `AvailableDeploymentData`. -/
structure AvailableDeploymentData where
  Volume : Bool
  EnvVars : List String
deriving DecidableEq, Repr

/-- Go zero value of `AvailableDeploymentData`, what indexing the catalog with an absent key gives. -/
def AvailableDeploymentData.zero : AvailableDeploymentData := ⟨false, []⟩

/-- Go `AvailableDeployments`, the catalog, as its list of entries. -/
def AvailableDeployments : List (String × AvailableDeploymentData) :=
  [ ("postgres", ⟨true, ["POSTGRES_DB", "POSTGRES_PASSWORD", "POSTGRES_USER"]⟩),
    ("redis", ⟨true, []⟩),
    ("mysql", ⟨true, ["MYSQL_DATABASE", "MYSQLPASSWORD", "MYSQLUSER"]⟩),
    ("mongo", ⟨true, ["MONGO_DB_NAME", "MONGOPASSWORD", "MONGOUSER"]⟩) ]

/-- Go `data, exist := AvailableDeployments[image]`. -/
def catalogLookup (image : String) : Option AvailableDeploymentData :=
  AvailableDeployments.lookup image

/-- Go `AvailableDeployments[image]`: the entry, or the zero value. -/
def catalogIndex (image : String) : AvailableDeploymentData :=
  (catalogLookup image).getD AvailableDeploymentData.zero

/-- Go `ValidateDeployment`. -/
def ValidateDeployment (v : Validator) (deployment : Deployment) : Validator :=
  let v := v.Check (deployment.Image != "") "image" "must be provided"
  let exist := (catalogLookup deployment.Image).isSome
  let v := v.Check exist "image" "needs to be available"
  let v := v.Check (decide (deployment.Volume ≥ 0)) "volume" "cannot have a negative value"
  let v := v.Check (decide (deployment.Volume ≤ 5)) "volume" "cannot have a value over 5"
  let v := v.Check ((catalogIndex deployment.Image).Volume && deployment.Volume != 0)
    "volume" "not available for this image"
  let v := v.Check (decide (deployment.Replicas ≥ 1)) "replicas"
    "needs to have a value of at least 1"
  let v := v.Check (decide (deployment.Replicas ≤ 4)) "replicas" "cannot have a value over 4"
  v.Check (CheckEnvVars deployment.EnvVars (catalogIndex deployment.Image).EnvVars)
    "env_vars" "not available or valid"

/-! ## `cmd/api/deployment.go`: validation in `updateUserDeploymentHandler` -/

/-- The validation block of `updateUserDeploymentHandler` (lines 178-183): a fresh validator,
`ValidateDeployment`, then the port checks guarded by `Port != 0`. -/
def updateValidation (updatedDeployment : Deployment) : Validator :=
  let v := Validator.New
  let v := ValidateDeployment v updatedDeployment
  if updatedDeployment.Port != 0 then
    let v := v.Check (decide (updatedDeployment.Port ≥ 30000)) "port"
      "cannot have a value under 30000"
    v.Check (decide (updatedDeployment.Port ≤ 32767)) "port" "cannot have a value over 32767"
  else v

/-! ## Rendering of integers (`fmt.Sprintf` with the verb `%d`) -/

/-- Decimal rendering of a Go integer by `%d`: a minus sign for a negative value, then the
decimal digits of the absolute value, most significant first (`0` is rendered `0`). -/
def formatInt : Int → String
  | Int.ofNat n => String.mk (Nat.toDigits 10 n)
  | Int.negSucc n => String.mk ('-' :: Nat.toDigits 10 (n + 1))

/-! ## `internal/deployments/deployments.go`: cluster objects -/

/-- Go `appName := fmt.Sprintf("deployment-%d-user-%d", id, userID)`, the first line of
`Create`, `Update` and `Delete`. -/
def appName (id userID : Int) : String :=
  "deployment-" ++ formatInt id ++ "-user-" ++ formatInt userID

/-- Go `resource.Quantity`, identified by the text handed to `resource.MustParse`; the
texts built here, `<int>Gi`, always parse. -/
structure Quantity where
  text : String
deriving DecidableEq, Repr

/-- Go `resource.MustParse`. -/
def MustParse (str : String) : Quantity := ⟨str⟩

/-- Go `metav1.ObjectMeta`, the fields that are set; `Labels` lists the map literal. -/
structure ObjectMeta where
  Name : String
  Labels : List (String × String) := []
deriving DecidableEq, Repr

/-- Go `corev1.EnvVar`. -/
structure EnvVar where
  Name : String
  Value : String
deriving DecidableEq, Repr

/-- Go `corev1.VolumeMount`. -/
structure VolumeMount where
  Name : String
  MountPath : String
deriving DecidableEq, Repr

/-- Go `corev1.Volume` whose `VolumeSource` is a `PersistentVolumeClaim` with `ClaimName`. -/
structure Volume where
  Name : String
  ClaimName : String
deriving DecidableEq, Repr

/-- Go `corev1.Container`. -/
structure Container where
  Name : String
  Image : String
  Env : List EnvVar
  VolumeMounts : List VolumeMount := []
deriving DecidableEq, Repr

/-- Go `corev1.PodSpec`. -/
structure PodSpec where
  Containers : List Container
  Volumes : List Volume := []
deriving DecidableEq, Repr

/-- Go `corev1.PodTemplateSpec`. -/
structure PodTemplateSpec where
  ObjectMeta : ObjectMeta
  Spec : PodSpec
deriving DecidableEq, Repr

/-- Go `appsv1.DeploymentSpec`; `Replicas` is a `*int32`, `none` is the nil pointer. -/
structure DeploymentSpec where
  Replicas : Option Int
  MatchLabels : List (String × String)
  Template : PodTemplateSpec
deriving DecidableEq, Repr

/-- Go `appsv1.Deployment`, the workload object. -/
structure AppsDeployment where
  ObjectMeta : ObjectMeta
  Spec : DeploymentSpec
deriving DecidableEq, Repr

/-- Assignment through `obj.Spec.Template.Spec.Containers[0]`: the first container is
replaced by `f` of it.  (`Create` applies it to the one-container literal it has just built.) -/
def AppsDeployment.modifyContainer0 (obj : AppsDeployment) (f : Container → Container) :
    AppsDeployment :=
  match obj.Spec.Template.Spec.Containers with
  | c :: cs => { obj with Spec.Template.Spec.Containers := f c :: cs }
  | [] => obj

/-- Go `corev1.PersistentVolumeAccessMode`. -/
inductive AccessMode where
  | ReadWriteOnce
  | ReadOnlyMany
  | ReadWriteMany
deriving DecidableEq, Repr

/-- Go `corev1.PersistentVolumeSpec`; `Capacity` lists the `ResourceList` map. -/
structure PersistentVolumeSpec where
  StorageClassName : String
  Capacity : List (String × Quantity)
  AccessModes : List AccessMode
  HostPath : Option String
deriving DecidableEq, Repr

/-- Go `corev1.PersistentVolume`, the storage-volume object. -/
structure PersistentVolume where
  ObjectMeta : ObjectMeta
  Spec : PersistentVolumeSpec
deriving DecidableEq, Repr

/-- Go `corev1.PersistentVolumeClaimSpec`; `Requests` is `Resources.Requests`. -/
structure PersistentVolumeClaimSpec where
  StorageClassName : Option String
  AccessModes : List AccessMode
  Requests : List (String × Quantity)
deriving DecidableEq, Repr

/-- Go `corev1.PersistentVolumeClaim`, the storage-claim object. -/
structure PersistentVolumeClaim where
  ObjectMeta : ObjectMeta
  Spec : PersistentVolumeClaimSpec
deriving DecidableEq, Repr

/-- Go `corev1.ServicePort`; `TargetPort` is the integer of `intstr.FromInt`, and the zero
value of `NodePort` means that the field is unset. -/
structure ServicePort where
  Port : Int
  Protocol : String
  TargetPort : Int
  NodePort : Int := 0
deriving DecidableEq, Repr

/-- Go `corev1.ServiceSpec`. -/
structure ServiceSpec where
  Selector : List (String × String)
  ServiceType : String
  Ports : List ServicePort
deriving DecidableEq, Repr

/-- Go `corev1.Service`. -/
structure Service where
  ObjectMeta : ObjectMeta
  Spec : ServiceSpec
deriving DecidableEq, Repr

/-- Go `corev1.ResourceStorage`. -/
def ResourceStorage : String := "storage"

/-! ## The control plane -/

/-- Why the control plane rejected a call (`metav1.StatusReason`). -/
inductive StatusReason where
  | Conflict
  | NotFound
  | AlreadyExists
  | Other
deriving DecidableEq, Repr

/-- Go `error` value returned by a client call: its reason and the text of `err.Error()`. -/
structure APIError where
  reason : StatusReason
  message : String
deriving DecidableEq, Repr

/-- Go `*kubernetes.Clientset`, the calls that the package makes, over a control plane with
states `σ`: each call answers from the current state and moves it.  Nothing is assumed about
the answers. -/
structure Clientset (σ : Type) where
  createPV : PersistentVolume → σ → Except APIError PersistentVolume × σ
  createPVC : PersistentVolumeClaim → σ → Except APIError PersistentVolumeClaim × σ
  createDeployment : AppsDeployment → σ → Except APIError AppsDeployment × σ
  createService : Service → σ → Except APIError Service × σ
  getPV : String → σ → Except APIError PersistentVolume × σ
  getPVC : String → σ → Except APIError PersistentVolumeClaim × σ
  getDeployment : String → σ → Except APIError AppsDeployment × σ
  getService : String → σ → Except APIError Service × σ
  updatePV : PersistentVolume → σ → Except APIError PersistentVolume × σ
  updatePVC : PersistentVolumeClaim → σ → Except APIError PersistentVolumeClaim × σ
  updateDeployment : AppsDeployment → σ → Except APIError AppsDeployment × σ
  updateService : Service → σ → Except APIError Service × σ
  deletePV : String → σ → Option APIError × σ
  deletePVC : String → σ → Option APIError × σ
  deleteService : String → σ → Option APIError × σ
  deleteDeployment : String → σ → Option APIError × σ

/-- One call made on the control plane, with the object or the name it was given. -/
inductive Call where
  | createPV (obj : PersistentVolume)
  | createPVC (obj : PersistentVolumeClaim)
  | createDeployment (obj : AppsDeployment)
  | createService (obj : Service)
  | getPV (name : String)
  | getPVC (name : String)
  | getDeployment (name : String)
  | getService (name : String)
  | updatePV (obj : PersistentVolume)
  | updatePVC (obj : PersistentVolumeClaim)
  | updateDeployment (obj : AppsDeployment)
  | updateService (obj : Service)
  | deletePV (name : String)
  | deletePVC (name : String)
  | deleteService (name : String)
  | deleteDeployment (name : String)
deriving DecidableEq, Repr

/-- The answer of the control plane to one call. -/
inductive Reply where
  | pv (obj : PersistentVolume)
  | pvc (obj : PersistentVolumeClaim)
  | deployment (obj : AppsDeployment)
  | service (obj : Service)
  | deleted
  | failed (err : APIError)
deriving DecidableEq, Repr

/-- Whether the answer is an error. -/
def Reply.isFailed : Reply → Bool
  | Reply.failed _ => true
  | _ => false

/-- A call together with its answer. -/
structure Event where
  call : Call
  reply : Reply
deriving DecidableEq, Repr

/-- The answer of a call that returns an object or an error. -/
def Reply.ofExcept {α : Type} (wrap : α → Reply) : Except APIError α → Reply
  | Except.ok obj => wrap obj
  | Except.error err => Reply.failed err

/-- The answer of a delete call. -/
def Reply.ofDelete : Option APIError → Reply
  | none => Reply.deleted
  | some err => Reply.failed err

/-- Run one call of the underlying control plane and append it, with its answer, to the log. -/
def logged {σ α : Type} (call : Call) (reply : α → Reply) (run : σ → α × σ)
    (st : σ × List Event) : α × (σ × List Event) :=
  let r := run st.1
  (r.1, (r.2, st.2 ++ [⟨call, reply r.1⟩]))

/-- The same control plane, observed: every call is answered as before and recorded in a log
carried along with the state.  The log is how the theorems speak of what was submitted. -/
def Clientset.traced {σ : Type} (cs : Clientset σ) : Clientset (σ × List Event) where
  createPV obj := logged (Call.createPV obj) (Reply.ofExcept Reply.pv) (cs.createPV obj)
  createPVC obj := logged (Call.createPVC obj) (Reply.ofExcept Reply.pvc) (cs.createPVC obj)
  createDeployment obj :=
    logged (Call.createDeployment obj) (Reply.ofExcept Reply.deployment) (cs.createDeployment obj)
  createService obj :=
    logged (Call.createService obj) (Reply.ofExcept Reply.service) (cs.createService obj)
  getPV name := logged (Call.getPV name) (Reply.ofExcept Reply.pv) (cs.getPV name)
  getPVC name := logged (Call.getPVC name) (Reply.ofExcept Reply.pvc) (cs.getPVC name)
  getDeployment name :=
    logged (Call.getDeployment name) (Reply.ofExcept Reply.deployment) (cs.getDeployment name)
  getService name :=
    logged (Call.getService name) (Reply.ofExcept Reply.service) (cs.getService name)
  updatePV obj := logged (Call.updatePV obj) (Reply.ofExcept Reply.pv) (cs.updatePV obj)
  updatePVC obj := logged (Call.updatePVC obj) (Reply.ofExcept Reply.pvc) (cs.updatePVC obj)
  updateDeployment obj :=
    logged (Call.updateDeployment obj) (Reply.ofExcept Reply.deployment) (cs.updateDeployment obj)
  updateService obj :=
    logged (Call.updateService obj) (Reply.ofExcept Reply.service) (cs.updateService obj)
  deletePV name := logged (Call.deletePV name) Reply.ofDelete (cs.deletePV name)
  deletePVC name := logged (Call.deletePVC name) Reply.ofDelete (cs.deletePVC name)
  deleteService name := logged (Call.deleteService name) Reply.ofDelete (cs.deleteService name)
  deleteDeployment name :=
    logged (Call.deleteDeployment name) Reply.ofDelete (cs.deleteDeployment name)

/-- One scripted answer: succeed, or fail with the given error. -/
def scriptStep {α : Type} (obj : α) :
    List (Option APIError) → Except APIError α × List (Option APIError)
  | some err :: rest => (Except.error err, rest)
  | none :: rest => (Except.ok obj, rest)
  | [] => (Except.ok obj, [])

/-- A sample control plane driven by a script, one entry per call: `some err` makes the call
fail with `err`, `none` (or an exhausted script) makes it succeed.  A successful create or
update answers with the submitted object, a created service having node port `nodePort`
assigned to each of its ports; a successful get answers with an object of that name and
nothing else set. -/
def scriptedClientset (nodePort : Int) : Clientset (List (Option APIError)) where
  createPV obj := scriptStep obj
  createPVC obj := scriptStep obj
  createDeployment obj := scriptStep obj
  createService obj :=
    scriptStep { obj with
      Spec.Ports := obj.Spec.Ports.map (fun p => { p with NodePort := nodePort }) }
  getPV name := scriptStep ⟨⟨name, []⟩, ⟨"", [], [], none⟩⟩
  getPVC name := scriptStep ⟨⟨name, []⟩, ⟨none, [], []⟩⟩
  getDeployment name := scriptStep ⟨⟨name, []⟩, ⟨none, [], ⟨⟨"", []⟩, ⟨[], []⟩⟩⟩⟩
  getService name := scriptStep ⟨⟨name, []⟩, ⟨[], "", []⟩⟩
  updatePV obj := scriptStep obj
  updatePVC obj := scriptStep obj
  updateDeployment obj := scriptStep obj
  updateService obj := scriptStep obj
  deletePV _ script := (script.head?.join, script.tail)
  deletePVC _ script := (script.head?.join, script.tail)
  deleteService _ script := (script.head?.join, script.tail)
  deleteDeployment _ script := (script.head?.join, script.tail)

/-- How a Go function ends: it returns a value, or it panics with a message. -/
inductive Outcome (α : Type) where
  | ret (value : α)
  | panic (msg : String)
deriving DecidableEq, Repr

/-- Lines 22-50 of `Create`: the workload literal `deploymentObj`. -/
def createDeploymentObj (appName : String) (deployment : Deployment) : AppsDeployment :=
  { ObjectMeta := { Name := appName ++ "-deployment" }
    Spec :=
      { Replicas := some deployment.Replicas
        MatchLabels := [("app", appName)]
        Template :=
          { ObjectMeta := { Name := "", Labels := [("app", appName)] }
            Spec :=
              { Containers :=
                  [{ Name := appName ++ "-deployment", Image := deployment.Image, Env := [] }] } } } }

/-- Lines 56-78 of `Create`: the storage-volume literal `pvObj`. -/
def createPvObj (appName volume storageClassName : String) : PersistentVolume :=
  { ObjectMeta := { Name := appName ++ "-pv", Labels := [("type", "local"), ("app", appName)] }
    Spec :=
      { StorageClassName := storageClassName
        Capacity := [(ResourceStorage, MustParse volume)]
        AccessModes := [AccessMode.ReadWriteOnce]
        HostPath := some ("/mnt/" ++ appName ++ "/data") } }

/-- Lines 80-98 of `Create`: the storage-claim literal `pvcObj`. -/
def createPvcObj (appName volume storageClassName : String) : PersistentVolumeClaim :=
  { ObjectMeta := { Name := appName ++ "-pv-claim", Labels := [("app", appName)] }
    Spec :=
      { StorageClassName := some storageClassName
        AccessModes := [AccessMode.ReadWriteOnce]
        Requests := [(ResourceStorage, MustParse volume)] } }

/-- Lines 100-118 of `Create`: append the volume mount to the first container and the
volume, which refers to the claim, to the pod. -/
def createMountVolume (appName : String) (deploymentObj : AppsDeployment) : AppsDeployment :=
  let deploymentObj : AppsDeployment :=
    deploymentObj.modifyContainer0 (fun c =>
      { c with VolumeMounts := c.VolumeMounts ++
          [{ Name := appName ++ "-volume"
             MountPath := "/var/lib/" ++ appName ++ "-volume" ++ "/data" }] })
  { deploymentObj with
    Spec.Template.Spec.Volumes := deploymentObj.Spec.Template.Spec.Volumes ++
      [{ Name := appName ++ "-volume", ClaimName := appName ++ "-pv-claim" }] }

/-- Lines 131-138 of `Create`: one environment variable appended per entry of `EnvVars`. -/
def createAddEnvVars (deployment : Deployment) (deploymentObj : AppsDeployment) :
    AppsDeployment :=
  if deployment.EnvVars.len != 0 then
    deployment.EnvVars.entries.foldl
      (fun obj e => obj.modifyContainer0
        (fun c => { c with Env := c.Env ++ [{ Name := e.1, Value := e.2 }] }))
      deploymentObj
  else deploymentObj

/-- Lines 140-157 of `Create`: the service literal `serviceObj`. -/
def createServiceObj (appName : String) : Service :=
  { ObjectMeta := { Name := appName ++ "-service" }
    Spec :=
      { Selector := [("app", appName)]
        ServiceType := "NodePort"
        Ports := [{ Port := 5432, Protocol := "TCP", TargetPort := 5432 }] } }

/-- Line 169 of `Create`: `return createdService.Spec.Ports[0].NodePort, nil`; indexing an
empty slice is a run-time panic. -/
def createReturnPort (createdService : Service) : Outcome (Int × Option APIError) :=
  match createdService.Spec.Ports with
  | p :: _ => Outcome.ret (p.NodePort, none)
  | [] => Outcome.panic "runtime error: index out of range [0] with length 0"

/-- Lines 131-169 of `Create`: the environment loop, the service literal and the submission
of the workload and then of the service. -/
def createSubmit {σ : Type} (clientset : Clientset σ) (deployment : Deployment)
    (appName : String) (deploymentObj : AppsDeployment) (s : σ) :
    Outcome (Int × Option APIError) × σ :=
  let deploymentObj := createAddEnvVars deployment deploymentObj
  let serviceObj := createServiceObj appName
  match clientset.createDeployment deploymentObj s with
  | (Except.error err, s) => (Outcome.ret (0, some err), s)
  | (Except.ok _, s) =>
    match clientset.createService serviceObj s with
    | (Except.error err, s) => (Outcome.ret (0, some err), s)
    | (Except.ok createdService, s) => (createReturnPort createdService, s)

/-- Go `deployments.Create`. -/
def Create {σ : Type} (clientset : Clientset σ) (deployment : Deployment) (s : σ) :
    Outcome (Int × Option APIError) × σ :=
  let appName := appName deployment.ID deployment.UserID
  let deploymentObj := createDeploymentObj appName deployment
  if deployment.Volume != 0 then
    let volume := formatInt deployment.Volume ++ "Gi"
    let storageClassName := appName ++ "-storage-class"
    let pvObj := createPvObj appName volume storageClassName
    let pvcObj := createPvcObj appName volume storageClassName
    let deploymentObj := createMountVolume appName deploymentObj
    match clientset.createPV pvObj s with
    | (Except.error err, s) => (Outcome.panic err.message, s)
    | (Except.ok _, s) =>
      match clientset.createPVC pvcObj s with
      | (Except.error err, s) => (Outcome.panic err.message, s)
      | (Except.ok _, s) => createSubmit clientset deployment appName deploymentObj s
  else createSubmit clientset deployment appName deploymentObj s

/-- The calls of a log, in order. -/
def calls (log : List Event) : List Call := log.map Event.call

/-- The workload objects that were submitted for creation, in order. -/
def submittedWorkloads (log : List Event) : List AppsDeployment :=
  log.filterMap (fun e =>
    match e.call with
    | Call.createDeployment obj => some obj
    | _ => none)

/-- The number that a list of decimal digit characters denotes (used to read back what
`%d` printed). -/
def digitsValue (l : List Char) : Nat :=
  l.foldl (fun acc c => 10 * acc + (c.toNat - 48)) 0


/-! ## `internal/deployments/deployments.go`: `Update` and `Delete` -/

/-- Go `strings.Split(env, "=")`: the pieces of `env` between the `=` signs (one piece when
there is none). -/
def splitOnEq (env : String) : List String :=
  (env.data.splitOn '=').map String.mk

/-- Modelled from the spec: the number of attempts of one conflict-retry scope, the
`Steps` of `retry.DefaultRetry` of the client library, which is not part of the sources
("bounded by a fixed small retry budget"); the library sets it to 5. -/
def DefaultRetrySteps : Nat := 5

/-- Modelled from the spec: the loop of the library helper `retry.RetryOnConflict`, which is
not part of the sources: "retried only on an optimistic-concurrency conflict ... and failing
fast on any other error", at most `steps` attempts; when the attempts are used up the error
of the last attempt is returned.  A panic of `fn` is not caught.  The waiting time between
attempts is not modelled. -/
def retryLoop {σ : Type} (fn : σ → Outcome (Option APIError) × σ) :
    Nat → Option APIError → σ → Outcome (Option APIError) × σ
  | 0, lastErr, s => (Outcome.ret lastErr, s)
  | steps + 1, _, s =>
    match fn s with
    | (Outcome.panic msg, s) => (Outcome.panic msg, s)
    | (Outcome.ret none, s) => (Outcome.ret none, s)
    | (Outcome.ret (some err), s) =>
      if err.reason = StatusReason.Conflict then retryLoop fn steps (some err) s
      else (Outcome.ret (some err), s)

/-- Go `retry.RetryOnConflict(retry.DefaultRetry, fn)`. -/
def RetryOnConflict {σ : Type} (fn : σ → Outcome (Option APIError) × σ) (s : σ) :
    Outcome (Option APIError) × σ :=
  retryLoop fn DefaultRetrySteps none s

/-- Lines 196-210 of `Update`: the closure that fetches the storage-volume, sets its
capacity and submits it. -/
def updatePvAttempt {σ : Type} (clientset : Clientset σ) (appName volume : String) (s : σ) :
    Outcome (Option APIError) × σ :=
  match clientset.getPV (appName ++ "-pv") s with
  | (Except.error err, s) => (Outcome.ret (some err), s)
  | (Except.ok pvObj, s) =>
    let pvObj : PersistentVolume :=
      { pvObj with Spec.Capacity := [(ResourceStorage, MustParse volume)] }
    match clientset.updatePV pvObj s with
    | (Except.error err, s) => (Outcome.ret (some err), s)
    | (Except.ok _, s) => (Outcome.ret none, s)

/-- Lines 217-231 of `Update`: the closure that fetches the storage-claim, sets its
requested capacity and submits it. -/
def updatePvcAttempt {σ : Type} (clientset : Clientset σ) (appName volume : String) (s : σ) :
    Outcome (Option APIError) × σ :=
  match clientset.getPVC (appName ++ "-pv-claim") s with
  | (Except.error err, s) => (Outcome.ret (some err), s)
  | (Except.ok pvcObj, s) =>
    let pvcObj : PersistentVolumeClaim :=
      { pvcObj with Spec.Requests := [(ResourceStorage, MustParse volume)] }
    match clientset.updatePVC pvcObj s with
    | (Except.error err, s) => (Outcome.ret (some err), s)
    | (Except.ok _, s) => (Outcome.ret none, s)

/-- Line 189 of `Update`: the condition of the storage block. -/
def volumeChanged (deployment updatedDeployment : Deployment) : Bool :=
  deployment.Volume != 0 && updatedDeployment.Volume != 0 &&
    deployment.Volume != updatedDeployment.Volume

/-- Lines 189-236 of `Update`: when both volumes are non-zero and differ, the retry scope of
the storage-volume and then the retry scope of the storage-claim; an error of either ends
the enclosing closure. -/
def updateStorage {σ : Type} (clientset : Clientset σ) (deployment updatedDeployment : Deployment)
    (appName : String) (s : σ) : Outcome (Option APIError) × σ :=
  if volumeChanged deployment updatedDeployment then
    let volume := formatInt updatedDeployment.Volume ++ "Gi"
    match RetryOnConflict (updatePvAttempt clientset appName volume) s with
    | (Outcome.panic msg, s) => (Outcome.panic msg, s)
    | (Outcome.ret (some err), s) => (Outcome.ret (some err), s)
    | (Outcome.ret none, s) =>
      match RetryOnConflict (updatePvcAttempt clientset appName volume) s with
      | (Outcome.panic msg, s) => (Outcome.panic msg, s)
      | (Outcome.ret (some err), s) => (Outcome.ret (some err), s)
      | (Outcome.ret none, s) => (Outcome.ret none, s)
  else (Outcome.ret none, s)

/-- Go `for ... := range m` over a map.  The language leaves the order open and the runtime
starts every such loop at a place of its own choice, so two loops over one map need not list
it alike.  The choice is an input of the model: `order s m` is the listing of `m` that a loop
takes when it starts with the control plane in state `s`; it is some arrangement of the
entries of `m`.  Two loops of one run of `Update` lie in two attempts of the first retry
scope, after a conflict and a new fetch of the workload, so on a control plane whose state
records its calls (`Clientset.traced`) or the conflict (`racingClientset`) they start in two
states and may take two orders; two runs take two orders. -/
def MapOrder (σ : Type) : Type :=
  σ → (m : StrMap) → { listing : List (String × String) // listing.Perm m.entries }

/-- The order that lists every map as its entries are written. -/
def MapOrder.listed {σ : Type} : MapOrder σ :=
  fun _ m => ⟨m.entries, List.Perm.refl _⟩

/-- The order that lists every map backwards. -/
def MapOrder.backwards {σ : Type} : MapOrder σ :=
  fun _ m => ⟨m.entries.reverse, List.reverse_perm _⟩

/-- Lines 239-253 of `Update`: the list `env_vars`, built from the values of the map of
`deployment` (the deployment as it was before the update) in the order `listing` in which
the loop visits its entries: a value with exactly one `=` gives a variable, any other value
gives none. -/
def updateEnvList (listing : List (String × String)) : List EnvVar :=
  listing.foldl
    (fun env_vars e =>
      match splitOnEq e.2 with
      | [key, value] => env_vars ++ [{ Name := key, Value := value }]
      | _ => env_vars)
    []

/-- Lines 238-255 of `Update`: when the new map is not empty, `env_vars` is assigned to the
environment of the first container; indexing an empty container list is a run-time panic.
`listing` is the order in which the loop of line 241 visits the old map. -/
def updateEnvVars (listing : List (String × String)) (updatedDeployment : Deployment)
    (deploymentObj : AppsDeployment) : Outcome AppsDeployment :=
  if updatedDeployment.EnvVars.len != 0 then
    match deploymentObj.Spec.Template.Spec.Containers with
    | c :: cs =>
      Outcome.ret { deploymentObj with
        Spec.Template.Spec.Containers := { c with Env := updateEnvList listing } :: cs }
    | [] => Outcome.panic "runtime error: index out of range [0] with length 0"
  else Outcome.ret deploymentObj

/-- Lines 183-187 of `Update`: the replica count written into the fetched workload. -/
def updateReplicas (updatedDeployment : Deployment) : Option Int :=
  if updatedDeployment.Running then some updatedDeployment.Replicas else some 0

/-- Lines 179-262 of `Update`: the closure of the first retry scope.  It fetches the
workload, sets the replica count, runs the storage scopes, sets the environment and submits
the workload. -/
def updateWorkloadAttempt {σ : Type} (clientset : Clientset σ) (order : MapOrder σ)
    (deployment updatedDeployment : Deployment) (appName : String) (s : σ) :
    Outcome (Option APIError) × σ :=
  match clientset.getDeployment (appName ++ "-deployment") s with
  | (Except.error err, s) => (Outcome.ret (some err), s)
  | (Except.ok deploymentObj, s) =>
    let deploymentObj : AppsDeployment :=
      { deploymentObj with Spec.Replicas := updateReplicas updatedDeployment }
    match updateStorage clientset deployment updatedDeployment appName s with
    | (Outcome.panic msg, s) => (Outcome.panic msg, s)
    | (Outcome.ret (some err), s) => (Outcome.ret (some err), s)
    | (Outcome.ret none, s) =>
      match updateEnvVars (order s deployment.EnvVars).1 updatedDeployment deploymentObj with
      | Outcome.panic msg => (Outcome.panic msg, s)
      | Outcome.ret deploymentObj =>
        match clientset.updateDeployment deploymentObj s with
        | (Except.error err, s) => (Outcome.ret (some err), s)
        | (Except.ok _, s) => (Outcome.ret none, s)

/-- Line 274 of `Update`: `serviceObj.Spec.Ports[0].NodePort = updatedDeployment.Port`;
indexing an empty port list is a run-time panic. -/
def updateNodePort (updatedDeployment : Deployment) (serviceObj : Service) : Outcome Service :=
  match serviceObj.Spec.Ports with
  | p :: ps =>
    Outcome.ret { serviceObj with
      Spec.Ports := { p with NodePort := updatedDeployment.Port } :: ps }
  | [] => Outcome.panic "runtime error: index out of range [0] with length 0"

/-- Lines 269-281 of `Update`: the closure of the last retry scope. -/
def updateServiceAttempt {σ : Type} (clientset : Clientset σ) (updatedDeployment : Deployment)
    (appName : String) (s : σ) : Outcome (Option APIError) × σ :=
  match clientset.getService (appName ++ "-service") s with
  | (Except.error err, s) => (Outcome.ret (some err), s)
  | (Except.ok serviceObj, s) =>
    match updateNodePort updatedDeployment serviceObj with
    | Outcome.panic msg => (Outcome.panic msg, s)
    | Outcome.ret serviceObj =>
      match clientset.updateService serviceObj s with
      | (Except.error err, s) => (Outcome.ret (some err), s)
      | (Except.ok _, s) => (Outcome.ret none, s)

/-- Go `deployments.Update`; `ret none` is the nil error.  `order` is the choice of the
runtime for the loops over the old map. -/
def Update {σ : Type} (clientset : Clientset σ) (order : MapOrder σ)
    (deployment updatedDeployment : Deployment) (s : σ) : Outcome (Option APIError) × σ :=
  let appName := appName deployment.ID deployment.UserID
  match RetryOnConflict
      (updateWorkloadAttempt clientset order deployment updatedDeployment appName) s with
  | (Outcome.panic msg, s) => (Outcome.panic msg, s)
  | (Outcome.ret (some err), s) => (Outcome.ret (some err), s)
  | (Outcome.ret none, s) =>
    match RetryOnConflict (updateServiceAttempt clientset updatedDeployment appName) s with
    | (Outcome.panic msg, s) => (Outcome.panic msg, s)
    | (Outcome.ret (some err), s) => (Outcome.ret (some err), s)
    | (Outcome.ret none, s) => (Outcome.ret none, s)

/-- Go `deployments.Delete`; `none` is the nil error.  (Every call passes the foreground
propagation policy, which is an option of the call and not modelled.) -/
def Delete {σ : Type} (clientset : Clientset σ) (id userID : Int) (s : σ) :
    Option APIError × σ :=
  let appName := appName id userID
  match clientset.deletePV (appName ++ "-pv") s with
  | (some err, s) => (some err, s)
  | (none, s) =>
    match clientset.deletePVC (appName ++ "-pv-claim") s with
    | (some err, s) => (some err, s)
    | (none, s) =>
      match clientset.deleteService (appName ++ "-service") s with
      | (some err, s) => (some err, s)
      | (none, s) =>
        match clientset.deleteDeployment (appName ++ "-deployment") s with
        | (some err, s) => (some err, s)
        | (none, s) => (none, s)

/-! ## Reading logs -/

/-- Whether a call reads or writes a storage-volume or a storage-claim. -/
def isStorageCall : Call → Bool
  | Call.getPV _ => true
  | Call.getPVC _ => true
  | Call.updatePV _ => true
  | Call.updatePVC _ => true
  | _ => false

/-- Whether a call is a successful fetch of a workload. -/
def isWorkloadFetched : Event → Bool
  | ⟨Call.getDeployment _, Reply.deployment _⟩ => true
  | _ => false

/-- The workload updates of a log, each paired with the workload that the latest earlier
fetch answered with (`last` is the one fetched before the log starts, if any). -/
def workloadWrites : List Event → Option AppsDeployment →
    List (Option AppsDeployment × AppsDeployment)
  | [], _ => []
  | ⟨Call.getDeployment _, Reply.deployment fetched⟩ :: rest, _ =>
    workloadWrites rest (some fetched)
  | ⟨Call.updateDeployment obj, _⟩ :: rest, last => (last, obj) :: workloadWrites rest last
  | _ :: rest, last => workloadWrites rest last

/-- The workload fetched last in a log (`last` if the log has no successful fetch). -/
def lastFetched : List Event → Option AppsDeployment → Option AppsDeployment
  | [], last => last
  | ⟨Call.getDeployment _, Reply.deployment fetched⟩ :: rest, _ => lastFetched rest (some fetched)
  | _ :: rest, last => lastFetched rest last

/-- A computation on an observed control plane only adds to the log, and what it adds
satisfies `P`. -/
def Appends {σ α : Type} (P : List Event → Prop)
    (f : σ × List Event → α × (σ × List Event)) : Prop :=
  ∀ st, ∃ seg, (f st).2.2 = st.2 ++ seg ∧ P seg

/-- A log that is made of consecutive pieces, each satisfying `P`. -/
def Joined (P : List Event → Prop) (seg : List Event) : Prop :=
  ∃ segs : List (List Event), seg = segs.flatten ∧ ∀ x ∈ segs, P x

/-- What `Update` may do with storage objects, for the capacity `cap`: the event is a
storage call, and a storage update carries `cap`. -/
@[reducible] def StorageEvent (cap : List (String × Quantity)) (e : Event) : Prop :=
  isStorageCall e.call = true ∧
  (∀ pv, e.call = Call.updatePV pv → pv.Spec.Capacity = cap) ∧
  (∀ pvc, e.call = Call.updatePVC pvc → pvc.Spec.Requests = cap)

/-- The capacity that `Update` writes: `<volume>Gi` of the new deployment. -/
def newCapacity (updatedDeployment : Deployment) : List (String × Quantity) :=
  [(ResourceStorage, MustParse (formatInt updatedDeployment.Volume ++ "Gi"))]

/-- Whether a call reads or writes a service. -/
def isServiceCall : Call → Bool
  | Call.getService _ => true
  | Call.updateService _ => true
  | _ => false

/-- What one attempt of the first retry scope of `Update` adds to the log: a failed fetch
of the workload; or a successful fetch, then storage events (at least one when the volume
changed, none otherwise), then nothing more or the submission of the fetched workload with
the replica count and the environment set by `Update`, for some listing of the old map. -/
def WorkloadPiece (old new : Deployment) (seg : List Event) : Prop :=
  (∃ n err, seg = [⟨Call.getDeployment n, Reply.failed err⟩]) ∨
  (∃ n fetched st tail,
    seg = ⟨Call.getDeployment n, Reply.deployment fetched⟩ :: (st ++ tail) ∧
    (∀ e ∈ st, StorageEvent (newCapacity new) e) ∧
    (volumeChanged old new = true → st ≠ []) ∧
    (volumeChanged old new = false → st = []) ∧
    (tail = [] ∨ ∃ w r listing, tail = [⟨Call.updateDeployment w, r⟩] ∧
      listing.Perm old.EnvVars.entries ∧
      updateEnvVars listing new { fetched with Spec.Replicas := updateReplicas new } =
        Outcome.ret w))

/-- No call of the log failed. -/
def Clean (log : List Event) : Prop := ∀ e ∈ log, e.reply.isFailed = false

instance Clean.decidable (log : List Event) : Decidable (Clean log) := by
  unfold Clean
  infer_instance

/-! ## A control plane that stores named objects -/

/-- The four kinds of object that the package handles. -/
inductive ObjKind where
  | pv
  | pvc
  | deployment
  | service
deriving DecidableEq, Repr

/-- The objects that the control plane holds, by kind; an object is found by the name in
its metadata. -/
structure Store where
  pvs : List PersistentVolume
  pvcs : List PersistentVolumeClaim
  deployments : List AppsDeployment
  services : List Service
deriving DecidableEq, Repr

/-- The control plane that holds nothing. -/
def Store.empty : Store := ⟨[], [], [], []⟩

/-- The error for an absent object. -/
def notFoundError (name : String) : APIError := ⟨StatusReason.NotFound, name ++ " not found"⟩

/-- The error for creating an object whose name is taken. -/
def alreadyExistsError (name : String) : APIError :=
  ⟨StatusReason.AlreadyExists, name ++ " already exists"⟩

/-- The error for a write whose base version is stale. -/
def conflictError (name : String) : APIError :=
  ⟨StatusReason.Conflict, name ++ " has been modified"⟩

/-- The object of that name, if there is one. -/
def storeFind {α : Type} (nameOf : α → String) (objs : List α) (name : String) : Option α :=
  objs.find? (fun o => nameOf o == name)

/-- The objects with the one named like `obj` replaced by `obj`. -/
def storeReplace {α : Type} (nameOf : α → String) (objs : List α) (obj : α) : List α :=
  objs.map (fun o => if nameOf o = nameOf obj then obj else o)

/-- Creating adds the object, unless its name is taken. -/
def storeAdd {α : Type} (nameOf : α → String) (objs : List α) (obj : α) :
    Except APIError α × List α :=
  match storeFind nameOf objs (nameOf obj) with
  | some _ => (Except.error (alreadyExistsError (nameOf obj)), objs)
  | none => (Except.ok obj, objs ++ [obj])

/-- Fetching answers with the object of that name, or fails with not-found. -/
def storeGet {α : Type} (nameOf : α → String) (objs : List α) (name : String) :
    Except APIError α :=
  match storeFind nameOf objs name with
  | some obj => Except.ok obj
  | none => Except.error (notFoundError name)

/-- Writing replaces the object of that name, or fails with not-found. -/
def storePut {α : Type} (nameOf : α → String) (objs : List α) (obj : α) :
    Except APIError α × List α :=
  match storeFind nameOf objs (nameOf obj) with
  | some _ => (Except.ok obj, storeReplace nameOf objs obj)
  | none => (Except.error (notFoundError (nameOf obj)), objs)

/-- Deleting removes the object of that name, or fails with not-found. -/
def storeRemove {α : Type} (nameOf : α → String) (objs : List α) (name : String) :
    Option APIError × List α :=
  match storeFind nameOf objs name with
  | some _ => (none, objs.filter (fun o => nameOf o ≠ name))
  | none => (some (notFoundError name), objs)

/-- The node port that the control plane gives to each port entry that has none. -/
def assignNodePort (nodePort : Int) (obj : Service) : Service :=
  { obj with
    Spec.Ports := obj.Spec.Ports.map
      (fun p => if p.NodePort = 0 then { p with NodePort := nodePort } else p) }

/-- The name of a storage-volume. -/
def pvName (obj : PersistentVolume) : String := obj.ObjectMeta.Name

/-- The name of a storage-claim. -/
def pvcName (obj : PersistentVolumeClaim) : String := obj.ObjectMeta.Name

/-- The name of a workload. -/
def deploymentName (obj : AppsDeployment) : String := obj.ObjectMeta.Name

/-- The name of a service. -/
def serviceName (obj : Service) : String := obj.ObjectMeta.Name

/-- A control plane as a set of named objects: creating adds the object, fetching and
writing need the object to be there, deleting an absent object fails with not-found.  The
second component of the state is a pending conflict: the next write of an object of that
kind is rejected with a conflict, once, and changes nothing. -/
def storeClientset (nodePort : Int) : Clientset (Store × Option ObjKind) where
  createPV obj st :=
    ((storeAdd pvName st.1.pvs obj).1,
      ({ st.1 with pvs := (storeAdd pvName st.1.pvs obj).2 }, st.2))
  createPVC obj st :=
    ((storeAdd pvcName st.1.pvcs obj).1,
      ({ st.1 with pvcs := (storeAdd pvcName st.1.pvcs obj).2 }, st.2))
  createDeployment obj st :=
    ((storeAdd deploymentName st.1.deployments obj).1,
      ({ st.1 with deployments := (storeAdd deploymentName st.1.deployments obj).2 }, st.2))
  createService obj st :=
    ((storeAdd serviceName st.1.services (assignNodePort nodePort obj)).1,
      ({ st.1 with
          services := (storeAdd serviceName st.1.services (assignNodePort nodePort obj)).2 },
        st.2))
  getPV name st := (storeGet pvName st.1.pvs name, st)
  getPVC name st := (storeGet pvcName st.1.pvcs name, st)
  getDeployment name st := (storeGet deploymentName st.1.deployments name, st)
  getService name st := (storeGet serviceName st.1.services name, st)
  updatePV obj st :=
    if st.2 = some ObjKind.pv then
      (Except.error (conflictError (pvName obj)), (st.1, none))
    else
      ((storePut pvName st.1.pvs obj).1,
        ({ st.1 with pvs := (storePut pvName st.1.pvs obj).2 }, st.2))
  updatePVC obj st :=
    if st.2 = some ObjKind.pvc then
      (Except.error (conflictError (pvcName obj)), (st.1, none))
    else
      ((storePut pvcName st.1.pvcs obj).1,
        ({ st.1 with pvcs := (storePut pvcName st.1.pvcs obj).2 }, st.2))
  updateDeployment obj st :=
    if st.2 = some ObjKind.deployment then
      (Except.error (conflictError (deploymentName obj)), (st.1, none))
    else
      ((storePut deploymentName st.1.deployments obj).1,
        ({ st.1 with deployments := (storePut deploymentName st.1.deployments obj).2 }, st.2))
  updateService obj st :=
    if st.2 = some ObjKind.service then
      (Except.error (conflictError (serviceName obj)), (st.1, none))
    else
      ((storePut serviceName st.1.services obj).1,
        ({ st.1 with services := (storePut serviceName st.1.services obj).2 }, st.2))
  deletePV name st :=
    ((storeRemove pvName st.1.pvs name).1,
      ({ st.1 with pvs := (storeRemove pvName st.1.pvs name).2 }, st.2))
  deletePVC name st :=
    ((storeRemove pvcName st.1.pvcs name).1,
      ({ st.1 with pvcs := (storeRemove pvcName st.1.pvcs name).2 }, st.2))
  deleteService name st :=
    ((storeRemove serviceName st.1.services name).1,
      ({ st.1 with services := (storeRemove serviceName st.1.services name).2 }, st.2))
  deleteDeployment name st :=
    ((storeRemove deploymentName st.1.deployments name).1,
      ({ st.1 with deployments := (storeRemove deploymentName st.1.deployments name).2 },
        st.2))

/-! ## A control plane with another writer -/

/-- A write of another client that lands after `Update` has fetched an object and before
`Update` writes it, so that the write of `Update` has a stale base version: the kind of the
object, and what the other client changed in it. -/
inductive Race where
  | pv (change : PersistentVolume → PersistentVolume)
  | pvc (change : PersistentVolumeClaim → PersistentVolumeClaim)
  | deployment (change : AppsDeployment → AppsDeployment)
  | service (change : Service → Service)

/-- The kind of object that the other client writes. -/
def Race.kind : Race → ObjKind
  | Race.pv _ => ObjKind.pv
  | Race.pvc _ => ObjKind.pvc
  | Race.deployment _ => ObjKind.deployment
  | Race.service _ => ObjKind.service

/-- The name of the object of that kind that belongs to the deployment `appName`. -/
def Race.objectName (r : Race) (appName : String) : String :=
  match r.kind with
  | ObjKind.pv => appName ++ "-pv"
  | ObjKind.pvc => appName ++ "-pv-claim"
  | ObjKind.deployment => appName ++ "-deployment"
  | ObjKind.service => appName ++ "-service"

/-- The objects with the one named `name` changed by `change`. -/
def storeChange {α : Type} (nameOf : α → String) (objs : List α) (name : String)
    (change : α → α) : List α :=
  objs.map (fun o => if nameOf o = name then change o else o)

/-- The store once the write of the other client to the object `name` has landed. -/
def Race.land (r : Race) (name : String) (store : Store) : Store :=
  match r with
  | Race.pv change =>
    Store.mk (storeChange pvName store.pvs name change) store.pvcs store.deployments
      store.services
  | Race.pvc change =>
    Store.mk store.pvs (storeChange pvcName store.pvcs name change) store.deployments
      store.services
  | Race.deployment change =>
    Store.mk store.pvs store.pvcs (storeChange deploymentName store.deployments name change)
      store.services
  | Race.service change =>
    Store.mk store.pvs store.pvcs store.deployments
      (storeChange serviceName store.services name change)

/-- A call of `storeClientset` on the store, the write of the other client still to come. -/
def withRace {α : Type} (call : Store × Option ObjKind → α × (Store × Option ObjKind))
    (st : Store × Option Race) : α × (Store × Option Race) :=
  ((call (st.1, none)).1, ((call (st.1, none)).2.1, st.2))

/-- A write of the object `name` on the control plane with another writer.  When the other
client writes objects of this kind, its write has landed since the fetch: the write at hand
is rejected with a conflict, and the store holds what the other client wrote.  Otherwise the
write is the write of `storeClientset`. -/
def racedWrite {α : Type} (kind : ObjKind) (name : String)
    (write : Store × Option ObjKind → Except APIError α × (Store × Option ObjKind))
    (st : Store × Option Race) : Except APIError α × (Store × Option Race) :=
  match st.2 with
  | some r =>
    if r.kind = kind then (Except.error (conflictError name), (r.land name st.1, none))
    else withRace write st
  | none => withRace write st

/-- The control plane of `storeClientset` with one write of another client (the second
component of the state, `none` once it has landed).  A conflict is what the specification
says it is: "the control plane rejects a write whose base version is stale", that is, the
object was written by someone else after it was fetched.  The version itself is not part of
the objects modelled here; a `change` that is the identity is a write that changed nothing
but the version. -/
def racingClientset (nodePort : Int) : Clientset (Store × Option Race) where
  createPV obj := withRace ((storeClientset nodePort).createPV obj)
  createPVC obj := withRace ((storeClientset nodePort).createPVC obj)
  createDeployment obj := withRace ((storeClientset nodePort).createDeployment obj)
  createService obj := withRace ((storeClientset nodePort).createService obj)
  getPV name := withRace ((storeClientset nodePort).getPV name)
  getPVC name := withRace ((storeClientset nodePort).getPVC name)
  getDeployment name := withRace ((storeClientset nodePort).getDeployment name)
  getService name := withRace ((storeClientset nodePort).getService name)
  updatePV obj :=
    racedWrite ObjKind.pv (pvName obj) ((storeClientset nodePort).updatePV obj)
  updatePVC obj :=
    racedWrite ObjKind.pvc (pvcName obj) ((storeClientset nodePort).updatePVC obj)
  updateDeployment obj :=
    racedWrite ObjKind.deployment (deploymentName obj)
      ((storeClientset nodePort).updateDeployment obj)
  updateService obj :=
    racedWrite ObjKind.service (serviceName obj) ((storeClientset nodePort).updateService obj)
  deletePV name := withRace ((storeClientset nodePort).deletePV name)
  deletePVC name := withRace ((storeClientset nodePort).deletePVC name)
  deleteService name := withRace ((storeClientset nodePort).deleteService name)
  deleteDeployment name := withRace ((storeClientset nodePort).deleteDeployment name)

/-- The state once the write of the other client has landed, if that client writes objects
of this kind; the state as it is otherwise. -/
def landIf (kind : ObjKind) (name : String) (st : Store × Option Race) :
    Store × Option Race :=
  match st.2 with
  | some r => if r.kind = kind then (r.land name st.1, none) else st
  | none => st

/-- The store once the write of the other client, if there is one to come, has landed on the
object of the deployment `appName`. -/
def landed (appName : String) (st : Store × Option Race) : Store :=
  match st.2 with
  | some r => r.land (r.objectName appName) st.1
  | none => st.1

/-- Whether the store holds what `Update` of `old` to `new` reads: the workload (with a
container, if the new map is not empty, for `Containers[0]`), the service (with a port
entry, for `Ports[0]`) and, when the volume changes, the storage-volume and the
storage-claim.  On such a store no call of `Update` is answered with not-found and no index
is out of range. -/
def Store.ready (old new : Deployment) (store : Store) : Bool :=
  (match storeFind deploymentName store.deployments
      (appName old.ID old.UserID ++ "-deployment") with
    | some w => new.EnvVars.len == 0 || !w.Spec.Template.Spec.Containers.isEmpty
    | none => false) &&
  (match storeFind serviceName store.services (appName old.ID old.UserID ++ "-service") with
    | some svc => !svc.Spec.Ports.isEmpty
    | none => false) &&
  (!volumeChanged old new ||
    ((storeFind pvName store.pvs (appName old.ID old.UserID ++ "-pv")).isSome &&
      (storeFind pvcName store.pvcs (appName old.ID old.UserID ++ "-pv-claim")).isSome))

/-- Two workloads that are the same but for the order of the environment of the first
container. -/
def SameButEnvOrder (a b : AppsDeployment) : Prop :=
  a = b ∨ ∃ c cs env, a.Spec.Template.Spec.Containers = c :: cs ∧ env.Perm c.Env ∧
    b = { a with Spec.Template.Spec.Containers := { c with Env := env } :: cs }

/-- What the retry scope of the storage-volume leaves of the stored storage-volumes when its
calls succeed. -/
def pvsAfter (volume appName : String) (pvs : List PersistentVolume) :
    List PersistentVolume :=
  match storeFind pvName pvs (appName ++ "-pv") with
  | some pv =>
    storeReplace pvName pvs { pv with Spec.Capacity := [(ResourceStorage, MustParse volume)] }
  | none => pvs

/-- What the retry scope of the storage-claim leaves of the stored storage-claims when its
calls succeed. -/
def pvcsAfter (volume appName : String) (pvcs : List PersistentVolumeClaim) :
    List PersistentVolumeClaim :=
  match storeFind pvcName pvcs (appName ++ "-pv-claim") with
  | some pvc =>
    storeReplace pvcName pvcs
      { pvc with Spec.Requests := [(ResourceStorage, MustParse volume)] }
  | none => pvcs

/-- What the first retry scope leaves of the stored workloads when its calls succeed and the
loop over the old map takes the order `listing`. -/
def workloadsAfter (listing : List (String × String)) (updatedDeployment : Deployment)
    (appName : String) (deployments : List AppsDeployment) : List AppsDeployment :=
  match storeFind deploymentName deployments (appName ++ "-deployment") with
  | some w =>
    match updateEnvVars listing updatedDeployment
        { w with Spec.Replicas := updateReplicas updatedDeployment } with
    | Outcome.ret w => storeReplace deploymentName deployments w
    | Outcome.panic _ => deployments
  | none => deployments

/-- What the last retry scope leaves of the stored services when its calls succeed. -/
def servicesAfter (updatedDeployment : Deployment) (appName : String)
    (services : List Service) : List Service :=
  match storeFind serviceName services (appName ++ "-service") with
  | some svc =>
    match updateNodePort updatedDeployment svc with
    | Outcome.ret svc => storeReplace serviceName services svc
    | Outcome.panic _ => services
  | none => services

/-- What `Update` leaves of a store when its calls succeed and the loop over the old map
takes the order `listing`. -/
def storeAfter (old new : Deployment) (listing : List (String × String)) (store : Store) :
    Store :=
  Store.mk
    (if volumeChanged old new then
      pvsAfter (formatInt new.Volume ++ "Gi") (appName old.ID old.UserID) store.pvs
    else store.pvs)
    (if volumeChanged old new then
      pvcsAfter (formatInt new.Volume ++ "Gi") (appName old.ID old.UserID) store.pvcs
    else store.pvcs)
    (workloadsAfter listing new (appName old.ID old.UserID) store.deployments)
    (servicesAfter new (appName old.ID old.UserID) store.services)

/-! ## `cmd/api/deployment.go`: `deleteUserDeploymentHandler` -/

/-- The errors of the record store: Go `models.ErrRecordNotFound`, or any other error. -/
inductive ModelError where
  | RecordNotFound
  | Other (msg : String)
deriving DecidableEq, Repr

/-- Go `DeploymentModel.DeleteFromUser` on a table of records: the rows with that `id` and
`user_id` are deleted, and no affected row is `ErrRecordNotFound`.  (A failure of the
database itself is not modelled.) -/
def DeleteFromUser (table : List Deployment) (id userID : Int) :
    Option ModelError × List Deployment :=
  if id < 1 then (some ModelError.RecordNotFound, table)
  else
    let remaining := table.filter (fun d => !(d.ID == id && d.UserID == userID))
    let rowsAffected := table.length - remaining.length
    if rowsAffected == 0 then (some ModelError.RecordNotFound, remaining)
    else (none, remaining)

/-- What the handler answers with. -/
inductive Response where
  | notFound
  | serverError
  | ok
deriving DecidableEq, Repr

/-- Go `deleteUserDeploymentHandler`.  `parsedID` is the result of `strconv.ParseInt` on the
URL parameter (`none` for an error), `userID` the id of the user of the request.  The result
is the response, the table of records and the state of the control plane afterwards. -/
def deleteUserDeploymentHandler {σ : Type} (clientset : Clientset σ) (parsedID : Option Int)
    (userID : Int) (table : List Deployment) (s : σ) : Response × List Deployment × σ :=
  match parsedID with
  | none => (Response.notFound, table, s)
  | some id =>
    if id < 1 then (Response.notFound, table, s)
    else
      match DeleteFromUser table id userID with
      | (some ModelError.RecordNotFound, table) => (Response.notFound, table, s)
      | (some (ModelError.Other _), table) => (Response.serverError, table, s)
      | (none, table) =>
        match Delete clientset id userID s with
        | (some _, s) => (Response.serverError, table, s)
        | (none, s) => (Response.ok, table, s)

/-- Whether the table has a record with that id and owner. -/
def hasRecord (table : List Deployment) (id userID : Int) : Bool :=
  table.any (fun d => d.ID == id && d.UserID == userID)

/-- Whether a call writes a storage-volume. -/
def isPvWrite : Call → Bool
  | Call.updatePV _ => true
  | _ => false

/-- Whether a call writes a storage-claim. -/
def isPvcWrite : Call → Bool
  | Call.updatePVC _ => true
  | _ => false

/-- Whether a call writes a workload. -/
def isWorkloadWrite : Call → Bool
  | Call.updateDeployment _ => true
  | _ => false


/-! ## Sample inputs -/

/-- A `postgres` deployment whose `EnvVars` keys are exactly the three required names. -/
def postgresExactKeys : Deployment :=
  { ID := 1, Image := "postgres", Port := 0, Volume := 1, Replicas := 1,
    EnvVars := ⟨[("POSTGRES_DB", "app"), ("POSTGRES_PASSWORD", "secret"),
      ("POSTGRES_USER", "admin")], by decide⟩,
    UserID := 1, Running := true }

/-- A `postgres` deployment that lacks the required name `POSTGRES_USER`. -/
def postgresMissingKey : Deployment :=
  { ID := 1, Image := "postgres", Port := 0, Volume := 1, Replicas := 1,
    EnvVars := ⟨[("POSTGRES_DB", "POSTGRES_USER"), ("POSTGRES_PASSWORD", "POSTGRES_DB")],
      by decide⟩,
    UserID := 1, Running := true }

/-- A `redis` deployment with a name that the catalog does not list. -/
def redisExtraKey : Deployment :=
  { ID := 2, Image := "redis", Port := 0, Volume := 1, Replicas := 1,
    EnvVars := ⟨[("REDIS_PASSWORD", "secret")], by decide⟩,
    UserID := 1, Running := true }

/-- A `redis` deployment that asks for no volume. -/
def redisNoVolume : Deployment :=
  { ID := 3, Image := "redis", Port := 0, Volume := 0, Replicas := 1,
    EnvVars := StrMap.empty, UserID := 1, Running := true }

/-- A paused `redis` deployment with two replicas and volume 1. -/
def redisPaused : Deployment :=
  { ID := 7, Image := "redis", Port := 0, Volume := 1, Replicas := 2,
    EnvVars := StrMap.empty, UserID := 3, Running := false }

/-- An error of the control plane that is not a conflict. -/
def refused : APIError := ⟨StatusReason.Other, "connection refused"⟩

/-- A `redis` deployment that asks for port 40000. -/
def port40000 : Deployment :=
  { ID := 1, Image := "redis", Port := 40000, Volume := 2, Replicas := 1,
    EnvVars := StrMap.empty, UserID := 1, Running := true }

/-- A deployment whose image the catalog does not have. -/
def unknownImage : Deployment :=
  { ID := 4, Image := "sqlite", Port := 0, Volume := 3, Replicas := 1,
    EnvVars := StrMap.empty, UserID := 1, Running := true }


/-- The control plane after `Create` of `postgresExactKeys` on the empty control plane
(node port 31000). -/
def postgresStore : Store × Option ObjKind :=
  (Create (storeClientset 31000) postgresExactKeys (Store.empty, none)).2

/-- The deployment `postgresExactKeys` with new values of its variables. -/
def postgresNewEnv : Deployment :=
  { ID := 1, Image := "postgres", Port := 31000, Volume := 1, Replicas := 1,
    EnvVars := ⟨[("POSTGRES_DB", "shop"), ("POSTGRES_PASSWORD", "hunter2"),
      ("POSTGRES_USER", "root")], by decide⟩,
    UserID := 1, Running := true }

/-- The control plane after `Create` of `port40000` (volume 2) on the empty control plane. -/
def redisStore : Store × Option ObjKind :=
  (Create (storeClientset 31000) port40000 (Store.empty, none)).2

/-- The deployment `port40000` paused, with volume 3 and the port it was given. -/
def redisResized : Deployment :=
  { ID := 1, Image := "redis", Port := 31000, Volume := 3, Replicas := 2,
    EnvVars := StrMap.empty, UserID := 1, Running := false }

/-- The deployment `port40000` paused, everything else as it is. -/
def redisOnlyPaused : Deployment :=
  { ID := 1, Image := "redis", Port := 31000, Volume := 2, Replicas := 1,
    EnvVars := StrMap.empty, UserID := 1, Running := false }

/-- A conflict, as the control plane reports it. -/
def conflict : APIError := ⟨StatusReason.Conflict, "the object has been modified"⟩

/-- A script in which the write of the storage-volume is rejected with a conflict four
times and then accepted, and the write of the workload that follows is rejected with a
conflict; every other call succeeds. -/
def conflictScript : List (Option APIError) :=
  [none, none, some conflict, none, some conflict, none, some conflict, none, some conflict,
    none, none, none, none, some conflict]


/-- The deployment `postgresExactKeys` with new values of its variables, volume 2, three
replicas and the port it was given. -/
def postgresResized : Deployment :=
  { ID := 1, Image := "postgres", Port := 31000, Volume := 2, Replicas := 3,
    EnvVars := ⟨[("POSTGRES_DB", "shop"), ("POSTGRES_PASSWORD", "hunter2"),
      ("POSTGRES_USER", "root")], by decide⟩,
    UserID := 1, Running := true }

/-- A `postgres` deployment, with the id and owner of `postgresExactKeys`, whose map has two
values of the form `key=value`. -/
def postgresPairs : Deployment :=
  { ID := 1, Image := "postgres", Port := 31000, Volume := 1, Replicas := 1,
    EnvVars := ⟨[("POSTGRES_DB", "PGDATA=/data"), ("POSTGRES_USER", "TZ=UTC")], by decide⟩,
    UserID := 1, Running := true }

/-- Another client that writes the workload and changes nothing in it but the version. -/
def touchWorkload : Race := Race.deployment id

/-- Another client that writes the workload and sets a label on it. -/
def labelWorkload : Race :=
  Race.deployment (fun w => { w with ObjectMeta.Labels := [("tier", "db")] })

/-! ## Facts about the validator -/

theorem StrMap.mem_keys_set (m : StrMap) (key value k : String) :
    k ∈ (m.set key value).keys ↔ k = key ∨ k ∈ m.keys := by
  simp only [StrMap.keys, StrMap.set, List.map_cons, List.mem_cons, List.mem_map,
    List.mem_filter]
  constructor
  · rintro (h | ⟨e, ⟨he, -⟩, rfl⟩)
    · exact Or.inl h
    · exact Or.inr ⟨e, he, rfl⟩
  · rintro (h | ⟨e, he, rfl⟩)
    · exact Or.inl h
    · by_cases hk : e.1 = key
      · exact Or.inl hk
      · exact Or.inr ⟨e, ⟨he, by simpa using hk⟩, rfl⟩

theorem Validator.mem_keys_AddError (v : Validator) (key message k : String) :
    k ∈ (v.AddError key message).Errors.keys ↔ k ∈ v.Errors.keys ∨ k = key := by
  unfold Validator.AddError
  by_cases h : v.Errors.hasKey key = true
  · have hk : key ∈ v.Errors.keys := by simpa [StrMap.hasKey] using h
    simp only [h, Bool.not_true, Bool.false_eq_true, if_false]
    constructor
    · exact Or.inl
    · rintro (h1 | rfl)
      · exact h1
      · exact hk
  · simp only [h, Bool.not_eq_true] at h ⊢
    simp only [h, Bool.not_false, if_true, StrMap.mem_keys_set]
    exact or_comm

theorem Validator.mem_keys_Check (v : Validator) (ok : Bool) (key message k : String) :
    k ∈ (v.Check ok key message).Errors.keys ↔ k ∈ v.Errors.keys ∨ (ok = false ∧ k = key) := by
  unfold Validator.Check
  cases ok
  · simp [Validator.mem_keys_AddError]
  · simp

theorem Validator.not_mem_keys_New (k : String) : k ∉ Validator.New.Errors.keys := by
  simp [Validator.New, StrMap.empty, StrMap.keys]

theorem Validator.Valid_eq_false_of_mem (v : Validator) (k : String)
    (h : k ∈ v.Errors.keys) : v.Valid = false := by
  unfold Validator.Valid StrMap.len
  unfold StrMap.keys at h
  cases hE : v.Errors.entries with
  | nil => simp [hE] at h
  | cons e es => simp

theorem arrContains_iff (x : String) (arr : List String) :
    arrContains x arr = true ↔ x ∈ arr := by
  induction arr with
  | nil => simp [arrContains]
  | cons v rest ih =>
    unfold arrContains
    by_cases h : v = x
    · simp [h]
    · have h2 : ¬ x = v := fun e => h e.symm
      simp [h, h2, ih]

theorem mapContainsLoop_iff (x : String) (es : List (String × String)) :
    mapContainsLoop x es = true ↔ x ∈ es.map Prod.snd := by
  induction es with
  | nil => simp [mapContainsLoop]
  | cons e rest ih =>
    obtain ⟨k, v⟩ := e
    unfold mapContainsLoop
    by_cases h : v = x
    · simp [h]
    · have h2 : ¬ x = v := fun e => h e.symm
      simp [h, h2, ih]

theorem checkAvailableLoop_iff (envArr : StrMap) (keys : List String) :
    checkAvailableLoop envArr keys = true ↔ ∀ k ∈ keys, k ∈ envArr.values := by
  induction keys with
  | nil => simp [checkAvailableLoop]
  | cons key rest ih =>
    unfold checkAvailableLoop
    by_cases h : mapContains key envArr = true
    · have h1 : key ∈ envArr.values := (mapContainsLoop_iff key envArr.entries).1 h
      simp [h, ih, h1]
    · have h1 : key ∉ envArr.values := fun hm => h ((mapContainsLoop_iff key envArr.entries).2 hm)
      simp only [Bool.not_eq_true] at h
      simp [h, h1]

theorem checkKeysLoop_iff (availableEnvKeys : List String) (es : List (String × String)) :
    checkKeysLoop availableEnvKeys es = true ↔ ∀ k ∈ es.map Prod.fst, k ∈ availableEnvKeys := by
  induction es with
  | nil => simp [checkKeysLoop]
  | cons e rest ih =>
    obtain ⟨k, v⟩ := e
    unfold checkKeysLoop
    by_cases h : arrContains k availableEnvKeys = true
    · have h1 := (arrContains_iff k availableEnvKeys).1 h
      simp only [h, Bool.not_true, Bool.false_eq_true, if_false, ih]
      simp [h1]
    · have h1 : k ∉ availableEnvKeys := fun hm => h ((arrContains_iff k availableEnvKeys).2 hm)
      simp only [Bool.not_eq_true] at h
      simp [h, h1]

/-- What `CheckEnvVars` computes: every available name occurs among the VALUES of the map,
and every key of the map is an available name. -/
theorem CheckEnvVars_iff (envArr : StrMap) (availableEnvKeys : List String) :
    CheckEnvVars envArr availableEnvKeys = true ↔
      (∀ k ∈ availableEnvKeys, k ∈ envArr.values) ∧
      (∀ k ∈ envArr.keys, k ∈ availableEnvKeys) := by
  unfold CheckEnvVars StrMap.keys
  rw [← checkAvailableLoop_iff, ← checkKeysLoop_iff]
  cases checkAvailableLoop envArr availableEnvKeys <;>
    cases checkKeysLoop availableEnvKeys envArr.entries <;> simp

/-- Indexing the catalog gives a volume-capable entry exactly when the image is present
with `Volume = true`. -/
theorem catalogIndex_Volume_iff (image : String) :
    (catalogIndex image).Volume = true ↔
      ∃ e, catalogLookup image = some e ∧ e.Volume = true := by
  unfold catalogIndex
  cases h : catalogLookup image with
  | none => simp [AvailableDeploymentData.zero]
  | some e => simp

/-- The required names of a catalog entry are pairwise distinct. -/
theorem catalog_EnvVars_nodup (image : String) (entry : AvailableDeploymentData)
    (h : catalogLookup image = some entry) : entry.EnvVars.Nodup := by
  unfold catalogLookup AvailableDeployments at h
  simp only [List.lookup] at h
  repeat' split at h
  all_goals (cases h <;> decide)

/-- Which keys `ValidateDeployment` leaves in `Errors`, for any validator it starts from. -/
theorem mem_keys_ValidateDeployment (v : Validator) (d : Deployment) (k : String) :
    k ∈ (ValidateDeployment v d).Errors.keys ↔
      k ∈ v.Errors.keys ∨
      (k = "image" ∧ (d.Image = "" ∨ catalogLookup d.Image = none)) ∨
      (k = "volume" ∧ (d.Volume < 0 ∨ 5 < d.Volume ∨
        ¬ ((catalogIndex d.Image).Volume = true ∧ d.Volume ≠ 0))) ∨
      (k = "replicas" ∧ (d.Replicas < 1 ∨ 4 < d.Replicas)) ∨
      (k = "env_vars" ∧ CheckEnvVars d.EnvVars (catalogIndex d.Image).EnvVars = false) := by
  simp only [ValidateDeployment, Validator.mem_keys_Check]
  simp only [bne_eq_false_iff_eq, decide_eq_false_iff_not, not_le, Bool.and_eq_false_iff,
    ge_iff_le]
  have hv : ((catalogIndex d.Image).Volume = false ∨ d.Volume = 0) ↔
      ¬ ((catalogIndex d.Image).Volume = true ∧ d.Volume ≠ 0) := by
    cases (catalogIndex d.Image).Volume <;> simp
  have hs : (catalogLookup d.Image).isSome = false ↔ catalogLookup d.Image = none := by
    cases catalogLookup d.Image <;> simp
  rw [hv, hs]
  constructor
  · rintro ((((((((h | ⟨h, rfl⟩) | ⟨h, rfl⟩) | ⟨h, rfl⟩) | ⟨h, rfl⟩) | ⟨h, rfl⟩) | ⟨h, rfl⟩) |
      ⟨h, rfl⟩) | ⟨h, rfl⟩)
    · exact Or.inl h
    · exact Or.inr (Or.inl ⟨rfl, Or.inl h⟩)
    · exact Or.inr (Or.inl ⟨rfl, Or.inr h⟩)
    · exact Or.inr (Or.inr (Or.inl ⟨rfl, Or.inl h⟩))
    · exact Or.inr (Or.inr (Or.inl ⟨rfl, Or.inr (Or.inl h)⟩))
    · exact Or.inr (Or.inr (Or.inl ⟨rfl, Or.inr (Or.inr h)⟩))
    · exact Or.inr (Or.inr (Or.inr (Or.inl ⟨rfl, Or.inl h⟩)))
    · exact Or.inr (Or.inr (Or.inr (Or.inl ⟨rfl, Or.inr h⟩)))
    · exact Or.inr (Or.inr (Or.inr (Or.inr ⟨rfl, h⟩)))
  · rintro (h | ⟨rfl, h | h⟩ | ⟨rfl, h | h | h⟩ | ⟨rfl, h | h⟩ | ⟨rfl, h⟩)
    · exact Or.inl (Or.inl (Or.inl (Or.inl (Or.inl (Or.inl (Or.inl (Or.inl h)))))))
    · exact Or.inl (Or.inl (Or.inl (Or.inl (Or.inl (Or.inl (Or.inl (Or.inr ⟨h, rfl⟩)))))))
    · exact Or.inl (Or.inl (Or.inl (Or.inl (Or.inl (Or.inl (Or.inr ⟨h, rfl⟩))))))
    · exact Or.inl (Or.inl (Or.inl (Or.inl (Or.inl (Or.inr ⟨h, rfl⟩)))))
    · exact Or.inl (Or.inl (Or.inl (Or.inl (Or.inr ⟨h, rfl⟩))))
    · exact Or.inl (Or.inl (Or.inl (Or.inr ⟨h, rfl⟩)))
    · exact Or.inl (Or.inl (Or.inr ⟨h, rfl⟩))
    · exact Or.inl (Or.inr ⟨h, rfl⟩)
    · exact Or.inr ⟨h, rfl⟩

/-- A map whose keys are all required names and whose values cover the required names has
every required name as a key: with distinct keys there are too few entries otherwise. -/
theorem StrMap.keys_cover_of_values_cover (m : StrMap) (req : List String)
    (hreq : req.Nodup) (hk : ∀ k ∈ m.keys, k ∈ req) (hv : ∀ k ∈ req, k ∈ m.values) :
    ∀ k ∈ req, k ∈ m.keys := by
  have h1 : req.Subperm m.values := List.subperm_of_subset hreq hv
  have h2 : m.keys.Subperm req := List.subperm_of_subset m.nodupKeys hk
  have hlen : req.length ≤ m.keys.length := by
    have := h1.length_le
    simpa [StrMap.values, StrMap.keys] using this
  have hperm : m.keys.Perm req := h2.perm_of_length_le hlen
  exact fun k hkr => hperm.symm.subset hkr

/-! ## The validator: claims -/

/-- C1 (the code departs from the claim).  The deployment `postgresExactKeys` has a catalog
image, volume 1, one replica and an `EnvVars` map whose keys are exactly the names the
catalog requires for `postgres`, yet `ValidateDeployment` on a fresh validator records an
error under `env_vars` and `Valid()` is false: `mapContains` looks for each required name
among the values of the map. -/
theorem ValidateDeployment_exact_keys_rejected :
    (catalogLookup postgresExactKeys.Image).isSome = true ∧
    postgresExactKeys.EnvVars.keys = (catalogIndex postgresExactKeys.Image).EnvVars ∧
    (1 ≤ postgresExactKeys.Volume ∧ postgresExactKeys.Volume ≤ 5) ∧
    (1 ≤ postgresExactKeys.Replicas ∧ postgresExactKeys.Replicas ≤ 4) ∧
    (ValidateDeployment Validator.New postgresExactKeys).Errors.keys = ["env_vars"] ∧
    (ValidateDeployment Validator.New postgresExactKeys).Valid = false := by
  decide

/-- C2.  For a catalog image, a deployment whose `EnvVars` keys miss a required name or
contain a name that is not required gets an error under `env_vars` from `ValidateDeployment`
on a fresh validator, and is not valid, whatever the values of the map. -/
theorem ValidateDeployment_rejects_wrong_env_keys (image : String)
    (entry : AvailableDeploymentData) (d : Deployment)
    (hcat : catalogLookup image = some entry) (himg : d.Image = image)
    (hbad : (∃ k ∈ entry.EnvVars, k ∉ d.EnvVars.keys) ∨
      (∃ k ∈ d.EnvVars.keys, k ∉ entry.EnvVars)) :
    "env_vars" ∈ (ValidateDeployment Validator.New d).Errors.keys ∧
      (ValidateDeployment Validator.New d).Valid = false := by
  have hidx : catalogIndex d.Image = entry := by
    simp [catalogIndex, himg, hcat]
  have hcheck : CheckEnvVars d.EnvVars entry.EnvVars = false := by
    cases hc : CheckEnvVars d.EnvVars entry.EnvVars with
    | false => rfl
    | true =>
      exfalso
      obtain ⟨hv, hk⟩ := (CheckEnvVars_iff _ _).1 hc
      rcases hbad with ⟨k, hkreq, hkn⟩ | ⟨k, hkm, hkn⟩
      · exact hkn (StrMap.keys_cover_of_values_cover d.EnvVars entry.EnvVars
          (catalog_EnvVars_nodup image entry hcat) hk hv k hkreq)
      · exact hkn (hk k hkm)
  have hmem : "env_vars" ∈ (ValidateDeployment Validator.New d).Errors.keys := by
    rw [mem_keys_ValidateDeployment, hidx]
    exact Or.inr (Or.inr (Or.inr (Or.inr ⟨rfl, hcheck⟩)))
  exact ⟨hmem, Validator.Valid_eq_false_of_mem _ _ hmem⟩

/-- C2 at two inputs: a `postgres` deployment without `POSTGRES_USER` (the required names
even occur among its values), and a `redis` deployment with an extra name. -/
theorem ValidateDeployment_rejects_wrong_env_keys_witness :
    ("env_vars" ∈ (ValidateDeployment Validator.New postgresMissingKey).Errors.keys ∧
      (ValidateDeployment Validator.New postgresMissingKey).Valid = false) ∧
    ("env_vars" ∈ (ValidateDeployment Validator.New redisExtraKey).Errors.keys ∧
      (ValidateDeployment Validator.New redisExtraKey).Valid = false) :=
  ⟨ValidateDeployment_rejects_wrong_env_keys "postgres"
      ⟨true, ["POSTGRES_DB", "POSTGRES_PASSWORD", "POSTGRES_USER"]⟩ postgresMissingKey
      (by decide) (by decide) (Or.inl ⟨"POSTGRES_USER", by decide, by decide⟩),
   ValidateDeployment_rejects_wrong_env_keys "redis" ⟨true, []⟩ redisExtraKey
      (by decide) (by decide) (Or.inr ⟨"REDIS_PASSWORD", by decide, by decide⟩)⟩

/-- C3.  On a fresh validator `ValidateDeployment` records an error under `volume` exactly
when it is not the case that the image is a catalog entry with `Volume = true` and
`1 ≤ volume ≤ 5`.  So volume 0 is an error for every storage-capable image, and every volume
is an error for an image that is absent from the catalog or has no volume support. -/
theorem ValidateDeployment_volume_error_iff (d : Deployment) :
    ("volume" ∈ (ValidateDeployment Validator.New d).Errors.keys ↔
      ¬ (∃ e, catalogLookup d.Image = some e ∧ e.Volume = true ∧
          1 ≤ d.Volume ∧ d.Volume ≤ 5)) ∧
    ((∃ e, catalogLookup d.Image = some e ∧ e.Volume = true) → d.Volume = 0 →
      "volume" ∈ (ValidateDeployment Validator.New d).Errors.keys) ∧
    ((∀ e, catalogLookup d.Image = some e → e.Volume = false) →
      "volume" ∈ (ValidateDeployment Validator.New d).Errors.keys) := by
  have key : "volume" ∈ (ValidateDeployment Validator.New d).Errors.keys ↔
      ¬ (∃ e, catalogLookup d.Image = some e ∧ e.Volume = true ∧
          1 ≤ d.Volume ∧ d.Volume ≤ 5) := by
    rw [mem_keys_ValidateDeployment, catalogIndex_Volume_iff]
    constructor
    · rintro (h | ⟨h, -⟩ | ⟨-, h⟩ | ⟨h, -⟩ | ⟨h, -⟩)
      · exact absurd h (Validator.not_mem_keys_New _)
      · exact absurd h (by decide)
      · rintro ⟨e, he, hv, h1, h5⟩
        rcases h with h | h | h
        · omega
        · omega
        · exact h ⟨⟨e, he, hv⟩, by omega⟩
      · exact absurd h (by decide)
      · exact absurd h (by decide)
    · intro h
      refine Or.inr (Or.inr (Or.inl ⟨rfl, ?_⟩))
      by_cases h0 : d.Volume < 0
      · exact Or.inl h0
      by_cases h5 : 5 < d.Volume
      · exact Or.inr (Or.inl h5)
      refine Or.inr (Or.inr ?_)
      rintro ⟨⟨e, he, hv⟩, hne⟩
      exact h ⟨e, he, hv, by omega, by omega⟩
  refine ⟨key, ?_, ?_⟩
  · rintro - h0
    rw [key]
    rintro ⟨e, -, -, h1, -⟩
    omega
  · intro hno
    rw [key]
    rintro ⟨e, he, hv, -, -⟩
    rw [hno e he] at hv
    exact Bool.false_ne_true hv

/-- C3 at inputs: volume 0 with the storage-capable image `redis`, and volume 3 with an
image that the catalog does not have. -/
theorem ValidateDeployment_volume_error_iff_witness :
    "volume" ∈ (ValidateDeployment Validator.New redisNoVolume).Errors.keys ∧
    "volume" ∈ (ValidateDeployment Validator.New unknownImage).Errors.keys :=
  ⟨(ValidateDeployment_volume_error_iff redisNoVolume).2.1
      ⟨⟨true, []⟩, by decide, rfl⟩ rfl,
   (ValidateDeployment_volume_error_iff unknownImage).2.2 (by
      intro e he
      have hn : catalogLookup unknownImage.Image = none := by decide
      rw [hn] at he
      cases he)⟩

/-- C4.  `ValidateDeployment` on a fresh validator evaluates every check: the keys of
`Errors` are exactly the violated fields.  `image` is there iff the image is empty or not in
the catalog, `replicas` iff the replicas are outside `[1,4]`, `volume` iff one of the three
volume checks fails, `env_vars` iff `CheckEnvVars` is false, and there is no other key.  Each
equivalence is independent of the other fields. -/
theorem ValidateDeployment_reports_every_violation (d : Deployment) :
    ("image" ∈ (ValidateDeployment Validator.New d).Errors.keys ↔
      (d.Image = "" ∨ catalogLookup d.Image = none)) ∧
    ("replicas" ∈ (ValidateDeployment Validator.New d).Errors.keys ↔
      ¬ (1 ≤ d.Replicas ∧ d.Replicas ≤ 4)) ∧
    ("volume" ∈ (ValidateDeployment Validator.New d).Errors.keys ↔
      ¬ (0 ≤ d.Volume ∧ d.Volume ≤ 5 ∧
          ((catalogIndex d.Image).Volume = true ∧ d.Volume ≠ 0))) ∧
    ("env_vars" ∈ (ValidateDeployment Validator.New d).Errors.keys ↔
      CheckEnvVars d.EnvVars (catalogIndex d.Image).EnvVars = false) ∧
    (∀ k ∈ (ValidateDeployment Validator.New d).Errors.keys,
      k = "image" ∨ k = "replicas" ∨ k = "volume" ∨ k = "env_vars") := by
  have hnew : ∀ k, k ∉ Validator.New.Errors.keys := Validator.not_mem_keys_New
  refine ⟨?_, ?_, ?_, ?_, ?_⟩
  · rw [mem_keys_ValidateDeployment]
    constructor
    · rintro (h | ⟨-, h⟩ | ⟨h, -⟩ | ⟨h, -⟩ | ⟨h, -⟩)
      · exact absurd h (hnew _)
      · exact h
      · exact absurd h (by decide)
      · exact absurd h (by decide)
      · exact absurd h (by decide)
    · exact fun h => Or.inr (Or.inl ⟨rfl, h⟩)
  · rw [mem_keys_ValidateDeployment]
    constructor
    · rintro (h | ⟨h, -⟩ | ⟨h, -⟩ | ⟨-, h⟩ | ⟨h, -⟩)
      · exact absurd h (hnew _)
      · exact absurd h (by decide)
      · exact absurd h (by decide)
      · omega
      · exact absurd h (by decide)
    · exact fun h => Or.inr (Or.inr (Or.inr (Or.inl ⟨rfl, by omega⟩)))
  · rw [mem_keys_ValidateDeployment]
    constructor
    · rintro (h | ⟨h, -⟩ | ⟨-, h⟩ | ⟨h, -⟩ | ⟨h, -⟩)
      · exact absurd h (hnew _)
      · exact absurd h (by decide)
      · rintro ⟨h0, h5, hc⟩
        rcases h with h | h | h
        · omega
        · omega
        · exact h hc
      · exact absurd h (by decide)
      · exact absurd h (by decide)
    · intro h
      refine Or.inr (Or.inr (Or.inl ⟨rfl, ?_⟩))
      by_cases h0 : d.Volume < 0
      · exact Or.inl h0
      by_cases h5 : 5 < d.Volume
      · exact Or.inr (Or.inl h5)
      exact Or.inr (Or.inr (fun hc => h ⟨by omega, by omega, hc⟩))
  · rw [mem_keys_ValidateDeployment]
    constructor
    · rintro (h | ⟨h, -⟩ | ⟨h, -⟩ | ⟨h, -⟩ | ⟨-, h⟩)
      · exact absurd h (hnew _)
      · exact absurd h (by decide)
      · exact absurd h (by decide)
      · exact absurd h (by decide)
      · exact h
    · exact fun h => Or.inr (Or.inr (Or.inr (Or.inr ⟨rfl, h⟩)))
  · intro k hk
    rw [mem_keys_ValidateDeployment] at hk
    rcases hk with h | ⟨h, -⟩ | ⟨h, -⟩ | ⟨h, -⟩ | ⟨h, -⟩
    · exact absurd h (hnew _)
    · exact Or.inl h
    · exact Or.inr (Or.inr (Or.inl h))
    · exact Or.inr (Or.inl h)
    · exact Or.inr (Or.inr (Or.inr h))

/-- C5.  In the validation of the update handler an error under `port` is recorded exactly
when the requested port is not 0 and lies outside `[30000, 32767]`. -/
theorem updateValidation_port_error_iff (d : Deployment) :
    "port" ∈ (updateValidation d).Errors.keys ↔
      d.Port ≠ 0 ∧ (d.Port < 30000 ∨ 32767 < d.Port) := by
  have hbase : "port" ∉ (ValidateDeployment Validator.New d).Errors.keys := by
    rw [mem_keys_ValidateDeployment]
    rintro (h | ⟨h, -⟩ | ⟨h, -⟩ | ⟨h, -⟩ | ⟨h, -⟩)
    · exact Validator.not_mem_keys_New _ h
    all_goals exact absurd h (by decide)
  unfold updateValidation
  by_cases hp : d.Port = 0
  · simp [hp, hbase]
  · have hp2 : (d.Port != 0) = true := by simpa using hp
    simp only [hp2, if_true, Validator.mem_keys_Check, hbase, false_or, and_true,
      decide_eq_false_iff_not, not_le, ge_iff_le, ne_eq, hp, not_false_eq_true, true_and]

/-! ## Resource naming -/

theorem digitChar_facts : ∀ k, k < 10 →
    Nat.digitChar k ≠ '-' ∧ (Nat.digitChar k).toNat - 48 = k := by
  decide

theorem digitsValue_append_singleton (l : List Char) (c : Char) :
    digitsValue (l ++ [c]) = 10 * digitsValue l + (c.toNat - 48) := by
  simp [digitsValue, List.foldl_append]

theorem toDigitsCore_spec (fuel : Nat) : ∀ (n : Nat) (ds : List Char), n < fuel →
    ∃ l, Nat.toDigitsCore 10 fuel n ds = l ++ ds ∧ l ≠ [] ∧ (∀ c ∈ l, c ≠ '-') ∧
      digitsValue l = n := by
  induction fuel with
  | zero => intro n ds h; omega
  | succ fuel ih =>
    intro n ds h
    have hd := digitChar_facts (n % 10) (Nat.mod_lt _ (by decide))
    simp only [Nat.toDigitsCore]
    by_cases hq : n / 10 = 0
    · refine ⟨[Nat.digitChar (n % 10)], by simp [hq], by simp, ?_, ?_⟩
      · intro c hc
        rw [List.mem_singleton] at hc
        rw [hc]
        exact hd.1
      · have := digitsValue_append_singleton [] (Nat.digitChar (n % 10))
        simp only [List.nil_append] at this
        rw [this, hd.2]
        simp [digitsValue]
        omega
    · obtain ⟨l, hl, -, hne, hval⟩ := ih (n / 10) (Nat.digitChar (n % 10) :: ds) (by omega)
      refine ⟨l ++ [Nat.digitChar (n % 10)], by simp [hq, hl], by simp, ?_, ?_⟩
      · intro c hc
        rcases List.mem_append.1 hc with hc | hc
        · exact hne c hc
        · rw [List.mem_singleton] at hc
          rw [hc]
          exact hd.1
      · rw [digitsValue_append_singleton, hval, hd.2]
        omega

theorem toDigits_spec (n : Nat) :
    Nat.toDigits 10 n ≠ [] ∧ (∀ c ∈ Nat.toDigits 10 n, c ≠ '-') ∧
      digitsValue (Nat.toDigits 10 n) = n := by
  obtain ⟨l, hl, h1, h2, h3⟩ := toDigitsCore_spec (n + 1) n [] (Nat.lt_succ_self n)
  rw [List.append_nil] at hl
  unfold Nat.toDigits
  rw [hl]
  exact ⟨h1, h2, h3⟩

theorem toDigits_no_minus (n : Nat) : '-' ∉ Nat.toDigits 10 n :=
  fun h => (toDigits_spec n).2.1 _ h rfl

theorem toDigits_injective (n m : Nat) (h : Nat.toDigits 10 n = Nat.toDigits 10 m) : n = m := by
  rw [← (toDigits_spec n).2.2, ← (toDigits_spec m).2.2, h]

/-- Two lists that are free of `x` and are each followed by `x` agree when the wholes agree. -/
theorem append_cons_cancel (x : Char) : ∀ (l1 l2 r1 r2 : List Char),
    x ∉ l1 → x ∉ l2 → l1 ++ x :: r1 = l2 ++ x :: r2 → l1 = l2 ∧ r1 = r2 := by
  intro l1
  induction l1 with
  | nil =>
    intro l2 r1 r2 _ h2 h
    cases l2 with
    | nil => simpa using h
    | cons b l2 =>
      simp only [List.nil_append, List.cons_append, List.cons.injEq] at h
      exact absurd (h.1 ▸ List.mem_cons_self _ _) h2
  | cons a l1 ih =>
    intro l2 r1 r2 h1 h2 h
    cases l2 with
    | nil =>
      simp only [List.nil_append, List.cons_append, List.cons.injEq] at h
      exact absurd (h.1 ▸ List.mem_cons_self _ _) h1
    | cons b l2 =>
      simp only [List.cons_append, List.cons.injEq] at h
      obtain ⟨hl, hr⟩ := ih l2 r1 r2 (fun hm => h1 (List.mem_cons_of_mem _ hm))
        (fun hm => h2 (List.mem_cons_of_mem _ hm)) h.2
      exact ⟨by rw [h.1, hl], hr⟩

/-- What `%d` prints, followed by a `-`, determines the number and the rest. -/
theorem formatInt_cancel (i j : Int) (r1 r2 : List Char)
    (h : (formatInt i).data ++ '-' :: r1 = (formatInt j).data ++ '-' :: r2) :
    i = j ∧ r1 = r2 := by
  cases i with
  | ofNat n =>
    cases j with
    | ofNat m =>
      simp only [formatInt] at h
      obtain ⟨h1, h2⟩ := append_cons_cancel '-' _ _ _ _ (toDigits_no_minus n)
        (toDigits_no_minus m) h
      exact ⟨by rw [toDigits_injective n m h1], h2⟩
    | negSucc m =>
      exfalso
      simp only [formatInt, List.cons_append] at h
      obtain ⟨hne, hno, -⟩ := toDigits_spec n
      cases hd : Nat.toDigits 10 n with
      | nil => exact hne hd
      | cons c cs =>
        rw [hd] at h hno
        simp only [List.cons_append, List.cons.injEq] at h
        exact hno c (List.mem_cons_self _ _) h.1
  | negSucc n =>
    cases j with
    | ofNat m =>
      exfalso
      simp only [formatInt, List.cons_append] at h
      obtain ⟨hne, hno, -⟩ := toDigits_spec m
      cases hd : Nat.toDigits 10 m with
      | nil => exact hne hd
      | cons c cs =>
        rw [hd] at h hno
        simp only [List.cons_append, List.cons.injEq] at h
        exact hno c (List.mem_cons_self _ _) h.1.symm
    | negSucc m =>
      simp only [formatInt, List.cons_append, List.cons.injEq, true_and] at h
      obtain ⟨h1, h2⟩ := append_cons_cancel '-' _ _ _ _ (toDigits_no_minus (n + 1))
        (toDigits_no_minus (m + 1)) h
      have := toDigits_injective _ _ h1
      exact ⟨by rw [show n = m by omega], h2⟩

theorem formatInt_injective (i j : Int) (h : formatInt i = formatInt j) : i = j := by
  have h2 : (formatInt i).data ++ '-' :: [] = (formatInt j).data ++ '-' :: [] := by rw [h]
  exact (formatInt_cancel i j [] [] h2).1

theorem appName_eq_iff (id1 owner1 id2 owner2 : Int)
    (h : appName id1 owner1 = appName id2 owner2) : id1 = id2 ∧ owner1 = owner2 := by
  have hd := congrArg String.data h
  simp only [appName, String.data_append] at hd
  simp only [List.append_assoc, List.cons_append, List.nil_append, List.cons.injEq,
    true_and] at hd
  obtain ⟨hid, hrest⟩ := formatInt_cancel _ _ _ _ hd
  simp only [List.cons.injEq, true_and] at hrest
  exact ⟨hid, formatInt_injective _ _ (String.ext hrest)⟩

theorem string_append_right_cancel (a b sfx : String) (h : a ++ sfx = b ++ sfx) : a = b := by
  have hd := congrArg String.data h
  simp only [String.data_append] at hd
  exact String.ext (List.append_cancel_right hd)

/-- C6.  The base name `deployment-<id>-user-<ownerId>` is an injective function of the pair
of integers, negative values included: distinct pairs give distinct base names, and hence
distinct names with each of the suffixes `-deployment`, `-service`, `-pv`, `-pv-claim` and
`-volume`. -/
theorem appName_injective (id1 owner1 id2 owner2 : Int)
    (h : (id1, owner1) ≠ (id2, owner2)) :
    appName id1 owner1 ≠ appName id2 owner2 ∧
    ∀ sfx ∈ ["-deployment", "-service", "-pv", "-pv-claim", "-volume"],
      appName id1 owner1 ++ sfx ≠ appName id2 owner2 ++ sfx := by
  have hne : appName id1 owner1 ≠ appName id2 owner2 := by
    intro he
    obtain ⟨h1, h2⟩ := appName_eq_iff _ _ _ _ he
    exact h (by rw [h1, h2])
  exact ⟨hne, fun sfx _ he => hne (string_append_right_cancel _ _ sfx he)⟩

/-- C6 at the pairs `(1, 12)`, `(11, 2)` and `(-1, 2)`, `(1, -2)`. -/
theorem appName_injective_witness :
    (appName 1 12 ≠ appName 11 2 ∧
      ∀ sfx ∈ ["-deployment", "-service", "-pv", "-pv-claim", "-volume"],
        appName 1 12 ++ sfx ≠ appName 11 2 ++ sfx) ∧
    (appName (-1) 2 ≠ appName 1 (-2) ∧
      ∀ sfx ∈ ["-deployment", "-service", "-pv", "-pv-claim", "-volume"],
        appName (-1) 2 ++ sfx ≠ appName 1 (-2) ++ sfx) :=
  ⟨appName_injective 1 12 11 2 (by decide), appName_injective (-1) 2 1 (-2) (by decide)⟩

/-! ## `Create` on an observed control plane -/

/-- The three ways lines 131-169 can go on an observed control plane: the workload is
refused; the workload is accepted and the service refused; both are accepted. -/
theorem createSubmit_traced {σ : Type} (cs : Clientset σ) (d : Deployment) (name : String)
    (obj : AppsDeployment) (s : σ) (log : List Event) :
    (∃ err s1, createSubmit cs.traced d name obj (s, log) =
      (Outcome.ret (0, some err),
        (s1, log ++ [⟨Call.createDeployment (createAddEnvVars d obj), Reply.failed err⟩]))) ∨
    (∃ w err s2, createSubmit cs.traced d name obj (s, log) =
      (Outcome.ret (0, some err),
        (s2, log ++ [⟨Call.createDeployment (createAddEnvVars d obj), Reply.deployment w⟩,
          ⟨Call.createService (createServiceObj name), Reply.failed err⟩]))) ∨
    (∃ w created s2, createSubmit cs.traced d name obj (s, log) =
      (createReturnPort created,
        (s2, log ++ [⟨Call.createDeployment (createAddEnvVars d obj), Reply.deployment w⟩,
          ⟨Call.createService (createServiceObj name), Reply.service created⟩]))) := by
  simp only [createSubmit, Clientset.traced, logged]
  rcases h1 : cs.createDeployment (createAddEnvVars d obj) s with ⟨r1, s1⟩
  cases r1 with
  | error err =>
    exact Or.inl ⟨err, s1, by simp [Reply.ofExcept]⟩
  | ok w =>
    rcases h2 : cs.createService (createServiceObj name) s1 with ⟨r2, s2⟩
    cases r2 with
    | error err =>
      exact Or.inr (Or.inl ⟨w, err, s2, by simp [h2, Reply.ofExcept]⟩)
    | ok created =>
      exact Or.inr (Or.inr ⟨w, created, s2, by simp [h2, Reply.ofExcept]⟩)

/-- Without a volume `Create` is lines 131-169 applied to the workload literal. -/
theorem Create_traced_no_volume {σ : Type} (cs : Clientset σ) (d : Deployment) (s : σ)
    (hv : d.Volume = 0) :
    Create cs.traced d (s, []) =
      createSubmit cs.traced d (appName d.ID d.UserID)
        (createDeploymentObj (appName d.ID d.UserID) d) (s, []) := by
  simp [Create, hv]

/-- With a volume `Create` panics at the first refused storage submission, and otherwise
goes on to lines 131-169 with the workload that mounts the volume. -/
theorem Create_traced_volume {σ : Type} (cs : Clientset σ) (d : Deployment) (s : σ)
    (hv : d.Volume ≠ 0) :
    (∃ err s1, Create cs.traced d (s, []) =
      (Outcome.panic err.message,
        (s1, [⟨Call.createPV (createPvObj (appName d.ID d.UserID)
          (formatInt d.Volume ++ "Gi") (appName d.ID d.UserID ++ "-storage-class")),
          Reply.failed err⟩]))) ∨
    (∃ pv err s2, Create cs.traced d (s, []) =
      (Outcome.panic err.message,
        (s2, [⟨Call.createPV (createPvObj (appName d.ID d.UserID)
          (formatInt d.Volume ++ "Gi") (appName d.ID d.UserID ++ "-storage-class")),
          Reply.pv pv⟩,
          ⟨Call.createPVC (createPvcObj (appName d.ID d.UserID)
          (formatInt d.Volume ++ "Gi") (appName d.ID d.UserID ++ "-storage-class")),
          Reply.failed err⟩]))) ∨
    (∃ pv pvc s2, Create cs.traced d (s, []) =
      createSubmit cs.traced d (appName d.ID d.UserID)
        (createMountVolume (appName d.ID d.UserID)
          (createDeploymentObj (appName d.ID d.UserID) d))
        (s2, [⟨Call.createPV (createPvObj (appName d.ID d.UserID)
          (formatInt d.Volume ++ "Gi") (appName d.ID d.UserID ++ "-storage-class")),
          Reply.pv pv⟩,
          ⟨Call.createPVC (createPvcObj (appName d.ID d.UserID)
          (formatInt d.Volume ++ "Gi") (appName d.ID d.UserID ++ "-storage-class")),
          Reply.pvc pvc⟩])) := by
  have hv2 : (d.Volume != 0) = true := by simpa using hv
  simp only [Create, hv2, if_true, Clientset.traced, logged]
  rcases h1 : cs.createPV (createPvObj (appName d.ID d.UserID)
    (formatInt d.Volume ++ "Gi") (appName d.ID d.UserID ++ "-storage-class")) s with ⟨r1, s1⟩
  cases r1 with
  | error err => exact Or.inl ⟨err, s1, by simp [Reply.ofExcept]⟩
  | ok pv =>
    rcases h2 : cs.createPVC (createPvcObj (appName d.ID d.UserID)
      (formatInt d.Volume ++ "Gi") (appName d.ID d.UserID ++ "-storage-class")) s1 with ⟨r2, s2⟩
    cases r2 with
    | error err => exact Or.inr (Or.inl ⟨pv, err, s2, by simp [h2, Reply.ofExcept]⟩)
    | ok pvc =>
      refine Or.inr (Or.inr ⟨pv, pvc, s2, ?_⟩)
      simp [h2, Reply.ofExcept, Clientset.traced, logged]


/-- Rewriting the environment of the first container leaves the replica count, the pod
volumes and the volume mounts of the containers as they were. -/
theorem modifyContainer0_env_frame (obj : AppsDeployment) (g : Container → List EnvVar) :
    (obj.modifyContainer0 (fun c => { c with Env := g c })).Spec.Replicas = obj.Spec.Replicas ∧
    (obj.modifyContainer0 (fun c => { c with Env := g c })).Spec.Template.Spec.Volumes =
      obj.Spec.Template.Spec.Volumes ∧
    (obj.modifyContainer0 (fun c => { c with Env := g c })).Spec.Template.Spec.Containers.map
      Container.VolumeMounts = obj.Spec.Template.Spec.Containers.map Container.VolumeMounts := by
  unfold AppsDeployment.modifyContainer0
  split
  · rename_i c cs h
    simp [h]
  · simp

/-- The environment loop of `Create` changes nothing but environments. -/
theorem createAddEnvVars_frame (d : Deployment) (obj : AppsDeployment) :
    (createAddEnvVars d obj).Spec.Replicas = obj.Spec.Replicas ∧
    (createAddEnvVars d obj).Spec.Template.Spec.Volumes = obj.Spec.Template.Spec.Volumes ∧
    (createAddEnvVars d obj).Spec.Template.Spec.Containers.map Container.VolumeMounts =
      obj.Spec.Template.Spec.Containers.map Container.VolumeMounts := by
  have hfold : ∀ (es : List (String × String)) (o : AppsDeployment),
      (es.foldl (fun obj e => obj.modifyContainer0
          (fun c => { c with Env := c.Env ++ [{ Name := e.1, Value := e.2 }] })) o).Spec.Replicas
        = o.Spec.Replicas ∧
      (es.foldl (fun obj e => obj.modifyContainer0
          (fun c => { c with Env := c.Env ++ [{ Name := e.1, Value := e.2 }] }))
          o).Spec.Template.Spec.Volumes = o.Spec.Template.Spec.Volumes ∧
      (es.foldl (fun obj e => obj.modifyContainer0
          (fun c => { c with Env := c.Env ++ [{ Name := e.1, Value := e.2 }] }))
          o).Spec.Template.Spec.Containers.map Container.VolumeMounts =
        o.Spec.Template.Spec.Containers.map Container.VolumeMounts := by
    intro es
    induction es with
    | nil => intro o; exact ⟨rfl, rfl, rfl⟩
    | cons e es ih =>
      intro o
      obtain ⟨h1, h2, h3⟩ := ih (o.modifyContainer0
        (fun c => { c with Env := c.Env ++ [{ Name := e.1, Value := e.2 }] }))
      obtain ⟨g1, g2, g3⟩ := modifyContainer0_env_frame o
        (fun c => c.Env ++ [{ Name := e.1, Value := e.2 }])
      simp only [List.foldl_cons]
      exact ⟨h1.trans g1, h2.trans g2, h3.trans g3⟩
  unfold createAddEnvVars
  split
  · exact hfold _ _
  · exact ⟨rfl, rfl, rfl⟩

/-- The workload that `Create` submits when there is a volume: its replica count, its one
pod volume and the one mount of its one container. -/
theorem createWorkload_volume (d : Deployment) (name : String) :
    (createAddEnvVars d (createMountVolume name (createDeploymentObj name d))).Spec.Replicas =
      some d.Replicas ∧
    (createAddEnvVars d
      (createMountVolume name (createDeploymentObj name d))).Spec.Template.Spec.Volumes =
      [{ Name := name ++ "-volume", ClaimName := name ++ "-pv-claim" }] ∧
    ∃ c, (createAddEnvVars d
      (createMountVolume name (createDeploymentObj name d))).Spec.Template.Spec.Containers = [c] ∧
      c.VolumeMounts =
        [{ Name := name ++ "-volume", MountPath := "/var/lib/" ++ name ++ "-volume" ++ "/data" }] := by
  obtain ⟨h1, h2, h3⟩ := createAddEnvVars_frame d
    (createMountVolume name (createDeploymentObj name d))
  refine ⟨h1, h2, ?_⟩
  have h4 : (createMountVolume name (createDeploymentObj name d)).Spec.Template.Spec.Containers.map
      Container.VolumeMounts =
        [[{ Name := name ++ "-volume", MountPath := "/var/lib/" ++ name ++ "-volume" ++ "/data" }]] :=
    rfl
  rw [h4] at h3
  cases hc : (createAddEnvVars d
      (createMountVolume name (createDeploymentObj name d))).Spec.Template.Spec.Containers with
  | nil => rw [hc] at h3; simp at h3
  | cons c cs =>
    rw [hc] at h3
    simp only [List.map_cons, List.cons.injEq, List.map_eq_nil_iff] at h3
    exact ⟨c, by rw [h3.2], h3.1⟩

/-- The workload that `Create` submits when there is no volume. -/
theorem createWorkload_no_volume (d : Deployment) (name : String) :
    (createAddEnvVars d (createDeploymentObj name d)).Spec.Replicas = some d.Replicas ∧
    (createAddEnvVars d (createDeploymentObj name d)).Spec.Template.Spec.Volumes = [] ∧
    ∃ c, (createAddEnvVars d (createDeploymentObj name d)).Spec.Template.Spec.Containers = [c] ∧
      c.VolumeMounts = [] := by
  obtain ⟨h1, h2, h3⟩ := createAddEnvVars_frame d (createDeploymentObj name d)
  refine ⟨h1, h2, ?_⟩
  have h4 : (createDeploymentObj name d).Spec.Template.Spec.Containers.map
      Container.VolumeMounts = [[]] := rfl
  rw [h4] at h3
  cases hc : (createAddEnvVars d (createDeploymentObj name d)).Spec.Template.Spec.Containers with
  | nil => rw [hc] at h3; simp at h3
  | cons c cs =>
    rw [hc] at h3
    simp only [List.map_cons, List.cons.injEq, List.map_eq_nil_iff] at h3
    exact ⟨c, by rw [h3.2], h3.1⟩


/-- Every workload that `Create` submits carries `deployment.Replicas` as its replica count;
`deployment.Running` is not consulted. -/
theorem Create_workload_replicas {σ : Type} (cs : Clientset σ) (d : Deployment) (s : σ) :
    ∀ w ∈ submittedWorkloads (Create cs.traced d (s, [])).2.2,
      w.Spec.Replicas = some d.Replicas := by
  by_cases hv : d.Volume = 0
  · rw [Create_traced_no_volume cs d s hv]
    rcases createSubmit_traced cs d (appName d.ID d.UserID)
      (createDeploymentObj (appName d.ID d.UserID) d) s [] with
      ⟨err, s1, h⟩ | ⟨w, err, s2, h⟩ | ⟨w, created, s2, h⟩ <;>
    · rw [h]
      simp [submittedWorkloads, (createWorkload_no_volume d _).1]
  · rcases Create_traced_volume cs d s hv with
      ⟨err, s1, h⟩ | ⟨pv, err, s2, h⟩ | ⟨pv, pvc, s2, h⟩
    · rw [h]; simp [submittedWorkloads]
    · rw [h]; simp [submittedWorkloads]
    · rw [h]
      rcases createSubmit_traced cs d (appName d.ID d.UserID)
        (createMountVolume (appName d.ID d.UserID)
          (createDeploymentObj (appName d.ID d.UserID) d)) s2 _ with
        ⟨err, s1, h⟩ | ⟨w, err, s2, h⟩ | ⟨w, created, s2, h⟩ <;>
      · rw [h]
        simp [submittedWorkloads, (createWorkload_volume d _).1]

/-- C7, as it is worded, fails: `redisPaused` has `Running = false` and two replicas, so the
claim asks for a workload with replica count 0; the one workload that `Create` submits has
replica count 2. -/
theorem Create_paused_submits_replicas :
    redisPaused.Running = false ∧
    (if redisPaused.Running then redisPaused.Replicas else 0) = 0 ∧
    (submittedWorkloads
      (Create (scriptedClientset 31000).traced redisPaused ([], [])).2.2).map
        (fun w => w.Spec.Replicas) = [some 2] := by
  decide

/-- When no call fails, `Create` submits one workload. -/
theorem Create_submits_one_workload {σ : Type} (cs : Clientset σ) (d : Deployment) (s : σ)
    (hall : ∀ e ∈ (Create cs.traced d (s, [])).2.2, e.reply.isFailed = false) :
    ∃ w, submittedWorkloads (Create cs.traced d (s, [])).2.2 = [w] := by
  by_cases hv : d.Volume = 0
  · rw [Create_traced_no_volume cs d s hv] at hall ⊢
    rcases createSubmit_traced cs d (appName d.ID d.UserID)
      (createDeploymentObj (appName d.ID d.UserID) d) s [] with
      ⟨err, s1, h⟩ | ⟨w, err, s2, h⟩ | ⟨w, created, s2, h⟩
    · rw [h] at hall
      simp [Reply.isFailed] at hall
    · rw [h] at hall
      simp [Reply.isFailed] at hall
    · rw [h]
      exact ⟨createAddEnvVars d (createDeploymentObj (appName d.ID d.UserID) d),
        by simp [submittedWorkloads]⟩
  · rcases Create_traced_volume cs d s hv with
      ⟨err, s1, h⟩ | ⟨pv, err, s2, h⟩ | ⟨pv, pvc, s2, h⟩
    · rw [h] at hall
      simp [Reply.isFailed] at hall
    · rw [h] at hall
      simp [Reply.isFailed] at hall
    · rw [h] at hall ⊢
      rcases createSubmit_traced cs d (appName d.ID d.UserID)
        (createMountVolume (appName d.ID d.UserID)
          (createDeploymentObj (appName d.ID d.UserID) d)) s2 _ with
        ⟨err, s1, h⟩ | ⟨w, err, s2, h⟩ | ⟨w, created, s2, h⟩
      · rw [h] at hall
        simp [Reply.isFailed] at hall
      · rw [h] at hall
        simp [Reply.isFailed] at hall
      · rw [h]
        exact ⟨createAddEnvVars d (createMountVolume (appName d.ID d.UserID)
          (createDeploymentObj (appName d.ID d.UserID) d)), by simp [submittedWorkloads]⟩

/-- C7, amended.  On every control plane, every workload that `Create` submits has replica
count `deployment.Replicas`, whatever `deployment.Running` is; so for `Running = true`, the
value with which `createDeploymentHandler` calls it, the replica count is
`deployment.Running ? deployment.Replicas : 0`; and when no call fails one workload is
submitted. -/
theorem Create_replicas_when_running {σ : Type} (cs : Clientset σ) (d : Deployment) (s : σ) :
    (∀ w ∈ submittedWorkloads (Create cs.traced d (s, [])).2.2,
      w.Spec.Replicas = some d.Replicas) ∧
    (d.Running = true →
      ∀ w ∈ submittedWorkloads (Create cs.traced d (s, [])).2.2,
        w.Spec.Replicas = some (if d.Running then d.Replicas else 0)) ∧
    ((∀ e ∈ (Create cs.traced d (s, [])).2.2, e.reply.isFailed = false) →
      ∃ w, submittedWorkloads (Create cs.traced d (s, [])).2.2 = [w]) := by
  refine ⟨Create_workload_replicas cs d s, fun hr w hw => ?_,
    Create_submits_one_workload cs d s⟩
  rw [Create_workload_replicas cs d s w hw, hr]
  rfl

/-- C7 (amended) at an input: `port40000` has `Running = true` and one replica; with no call
failing `Create` submits one workload, with replica count 1. -/
theorem Create_replicas_when_running_witness :
    port40000.Running = true ∧
    (∃ w, submittedWorkloads
      (Create (scriptedClientset 31000).traced port40000 ([], [])).2.2 = [w]) ∧
    ∀ w ∈ submittedWorkloads (Create (scriptedClientset 31000).traced port40000 ([], [])).2.2,
      w.Spec.Replicas = some (if port40000.Running then port40000.Replicas else 0) :=
  ⟨rfl,
    (Create_replicas_when_running (scriptedClientset 31000) port40000 []).2.2 (by decide),
    (Create_replicas_when_running (scriptedClientset 31000) port40000 []).2.1 rfl⟩


/-- C8.  With `volume > 0`, `Create` builds a storage-volume `pv` and a storage-claim `pvc`
of the same capacity `<volume>Gi`, the same storage class `<base>-storage-class` and
`ReadWriteOnce` access, and a workload `w` whose one pod volume refers to the claim by the
name of `pvc` and whose one container has one mount, named like that volume; the calls it
makes are, in this order, create `pv`, create `pvc`, create `w`, create the service: a
non-empty initial part of these, and all four when no call fails.  With `volume = 0` the
calls are an initial part of create `w`, create the service (so no storage object is
submitted), and `w` has no pod volume and no mount. -/
theorem Create_storage_objects {σ : Type} (cs : Clientset σ) (d : Deployment) (s : σ) :
    (0 < d.Volume →
      ∃ pv pvc w svc v m c,
        pv.Spec.Capacity = [(ResourceStorage, MustParse (formatInt d.Volume ++ "Gi"))] ∧
        pvc.Spec.Requests = [(ResourceStorage, MustParse (formatInt d.Volume ++ "Gi"))] ∧
        pv.Spec.StorageClassName = appName d.ID d.UserID ++ "-storage-class" ∧
        pvc.Spec.StorageClassName = some (appName d.ID d.UserID ++ "-storage-class") ∧
        pv.Spec.AccessModes = [AccessMode.ReadWriteOnce] ∧
        pvc.Spec.AccessModes = [AccessMode.ReadWriteOnce] ∧
        w.Spec.Template.Spec.Volumes = [v] ∧ v.ClaimName = pvc.ObjectMeta.Name ∧
        w.Spec.Template.Spec.Containers = [c] ∧ c.VolumeMounts = [m] ∧ m.Name = v.Name ∧
        calls (Create cs.traced d (s, [])).2.2 <+:
          [Call.createPV pv, Call.createPVC pvc, Call.createDeployment w,
            Call.createService svc] ∧
        calls (Create cs.traced d (s, [])).2.2 ≠ [] ∧
        ((∀ e ∈ (Create cs.traced d (s, [])).2.2, e.reply.isFailed = false) →
          calls (Create cs.traced d (s, [])).2.2 =
            [Call.createPV pv, Call.createPVC pvc, Call.createDeployment w,
              Call.createService svc])) ∧
    (d.Volume = 0 →
      ∃ w svc c,
        w.Spec.Template.Spec.Volumes = [] ∧
        w.Spec.Template.Spec.Containers = [c] ∧ c.VolumeMounts = [] ∧
        calls (Create cs.traced d (s, [])).2.2 <+:
          [Call.createDeployment w, Call.createService svc] ∧
        calls (Create cs.traced d (s, [])).2.2 ≠ [] ∧
        ((∀ e ∈ (Create cs.traced d (s, [])).2.2, e.reply.isFailed = false) →
          calls (Create cs.traced d (s, [])).2.2 =
            [Call.createDeployment w, Call.createService svc])) := by
  constructor
  · intro hpos
    have hv : d.Volume ≠ 0 := by omega
    obtain ⟨-, hV, c, hC, hM⟩ := createWorkload_volume d (appName d.ID d.UserID)
    refine ⟨createPvObj (appName d.ID d.UserID) (formatInt d.Volume ++ "Gi")
        (appName d.ID d.UserID ++ "-storage-class"),
      createPvcObj (appName d.ID d.UserID) (formatInt d.Volume ++ "Gi")
        (appName d.ID d.UserID ++ "-storage-class"),
      createAddEnvVars d (createMountVolume (appName d.ID d.UserID)
        (createDeploymentObj (appName d.ID d.UserID) d)),
      createServiceObj (appName d.ID d.UserID), _, _, c,
      rfl, rfl, rfl, rfl, rfl, rfl, hV, rfl, hC, hM, rfl, ?_⟩
    rcases Create_traced_volume cs d s hv with
      ⟨err, s1, h⟩ | ⟨pv, err, s2, h⟩ | ⟨pv, pvc, s2, h⟩
    · rw [h]
      refine ⟨⟨_, rfl⟩, by simp [calls], fun hall => ?_⟩
      simp [Reply.isFailed] at hall
    · rw [h]
      refine ⟨⟨_, rfl⟩, by simp [calls], fun hall => ?_⟩
      simp [Reply.isFailed] at hall
    · rw [h]
      rcases createSubmit_traced cs d (appName d.ID d.UserID)
        (createMountVolume (appName d.ID d.UserID)
          (createDeploymentObj (appName d.ID d.UserID) d)) s2 _ with
        ⟨err, s1, h⟩ | ⟨w, err, s2, h⟩ | ⟨w, created, s2, h⟩
      · rw [h]
        refine ⟨⟨_, rfl⟩, by simp [calls], fun hall => ?_⟩
        simp [Reply.isFailed] at hall
      · rw [h]
        refine ⟨⟨_, rfl⟩, by simp [calls], fun hall => ?_⟩
        simp [Reply.isFailed] at hall
      · rw [h]
        exact ⟨⟨[], rfl⟩, by simp [calls], fun _ => rfl⟩
  · intro hv
    obtain ⟨-, hV, c, hC, hM⟩ := createWorkload_no_volume d (appName d.ID d.UserID)
    refine ⟨createAddEnvVars d (createDeploymentObj (appName d.ID d.UserID) d),
      createServiceObj (appName d.ID d.UserID), c, hV, hC, hM, ?_⟩
    rw [Create_traced_no_volume cs d s hv]
    rcases createSubmit_traced cs d (appName d.ID d.UserID)
      (createDeploymentObj (appName d.ID d.UserID) d) s [] with
      ⟨err, s1, h⟩ | ⟨w, err, s2, h⟩ | ⟨w, created, s2, h⟩
    · rw [h]
      refine ⟨⟨_, rfl⟩, by simp [calls], fun hall => ?_⟩
      simp [Reply.isFailed] at hall
    · rw [h]
      refine ⟨⟨_, rfl⟩, by simp [calls], fun hall => ?_⟩
      simp [Reply.isFailed] at hall
    · rw [h]
      exact ⟨⟨[], rfl⟩, by simp [calls], fun _ => rfl⟩


/-- C8 at inputs: a `postgres` deployment with volume 1 and a `redis` deployment with
volume 0, on a control plane that accepts every call. -/
theorem Create_storage_objects_witness :
    (∃ pv pvc w svc,
      calls (Create (scriptedClientset 31000).traced postgresExactKeys ([], [])).2.2 =
        [Call.createPV pv, Call.createPVC pvc, Call.createDeployment w,
          Call.createService svc] ∧
      pv.Spec.Capacity = [("storage", MustParse "1Gi")] ∧
      pvc.Spec.Requests = [("storage", MustParse "1Gi")] ∧
      pvc.Spec.StorageClassName = some pv.Spec.StorageClassName) ∧
    (∃ w svc,
      calls (Create (scriptedClientset 31000).traced redisNoVolume ([], [])).2.2 =
        [Call.createDeployment w, Call.createService svc] ∧
      w.Spec.Template.Spec.Volumes = []) := by
  obtain ⟨pv, pvc, w, svc, v, m, c, h1, h2, h3, h4, -, -, -, -, -, -, -, -, -, hall⟩ :=
    (Create_storage_objects (scriptedClientset 31000) postgresExactKeys []).1 (by decide)
  obtain ⟨w0, svc0, c0, g1, -, -, -, -, gall⟩ :=
    (Create_storage_objects (scriptedClientset 31000) redisNoVolume []).2 (by decide)
  have e : formatInt postgresExactKeys.Volume ++ "Gi" = "1Gi" := by decide
  rw [e] at h1 h2
  exact ⟨⟨pv, pvc, w, svc, hall (by decide), h1, h2, by rw [h4, h3]⟩,
    ⟨w0, svc0, gall (by decide), g1⟩⟩

/-- C9.  Every service that `Create` submits exposes exactly one port, with port 5432 and
target port 5432 and the node port left unset (zero), whatever `deployment.Port` is.  When
no call fails, the last call is the creation of the service, and `Create` returns the node
port of the first port entry of the service that the control plane answered with, and a
nil error. -/
theorem Create_service_and_port {σ : Type} (cs : Clientset σ) (d : Deployment) (s : σ) :
    (∀ svc, Call.createService svc ∈ calls (Create cs.traced d (s, [])).2.2 →
      svc.Spec.Ports = [{ Port := 5432, Protocol := "TCP", TargetPort := 5432, NodePort := 0 }]) ∧
    ((∀ e ∈ (Create cs.traced d (s, [])).2.2, e.reply.isFailed = false) →
      ∃ svc created,
        (Create cs.traced d (s, [])).2.2.getLast? =
          some ⟨Call.createService svc, Reply.service created⟩ ∧
        ∀ p rest, created.Spec.Ports = p :: rest →
          (Create cs.traced d (s, [])).1 = Outcome.ret (p.NodePort, none)) := by
  have hsubmit : ∀ (obj : AppsDeployment) (s0 : σ) (pre : List Event),
      (∀ svc, Call.createService svc ∉ calls pre) →
      (∀ svc, Call.createService svc ∈
          calls (createSubmit cs.traced d (appName d.ID d.UserID) obj (s0, pre)).2.2 →
        svc.Spec.Ports =
          [{ Port := 5432, Protocol := "TCP", TargetPort := 5432, NodePort := 0 }]) ∧
      ((∀ e ∈ (createSubmit cs.traced d (appName d.ID d.UserID) obj (s0, pre)).2.2,
          e.reply.isFailed = false) →
        ∃ svc created,
          (createSubmit cs.traced d (appName d.ID d.UserID) obj (s0, pre)).2.2.getLast? =
            some ⟨Call.createService svc, Reply.service created⟩ ∧
          ∀ p rest, created.Spec.Ports = p :: rest →
            (createSubmit cs.traced d (appName d.ID d.UserID) obj (s0, pre)).1 =
              Outcome.ret (p.NodePort, none)) := by
    intro obj s0 pre hpre
    rcases createSubmit_traced cs d (appName d.ID d.UserID) obj s0 pre with
      ⟨err, s1, h⟩ | ⟨w, err, s2, h⟩ | ⟨w, created, s2, h⟩
    · rw [h]
      constructor
      · intro svc hm
        simp [calls] at hm
        exact absurd (by simpa [calls] using hm) (hpre svc)
      · intro hall
        have := hall ⟨Call.createDeployment (createAddEnvVars d obj), Reply.failed err⟩
          (by simp)
        simp [Reply.isFailed] at this
    · rw [h]
      constructor
      · intro svc hm
        simp only [calls, List.map_append, List.mem_append, List.map_cons, List.map_nil,
          List.mem_cons, Call.createService.injEq, List.mem_nil_iff, or_false, false_or,
          reduceCtorEq] at hm
        rcases hm with hm | hm
        · exact absurd hm (hpre svc)
        · rw [hm]; rfl
      · intro hall
        have := hall ⟨Call.createService (createServiceObj (appName d.ID d.UserID)),
          Reply.failed err⟩ (by simp)
        simp [Reply.isFailed] at this
    · rw [h]
      constructor
      · intro svc hm
        simp only [calls, List.map_append, List.mem_append, List.map_cons, List.map_nil,
          List.mem_cons, Call.createService.injEq, List.mem_nil_iff, or_false, false_or,
          reduceCtorEq] at hm
        rcases hm with hm | hm
        · exact absurd hm (hpre svc)
        · rw [hm]; rfl
      · intro _
        refine ⟨createServiceObj (appName d.ID d.UserID), created, by simp, ?_⟩
        intro p rest hp
        simp [createReturnPort, hp]
  by_cases hv : d.Volume = 0
  · rw [Create_traced_no_volume cs d s hv]
    exact hsubmit _ s [] (by simp [calls])
  · rcases Create_traced_volume cs d s hv with
      ⟨err, s1, h⟩ | ⟨pv, err, s2, h⟩ | ⟨pv, pvc, s2, h⟩
    · rw [h]
      exact ⟨fun svc hm => by simp [calls] at hm, fun hall => by simp [Reply.isFailed] at hall⟩
    · rw [h]
      exact ⟨fun svc hm => by simp [calls] at hm, fun hall => by simp [Reply.isFailed] at hall⟩
    · rw [h]
      exact hsubmit _ s2 _ (by simp [calls])

/-- C9 at an input: a deployment that asks for port 40000, on a control plane that accepts
every call and assigns node port 31000. -/
theorem Create_service_and_port_witness :
    (createServiceObj (appName 1 1)).Spec.Ports =
      [{ Port := 5432, Protocol := "TCP", TargetPort := 5432, NodePort := 0 }] ∧
    ∃ svc created,
      (Create (scriptedClientset 31000).traced port40000 ([], [])).2.2.getLast? =
        some ⟨Call.createService svc, Reply.service created⟩ ∧
      ∀ p rest, created.Spec.Ports = p :: rest →
        (Create (scriptedClientset 31000).traced port40000 ([], [])).1 =
          Outcome.ret (p.NodePort, none) :=
  ⟨(Create_service_and_port (scriptedClientset 31000) port40000 []).1
      (createServiceObj (appName 1 1)) (by decide),
   (Create_service_and_port (scriptedClientset 31000) port40000 []).2 (by decide)⟩


/-- What `Create` does when a call fails, on any control plane: the failed call is the last
one made; a failed workload or service submission makes `Create` return port 0 and that
error; a failed storage-volume or storage-claim submission makes `Create` panic with the
text of the error instead of returning. -/
theorem Create_failure_outcome {σ : Type} (cs : Clientset σ) (d : Deployment) (s : σ)
    (c : Call) (err : APIError)
    (hm : ⟨c, Reply.failed err⟩ ∈ (Create cs.traced d (s, [])).2.2) :
    (Create cs.traced d (s, [])).2.2.getLast? = some ⟨c, Reply.failed err⟩ ∧
    (((∃ w, c = Call.createDeployment w) ∨ (∃ svc, c = Call.createService svc)) →
      (Create cs.traced d (s, [])).1 = Outcome.ret (0, some err)) ∧
    (((∃ pv, c = Call.createPV pv) ∨ (∃ pvc, c = Call.createPVC pvc)) →
      (Create cs.traced d (s, [])).1 = Outcome.panic err.message) := by
  have hsubmit : ∀ (obj : AppsDeployment) (s0 : σ) (pre : List Event),
      (∀ e ∈ pre, e.reply.isFailed = false) →
      ⟨c, Reply.failed err⟩ ∈
        (createSubmit cs.traced d (appName d.ID d.UserID) obj (s0, pre)).2.2 →
      (createSubmit cs.traced d (appName d.ID d.UserID) obj (s0, pre)).2.2.getLast? =
        some ⟨c, Reply.failed err⟩ ∧
      (((∃ w, c = Call.createDeployment w) ∨ (∃ svc, c = Call.createService svc)) →
        (createSubmit cs.traced d (appName d.ID d.UserID) obj (s0, pre)).1 =
          Outcome.ret (0, some err)) ∧
      (((∃ pv, c = Call.createPV pv) ∨ (∃ pvc, c = Call.createPVC pvc)) →
        (createSubmit cs.traced d (appName d.ID d.UserID) obj (s0, pre)).1 =
          Outcome.panic err.message) := by
    intro obj s0 pre hpre hmem
    have hnot : (⟨c, Reply.failed err⟩ : Event) ∉ pre := fun hin => by
      have := hpre _ hin
      simp [Reply.isFailed] at this
    rcases createSubmit_traced cs d (appName d.ID d.UserID) obj s0 pre with
      ⟨err1, s1, h⟩ | ⟨w, err1, s2, h⟩ | ⟨w, created, s2, h⟩
    · rw [h] at hmem ⊢
      simp only [List.mem_append, hnot, false_or, List.mem_singleton, Event.mk.injEq,
        Reply.failed.injEq] at hmem
      obtain ⟨hc, he⟩ := hmem
      subst hc he
      refine ⟨by simp, fun _ => rfl, ?_⟩
      rintro (⟨pv, hpv⟩ | ⟨pvc, hpvc⟩)
      · cases hpv
      · cases hpvc
    · rw [h] at hmem ⊢
      simp only [List.mem_append, hnot, false_or, List.mem_cons, Event.mk.injEq,
        reduceCtorEq, and_false, List.mem_nil_iff, or_false, Reply.failed.injEq] at hmem
      obtain ⟨hc, he⟩ := hmem
      subst hc he
      refine ⟨by simp, fun _ => rfl, ?_⟩
      rintro (⟨pv, hpv⟩ | ⟨pvc, hpvc⟩)
      · cases hpv
      · cases hpvc
    · rw [h] at hmem
      simp only [List.mem_append, hnot, false_or, List.mem_cons, Event.mk.injEq,
        reduceCtorEq, and_false, List.mem_nil_iff, or_false] at hmem
  by_cases hv : d.Volume = 0
  · rw [Create_traced_no_volume cs d s hv] at hm ⊢
    exact hsubmit _ s [] (by simp) hm
  · rcases Create_traced_volume cs d s hv with
      ⟨err1, s1, h⟩ | ⟨pv, err1, s2, h⟩ | ⟨pv, pvc, s2, h⟩
    · rw [h] at hm ⊢
      simp only [List.mem_singleton, Event.mk.injEq, Reply.failed.injEq] at hm
      obtain ⟨hc, he⟩ := hm
      subst hc he
      refine ⟨by simp, ?_, fun _ => rfl⟩
      rintro (⟨w, hw⟩ | ⟨svc, hsvc⟩)
      · cases hw
      · cases hsvc
    · rw [h] at hm ⊢
      simp only [List.mem_cons, Event.mk.injEq, reduceCtorEq, and_false, false_or,
        List.mem_nil_iff, or_false, Reply.failed.injEq] at hm
      obtain ⟨hc, he⟩ := hm
      subst hc he
      refine ⟨by simp, ?_, fun _ => rfl⟩
      rintro (⟨w, hw⟩ | ⟨svc, hsvc⟩)
      · cases hw
      · cases hsvc
    · rw [h] at hm ⊢
      exact hsubmit _ s2 _ (by simp [Reply.isFailed]) hm

/-- C10 (the code departs from the claim).  On a control plane that refuses the first call,
`Create` of a deployment with volume 1 makes one call, the storage-volume submission, and
then panics with the text of the error: it does not return `(0, err)`.  The same happens
when the storage-volume is accepted and the storage-claim refused. -/
theorem Create_storage_failure_panics :
    (Create (scriptedClientset 31000).traced postgresExactKeys ([some refused], [])).1 =
      Outcome.panic "connection refused" ∧
    (Create (scriptedClientset 31000).traced postgresExactKeys ([some refused], [])).1 ≠
      Outcome.ret (0, some refused) ∧
    (Create (scriptedClientset 31000).traced postgresExactKeys
      ([some refused], [])).2.2.map (fun e => e.reply.isFailed) = [true] ∧
    (Create (scriptedClientset 31000).traced postgresExactKeys
      ([none, some refused], [])).1 = Outcome.panic "connection refused" ∧
    (Create (scriptedClientset 31000).traced postgresExactKeys
      ([none, some refused], [])).2.2.map (fun e => e.reply.isFailed) = [false, true] := by
  decide

/-! ## Retry scopes on an observed control plane -/

theorem Joined.nil (P : List Event → Prop) : Joined P [] := ⟨[], rfl, by simp⟩

theorem Joined.single {P : List Event → Prop} {seg : List Event} (h : P seg) :
    Joined P seg := ⟨[seg], by simp, by simpa using h⟩

theorem Joined.append {P : List Event → Prop} {a b : List Event}
    (ha : Joined P a) (hb : Joined P b) : Joined P (a ++ b) := by
  obtain ⟨sa, rfl, hsa⟩ := ha
  obtain ⟨sb, rfl, hsb⟩ := hb
  refine ⟨sa ++ sb, by simp, ?_⟩
  intro x hx
  rcases List.mem_append.1 hx with h | h
  · exact hsa x h
  · exact hsb x h

/-- A property of all events passes from the pieces to the whole. -/
theorem Joined.forall_mem {P : List Event → Prop} {φ : Event → Prop} {seg : List Event}
    (h : Joined P seg) (hP : ∀ x, P x → ∀ e ∈ x, φ e) : ∀ e ∈ seg, φ e := by
  obtain ⟨segs, rfl, hs⟩ := h
  intro e he
  obtain ⟨x, hx, hex⟩ := List.mem_flatten.1 he
  exact hP x (hs x hx) e hex

/-- The retry loop only adds to the log, one piece per attempt. -/
theorem retryLoop_appends {σ : Type} (P : List Event → Prop)
    (fn : σ × List Event → Outcome (Option APIError) × (σ × List Event))
    (hfn : Appends P fn) (steps : Nat) :
    ∀ lastErr, Appends (Joined P) (retryLoop fn steps lastErr) := by
  induction steps with
  | zero =>
    intro lastErr st
    exact ⟨[], by simp [retryLoop], Joined.nil P⟩
  | succ n ih =>
    intro lastErr st
    obtain ⟨seg1, h1, hP1⟩ := hfn st
    unfold retryLoop
    rcases hf : fn st with ⟨r, st1⟩
    rw [hf] at h1
    simp only at h1
    cases r with
    | panic msg => exact ⟨seg1, h1, Joined.single hP1⟩
    | ret v =>
      cases v with
      | none => exact ⟨seg1, h1, Joined.single hP1⟩
      | some err =>
        by_cases hc : err.reason = StatusReason.Conflict
        · simp only [hc, if_true]
          obtain ⟨seg2, h2, hP2⟩ := ih (some err) st1
          refine ⟨seg1 ++ seg2, ?_, Joined.append (Joined.single hP1) hP2⟩
          rw [h2, h1, List.append_assoc]
        · simp only [hc, if_false]
          exact ⟨seg1, h1, Joined.single hP1⟩

theorem RetryOnConflict_appends {σ : Type} (P : List Event → Prop)
    (fn : σ × List Event → Outcome (Option APIError) × (σ × List Event))
    (hfn : Appends P fn) : Appends (Joined P) (RetryOnConflict fn) :=
  retryLoop_appends P fn hfn DefaultRetrySteps none

/-- The three ways one attempt on the storage-volume can go. -/
theorem updatePvAttempt_traced {σ : Type} (cs : Clientset σ) (name volume : String)
    (s : σ) (log : List Event) :
    (∃ err s1, updatePvAttempt cs.traced name volume (s, log) =
      (Outcome.ret (some err), (s1, log ++ [⟨Call.getPV (name ++ "-pv"), Reply.failed err⟩]))) ∨
    (∃ pv err s2, updatePvAttempt cs.traced name volume (s, log) =
      (Outcome.ret (some err), (s2, log ++ [⟨Call.getPV (name ++ "-pv"), Reply.pv pv⟩,
        ⟨Call.updatePV { pv with Spec.Capacity := [(ResourceStorage, MustParse volume)] },
          Reply.failed err⟩]))) ∨
    (∃ pv pv2 s2, updatePvAttempt cs.traced name volume (s, log) =
      (Outcome.ret none, (s2, log ++ [⟨Call.getPV (name ++ "-pv"), Reply.pv pv⟩,
        ⟨Call.updatePV { pv with Spec.Capacity := [(ResourceStorage, MustParse volume)] },
          Reply.pv pv2⟩]))) := by
  simp only [updatePvAttempt, Clientset.traced, logged]
  rcases h1 : cs.getPV (name ++ "-pv") s with ⟨r1, s1⟩
  cases r1 with
  | error err => exact Or.inl ⟨err, s1, by simp [Reply.ofExcept]⟩
  | ok pv =>
    rcases h2 : cs.updatePV
      { pv with Spec.Capacity := [(ResourceStorage, MustParse volume)] } s1 with ⟨r2, s2⟩
    cases r2 with
    | error err => exact Or.inr (Or.inl ⟨pv, err, s2, by simp [h2, Reply.ofExcept]⟩)
    | ok pv2 => exact Or.inr (Or.inr ⟨pv, pv2, s2, by simp [h2, Reply.ofExcept]⟩)

/-- The three ways one attempt on the storage-claim can go. -/
theorem updatePvcAttempt_traced {σ : Type} (cs : Clientset σ) (name volume : String)
    (s : σ) (log : List Event) :
    (∃ err s1, updatePvcAttempt cs.traced name volume (s, log) =
      (Outcome.ret (some err),
        (s1, log ++ [⟨Call.getPVC (name ++ "-pv-claim"), Reply.failed err⟩]))) ∨
    (∃ pvc err s2, updatePvcAttempt cs.traced name volume (s, log) =
      (Outcome.ret (some err), (s2, log ++ [⟨Call.getPVC (name ++ "-pv-claim"), Reply.pvc pvc⟩,
        ⟨Call.updatePVC { pvc with Spec.Requests := [(ResourceStorage, MustParse volume)] },
          Reply.failed err⟩]))) ∨
    (∃ pvc pvc2 s2, updatePvcAttempt cs.traced name volume (s, log) =
      (Outcome.ret none, (s2, log ++ [⟨Call.getPVC (name ++ "-pv-claim"), Reply.pvc pvc⟩,
        ⟨Call.updatePVC { pvc with Spec.Requests := [(ResourceStorage, MustParse volume)] },
          Reply.pvc pvc2⟩]))) := by
  simp only [updatePvcAttempt, Clientset.traced, logged]
  rcases h1 : cs.getPVC (name ++ "-pv-claim") s with ⟨r1, s1⟩
  cases r1 with
  | error err => exact Or.inl ⟨err, s1, by simp [Reply.ofExcept]⟩
  | ok pvc =>
    rcases h2 : cs.updatePVC
      { pvc with Spec.Requests := [(ResourceStorage, MustParse volume)] } s1 with ⟨r2, s2⟩
    cases r2 with
    | error err => exact Or.inr (Or.inl ⟨pvc, err, s2, by simp [h2, Reply.ofExcept]⟩)
    | ok pvc2 => exact Or.inr (Or.inr ⟨pvc, pvc2, s2, by simp [h2, Reply.ofExcept]⟩)

/-- The four ways one attempt on the service can go. -/
theorem updateServiceAttempt_traced {σ : Type} (cs : Clientset σ) (new : Deployment)
    (name : String) (s : σ) (log : List Event) :
    (∃ err s1, updateServiceAttempt cs.traced new name (s, log) =
      (Outcome.ret (some err),
        (s1, log ++ [⟨Call.getService (name ++ "-service"), Reply.failed err⟩]))) ∨
    (∃ svc msg s1, updateNodePort new svc = Outcome.panic msg ∧
      updateServiceAttempt cs.traced new name (s, log) =
      (Outcome.panic msg,
        (s1, log ++ [⟨Call.getService (name ++ "-service"), Reply.service svc⟩]))) ∨
    (∃ svc svc1 err s2, updateNodePort new svc = Outcome.ret svc1 ∧
      updateServiceAttempt cs.traced new name (s, log) =
      (Outcome.ret (some err),
        (s2, log ++ [⟨Call.getService (name ++ "-service"), Reply.service svc⟩,
          ⟨Call.updateService svc1, Reply.failed err⟩]))) ∨
    (∃ svc svc1 svc2 s2, updateNodePort new svc = Outcome.ret svc1 ∧
      updateServiceAttempt cs.traced new name (s, log) =
      (Outcome.ret none,
        (s2, log ++ [⟨Call.getService (name ++ "-service"), Reply.service svc⟩,
          ⟨Call.updateService svc1, Reply.service svc2⟩]))) := by
  simp only [updateServiceAttempt, Clientset.traced, logged]
  rcases h1 : cs.getService (name ++ "-service") s with ⟨r1, s1⟩
  cases r1 with
  | error err => exact Or.inl ⟨err, s1, by simp [Reply.ofExcept]⟩
  | ok svc =>
    cases hn : updateNodePort new svc with
    | panic msg => exact Or.inr (Or.inl ⟨svc, msg, s1, hn, by simp [hn, Reply.ofExcept]⟩)
    | ret svc1 =>
      rcases h2 : cs.updateService svc1 s1 with ⟨r2, s2⟩
      cases r2 with
      | error err =>
        exact Or.inr (Or.inr (Or.inl ⟨svc, svc1, err, s2, hn, by simp [hn, h2, Reply.ofExcept]⟩))
      | ok svc2 =>
        exact Or.inr (Or.inr (Or.inr ⟨svc, svc1, svc2, s2, hn, by simp [hn, h2, Reply.ofExcept]⟩))

/-- The first attempt of a retry scope is always made. -/
theorem retryLoop_appends_succ {σ : Type} (P : List Event → Prop)
    (fn : σ × List Event → Outcome (Option APIError) × (σ × List Event))
    (hfn : Appends P fn) (n : Nat) (lastErr : Option APIError) (st : σ × List Event) :
    ∃ seg1 seg2, (retryLoop fn (n + 1) lastErr st).2.2 = st.2 ++ (seg1 ++ seg2) ∧
      (fn st).2.2 = st.2 ++ seg1 ∧ P seg1 ∧ Joined P seg2 := by
  obtain ⟨seg1, h1, hP1⟩ := hfn st
  unfold retryLoop
  rcases hf : fn st with ⟨r, st1⟩
  rw [hf] at h1
  simp only at h1
  cases r with
  | panic msg => exact ⟨seg1, [], by simpa using h1, h1, hP1, Joined.nil P⟩
  | ret v =>
    cases v with
    | none => exact ⟨seg1, [], by simpa using h1, h1, hP1, Joined.nil P⟩
    | some err =>
      by_cases hc : err.reason = StatusReason.Conflict
      · simp only [hc, if_true]
        obtain ⟨seg2, h2, hP2⟩ := retryLoop_appends P fn hfn n (some err) st1
        exact ⟨seg1, seg2, by rw [h2, h1, List.append_assoc], h1, hP1, hP2⟩
      · simp only [hc, if_false]
        exact ⟨seg1, [], by simpa using h1, h1, hP1, Joined.nil P⟩

/-- One attempt on the storage-volume adds at least one event, all of them storage events. -/
theorem updatePvAttempt_appends {σ : Type} (cs : Clientset σ) (name volume : String) :
    Appends (fun seg => seg ≠ [] ∧
        ∀ e ∈ seg, StorageEvent [(ResourceStorage, MustParse volume)] e)
      (updatePvAttempt cs.traced name volume) := by
  rintro ⟨s, log⟩
  rcases updatePvAttempt_traced cs name volume s log with
    ⟨err, s1, h⟩ | ⟨pv, err, s2, h⟩ | ⟨pv, pv2, s2, h⟩ <;>
  · rw [h]
    refine ⟨_, rfl, by simp, ?_⟩
    simp [StorageEvent, isStorageCall]

/-- One attempt on the storage-claim adds at least one event, all of them storage events. -/
theorem updatePvcAttempt_appends {σ : Type} (cs : Clientset σ) (name volume : String) :
    Appends (fun seg => seg ≠ [] ∧
        ∀ e ∈ seg, StorageEvent [(ResourceStorage, MustParse volume)] e)
      (updatePvcAttempt cs.traced name volume) := by
  rintro ⟨s, log⟩
  rcases updatePvcAttempt_traced cs name volume s log with
    ⟨err, s1, h⟩ | ⟨pvc, err, s2, h⟩ | ⟨pvc, pvc2, s2, h⟩ <;>
  · rw [h]
    refine ⟨_, rfl, by simp, ?_⟩
    simp [StorageEvent, isStorageCall]

/-- A retry scope whose attempts each add at least one event, all satisfying `φ`, adds at
least one event, all satisfying `φ`. -/
theorem RetryOnConflict_events {σ : Type} (φ : Event → Prop)
    (fn : σ × List Event → Outcome (Option APIError) × (σ × List Event))
    (hfn : Appends (fun seg => seg ≠ [] ∧ ∀ e ∈ seg, φ e) fn) (st : σ × List Event) :
    ∃ seg, (RetryOnConflict fn st).2.2 = st.2 ++ seg ∧ seg ≠ [] ∧ ∀ e ∈ seg, φ e := by
  obtain ⟨a1, a2, ha, -, ⟨hne, hP1⟩, hJ2⟩ := retryLoop_appends_succ _ _ hfn 4 none st
  refine ⟨a1 ++ a2, ha, by simp [hne], ?_⟩
  intro e he
  rcases List.mem_append.1 he with h | h
  · exact hP1 e h
  · exact Joined.forall_mem hJ2 (fun x hx => hx.2) e h

/-- The storage block adds storage events only, at least one when the volume changed and
none otherwise. -/
theorem updateStorage_appends {σ : Type} (cs : Clientset σ) (old new : Deployment)
    (name : String) (st : σ × List Event) :
    ∃ seg, (updateStorage cs.traced old new name st).2.2 = st.2 ++ seg ∧
      (∀ e ∈ seg, StorageEvent (newCapacity new) e) ∧
      (volumeChanged old new = true → seg ≠ []) ∧
      (volumeChanged old new = false → seg = []) := by
  unfold updateStorage
  by_cases hc : volumeChanged old new = true
  · rw [if_pos hc]
    dsimp only
    obtain ⟨a, ha, hane, haφ⟩ := RetryOnConflict_events _ _
      (updatePvAttempt_appends cs name (formatInt new.Volume ++ "Gi")) st
    rcases h1 : RetryOnConflict
      (updatePvAttempt cs.traced name (formatInt new.Volume ++ "Gi")) st with ⟨r1, st1⟩
    rw [h1] at ha
    simp only at ha
    have hdone : ∃ seg, st1.2 = st.2 ++ seg ∧
        (∀ e ∈ seg, StorageEvent (newCapacity new) e) ∧
        (volumeChanged old new = true → seg ≠ []) ∧
        (volumeChanged old new = false → seg = []) :=
      ⟨a, ha, haφ, fun _ => hane, fun h => by rw [hc] at h; cases h⟩
    cases r1 with
    | panic msg => exact hdone
    | ret v =>
      cases v with
      | some err => exact hdone
      | none =>
        simp only
        obtain ⟨b, hb, hbne, hbφ⟩ := RetryOnConflict_events _ _
          (updatePvcAttempt_appends cs name (formatInt new.Volume ++ "Gi")) st1
        rcases h2 : RetryOnConflict
          (updatePvcAttempt cs.traced name (formatInt new.Volume ++ "Gi")) st1 with ⟨r2, st2⟩
        rw [h2] at hb
        simp only at hb
        have hdone2 : ∃ seg, st2.2 = st.2 ++ seg ∧
            (∀ e ∈ seg, StorageEvent (newCapacity new) e) ∧
            (volumeChanged old new = true → seg ≠ []) ∧
            (volumeChanged old new = false → seg = []) := by
          refine ⟨a ++ b, by rw [hb, ha, List.append_assoc], ?_, fun _ => by simp [hane],
            fun h => by rw [hc] at h; cases h⟩
          intro e he
          rcases List.mem_append.1 he with h | h
          · exact haφ e h
          · exact hbφ e h
        cases r2 with
        | panic msg => exact hdone2
        | ret v =>
          cases v with
          | some err => exact hdone2
          | none => exact hdone2
  · simp only [Bool.not_eq_true] at hc
    simp only [hc, Bool.false_eq_true, if_false]
    exact ⟨[], by simp, by simp, by simp, fun _ => rfl⟩


theorem traced_getDeployment {σ : Type} (cs : Clientset σ) (n : String)
    (st : σ × List Event) :
    cs.traced.getDeployment n st =
      ((cs.getDeployment n st.1).1, ((cs.getDeployment n st.1).2,
        st.2 ++ [⟨Call.getDeployment n,
          Reply.ofExcept Reply.deployment (cs.getDeployment n st.1).1⟩])) := rfl

theorem traced_updateDeployment {σ : Type} (cs : Clientset σ) (obj : AppsDeployment)
    (st : σ × List Event) :
    cs.traced.updateDeployment obj st =
      ((cs.updateDeployment obj st.1).1, ((cs.updateDeployment obj st.1).2,
        st.2 ++ [⟨Call.updateDeployment obj,
          Reply.ofExcept Reply.deployment (cs.updateDeployment obj st.1).1⟩])) := rfl

/-- One attempt of the first retry scope adds a workload piece to the log. -/
theorem updateWorkloadAttempt_appends {σ : Type} (cs : Clientset σ)
    (order : MapOrder (σ × List Event)) (old new : Deployment) (name : String) :
    Appends (WorkloadPiece old new) (updateWorkloadAttempt cs.traced order old new name) := by
  rintro ⟨s, log⟩
  unfold updateWorkloadAttempt
  simp only [traced_getDeployment, traced_updateDeployment]
  rcases h1 : cs.getDeployment (name ++ "-deployment") s with ⟨r1, s1⟩
  cases r1 with
  | error err =>
    exact ⟨_, rfl, Or.inl ⟨name ++ "-deployment", err, by simp [Reply.ofExcept]⟩⟩
  | ok fetched =>
    simp only [Reply.ofExcept]
    obtain ⟨st, hst, hφ, hne, hnil⟩ := updateStorage_appends cs old new name
      (s1, log ++ [⟨Call.getDeployment (name ++ "-deployment"), Reply.deployment fetched⟩])
    rcases hS : updateStorage cs.traced old new name
      (s1, log ++ [⟨Call.getDeployment (name ++ "-deployment"), Reply.deployment fetched⟩])
      with ⟨r2, st2⟩
    rw [hS] at hst
    simp only at hst
    rw [hS]
    have hstop : ∃ seg, st2.2 = log ++ seg ∧ WorkloadPiece old new seg :=
      ⟨⟨Call.getDeployment (name ++ "-deployment"), Reply.deployment fetched⟩ :: (st ++ []),
        by rw [hst]; simp,
        Or.inr ⟨_, fetched, st, [], rfl, hφ, hne, hnil, Or.inl rfl⟩⟩
    cases r2 with
    | panic msg => exact hstop
    | ret v =>
      cases v with
      | some err => exact hstop
      | none =>
        simp only
        cases hE : updateEnvVars (order st2 old.EnvVars).1 new
          { fetched with Spec.Replicas := updateReplicas new } with
        | panic msg => exact hstop
        | ret w =>
          simp only
          rcases h3 : cs.updateDeployment w st2.1 with ⟨r3, s3⟩
          refine ⟨⟨Call.getDeployment (name ++ "-deployment"), Reply.deployment fetched⟩ ::
            (st ++ [⟨Call.updateDeployment w, Reply.ofExcept Reply.deployment r3⟩]), ?_,
            Or.inr ⟨_, fetched, st, _, rfl, hφ, hne, hnil, Or.inr ⟨w, _, _, rfl, (order st2 old.EnvVars).2, hE⟩⟩⟩
          cases r3 <;> simp [hst, Reply.ofExcept]

/-- One attempt of the last retry scope adds service events only, at least one. -/
theorem updateServiceAttempt_appends {σ : Type} (cs : Clientset σ) (new : Deployment)
    (name : String) :
    Appends (fun seg => seg ≠ [] ∧ ∀ e ∈ seg, isServiceCall e.call = true)
      (updateServiceAttempt cs.traced new name) := by
  rintro ⟨s, log⟩
  rcases updateServiceAttempt_traced cs new name s log with
    ⟨err, s1, h⟩ | ⟨svc, msg, s1, -, h⟩ | ⟨svc, svc1, err, s2, -, h⟩ |
    ⟨svc, svc1, svc2, s2, -, h⟩ <;>
  · rw [h]
    refine ⟨_, rfl, by simp, ?_⟩
    simp [isServiceCall]

/-- A retry scope makes a first attempt and then further attempts, each adding its piece. -/
theorem RetryOnConflict_appends_first {σ : Type} (P : List Event → Prop)
    (fn : σ × List Event → Outcome (Option APIError) × (σ × List Event))
    (hfn : Appends P fn) (st : σ × List Event) :
    ∃ seg1 seg2, (RetryOnConflict fn st).2.2 = st.2 ++ (seg1 ++ seg2) ∧
      P seg1 ∧ Joined P seg2 := by
  obtain ⟨a1, a2, ha, -, hP1, hJ2⟩ := retryLoop_appends_succ P fn hfn 4 none st
  exact ⟨a1, a2, ha, hP1, hJ2⟩

/-- The log of `Update` on any control plane: pieces of workload attempts, at least one,
followed by service events. -/
theorem Update_traced_shape {σ : Type} (cs : Clientset σ) (order : MapOrder (σ × List Event))
    (old new : Deployment) (s : σ) :
    ∃ w1 wrest slog,
      (Update cs.traced order old new (s, [])).2.2 = w1 ++ wrest ++ slog ∧
      WorkloadPiece old new w1 ∧ Joined (WorkloadPiece old new) wrest ∧
      (∀ e ∈ slog, isServiceCall e.call = true) := by
  unfold Update
  dsimp only
  obtain ⟨w1, w2, hw, hP1, hJ2⟩ := RetryOnConflict_appends_first _ _
    (updateWorkloadAttempt_appends cs order old new (appName old.ID old.UserID)) (s, [])
  rcases h1 : RetryOnConflict
    (updateWorkloadAttempt cs.traced order old new (appName old.ID old.UserID)) (s, [])
    with ⟨r1, st1⟩
  rw [h1] at hw
  simp only [List.nil_append] at hw
  have hstop : ∃ w1 wrest slog, st1.2 = w1 ++ wrest ++ slog ∧
      WorkloadPiece old new w1 ∧ Joined (WorkloadPiece old new) wrest ∧
      (∀ e ∈ slog, isServiceCall e.call = true) :=
    ⟨w1, w2, [], by simpa using hw, hP1, hJ2, by simp⟩
  cases r1 with
  | panic msg => exact hstop
  | ret v =>
    cases v with
    | some err => exact hstop
    | none =>
      simp only
      obtain ⟨b, hb, -, hbφ⟩ := RetryOnConflict_events _ _
        (updateServiceAttempt_appends cs new (appName old.ID old.UserID)) st1
      rcases h2 : RetryOnConflict
        (updateServiceAttempt cs.traced new (appName old.ID old.UserID)) st1 with ⟨r2, st2⟩
      rw [h2] at hb
      simp only at hb
      have hdone : ∃ w1 wrest slog, st2.2 = w1 ++ wrest ++ slog ∧
          WorkloadPiece old new w1 ∧ Joined (WorkloadPiece old new) wrest ∧
          (∀ e ∈ slog, isServiceCall e.call = true) :=
        ⟨w1, w2, b, by rw [hb, hw], hP1, hJ2, hbφ⟩
      cases r2 with
      | panic msg => exact hdone
      | ret v =>
        cases v with
        | some err => exact hdone
        | none => exact hdone


/-! ## Consequences of the shape of the log of `Update` -/

/-- Every event of the log of `Update` lies in a workload piece of the log or is a service
event. -/
theorem Update_event_cases {σ : Type} (cs : Clientset σ) (order : MapOrder (σ × List Event))
    (old new : Deployment) (s : σ) :
    ∀ e ∈ (Update cs.traced order old new (s, [])).2.2,
      (∃ piece, WorkloadPiece old new piece ∧ e ∈ piece ∧
        ∀ g ∈ piece, g ∈ (Update cs.traced order old new (s, [])).2.2) ∨
      isServiceCall e.call = true := by
  obtain ⟨w1, wrest, slog, hlog, hw1, ⟨segs, rfl, hsegs⟩, hs⟩ := Update_traced_shape cs order old new s
  intro e he
  rw [hlog] at he ⊢
  rcases List.mem_append.1 he with h | h
  · rcases List.mem_append.1 h with h | h
    · exact Or.inl ⟨w1, hw1, h, fun g hg => by simp [hg]⟩
    · obtain ⟨x, hx, hex⟩ := List.mem_flatten.1 h
      exact Or.inl ⟨x, hsegs x hx, hex, fun g hg =>
        List.mem_append_left _ (List.mem_append_right _ (List.mem_flatten.2 ⟨x, hx, hg⟩))⟩
  · exact Or.inr (hs e h)

/-- The events of a workload piece: a storage event occurs only when the volume changed and
only after a successful fetch of the workload in the same piece; a successful fetch is
followed by a storage event when the volume changed; a submitted workload is the fetched one
with the replica count and environment of `Update`. -/
theorem WorkloadPiece.facts {old new : Deployment} {piece : List Event}
    (h : WorkloadPiece old new piece) :
    (∀ e ∈ piece, isServiceCall e.call = false) ∧
    (∀ e ∈ piece, isStorageCall e.call = true →
      volumeChanged old new = true ∧ StorageEvent (newCapacity new) e ∧
        ∃ f ∈ piece, isWorkloadFetched f = true) ∧
    (∀ f ∈ piece, isWorkloadFetched f = true → volumeChanged old new = true →
      ∃ e ∈ piece, isStorageCall e.call = true) ∧
    (∀ w r, ⟨Call.updateDeployment w, r⟩ ∈ piece →
      ∃ (fetched : AppsDeployment) (listing : List (String × String)),
        listing.Perm old.EnvVars.entries ∧
        updateEnvVars listing new { fetched with Spec.Replicas := updateReplicas new } =
          Outcome.ret w) := by
  rcases h with ⟨n, err, rfl⟩ | ⟨n, fetched, st, tail, rfl, hφ, hne, hnil, htail⟩
  · refine ⟨by simp [isServiceCall], by simp [isStorageCall], by simp [isWorkloadFetched],
      by simp⟩
  · have hst_service : ∀ e ∈ st, isServiceCall e.call = false := by
      intro e he
      have := (hφ e he).1
      cases hc : e.call <;> simp [hc, isStorageCall] at this <;> simp [isServiceCall]
    have hst_noupd : ∀ w r, (⟨Call.updateDeployment w, r⟩ : Event) ∉ st := by
      intro w r hin
      have := (hφ _ hin).1
      simp [isStorageCall] at this
    have hchanged : st ≠ [] → volumeChanged old new = true := by
      intro hn
      cases hv : volumeChanged old new with
      | true => rfl
      | false => exact absurd (hnil hv) hn
    have hfetchmem : ∃ f ∈ (⟨Call.getDeployment n, Reply.deployment fetched⟩ : Event) ::
        (st ++ tail), isWorkloadFetched f = true :=
      ⟨_, List.mem_cons_self _ _, rfl⟩
    rcases htail with rfl | ⟨w, r, listing, rfl, hperm, hw⟩
    · refine ⟨?_, ?_, ?_, ?_⟩
      · intro e he
        simp only [List.append_nil, List.mem_cons] at he
        rcases he with rfl | he
        · rfl
        · exact hst_service e he
      · intro e he hs
        simp only [List.append_nil, List.mem_cons] at he
        rcases he with rfl | he
        · simp [isStorageCall] at hs
        · exact ⟨hchanged (List.ne_nil_of_mem he), hφ e he, hfetchmem⟩
      · intro f _ _ hv
        obtain ⟨e, rest, hst⟩ := List.exists_cons_of_ne_nil (hne hv)
        refine ⟨e, by simp [hst], (hφ e (by simp [hst])).1⟩
      · intro w r hin
        simp only [List.append_nil, List.mem_cons, Event.mk.injEq, reduceCtorEq, false_and,
          false_or] at hin
        exact absurd hin (hst_noupd w r)
    · refine ⟨?_, ?_, ?_, ?_⟩
      · intro e he
        simp only [List.mem_cons, List.mem_append, List.mem_nil_iff, or_false] at he
        rcases he with rfl | he | rfl
        · rfl
        · exact hst_service e he
        · rfl
      · intro e he hs
        simp only [List.mem_cons, List.mem_append, List.mem_nil_iff, or_false] at he
        rcases he with rfl | he | rfl
        · simp [isStorageCall] at hs
        · exact ⟨hchanged (List.ne_nil_of_mem he), hφ e he, hfetchmem⟩
        · simp [isStorageCall] at hs
      · intro f _ _ hv
        obtain ⟨e, rest, hst⟩ := List.exists_cons_of_ne_nil (hne hv)
        refine ⟨e, by simp [hst], (hφ e (by simp [hst])).1⟩
      · intro w2 r2 hin
        simp only [List.mem_cons, List.mem_append, List.mem_nil_iff, or_false, Event.mk.injEq,
          reduceCtorEq, false_and, false_or, Call.updateDeployment.injEq] at hin
        rcases hin with hin | ⟨rfl, -⟩
        · exact absurd hin (hst_noupd w2 r2)
        · exact ⟨fetched, listing, hperm, hw⟩


/-! ## Workload fetches and submissions in a log -/

theorem workloadWrites_append (a b : List Event) :
    ∀ last, workloadWrites (a ++ b) last =
      workloadWrites a last ++ workloadWrites b (lastFetched a last) := by
  induction a with
  | nil => intro last; simp [workloadWrites, lastFetched]
  | cons e a ih =>
    intro last
    obtain ⟨c, r⟩ := e
    cases c <;> cases r <;> simp [workloadWrites, lastFetched, ih]

/-- Storage and service events are neither fetches nor submissions of a workload. -/
theorem workloadWrites_other (l : List Event)
    (h : ∀ e ∈ l, isStorageCall e.call = true ∨ isServiceCall e.call = true) :
    ∀ last, workloadWrites l last = [] ∧ lastFetched l last = last := by
  induction l with
  | nil => intro last; simp [workloadWrites, lastFetched]
  | cons e l ih =>
    intro last
    have he := h e (List.mem_cons_self _ _)
    have ih2 := ih (fun x hx => h x (List.mem_cons_of_mem _ hx))
    obtain ⟨c, r⟩ := e
    cases c <;> simp [isStorageCall, isServiceCall] at he <;>
      cases r <;> simp [workloadWrites, lastFetched, ih2]

theorem workloadWrites_ne_nil (l : List Event) (w : AppsDeployment) (r : Reply)
    (h : ⟨Call.updateDeployment w, r⟩ ∈ l) : ∀ last, workloadWrites l last ≠ [] := by
  induction l with
  | nil => simp at h
  | cons e l ih =>
    intro last
    rcases List.mem_cons.1 h with rfl | hin
    · simp [workloadWrites]
    · obtain ⟨c, r2⟩ := e
      cases c <;> cases r2 <;> simp [workloadWrites, ih hin]

/-- What `updateEnvVars` leaves as it was: the replica count always, and the whole object
when the new map is empty. -/
theorem updateEnvVars_ret (listing : List (String × String)) (new : Deployment)
    (obj w : AppsDeployment) (h : updateEnvVars listing new obj = Outcome.ret w) :
    w.Spec.Replicas = obj.Spec.Replicas ∧ (new.EnvVars.len = 0 → w = obj) := by
  unfold updateEnvVars at h
  by_cases hl : new.EnvVars.len = 0
  · simp [hl] at h
    exact ⟨by rw [h], fun _ => h.symm⟩
  · simp only [bne_iff_ne, ne_eq, hl, not_false_eq_true, if_true] at h
    split at h
    · injection h with h
      subst h
      exact ⟨rfl, fun h0 => absurd h0 hl⟩
    · cases h

theorem updateReplicas_eq (new : Deployment) :
    updateReplicas new = some (if new.Running then new.Replicas else 0) := by
  unfold updateReplicas
  cases new.Running <;> rfl

/-- In a workload piece every submitted workload is paired with the workload fetched in the
same piece, and is that workload with the replica count and environment of `Update`. -/
theorem WorkloadPiece.writes {old new : Deployment} {piece : List Event}
    (h : WorkloadPiece old new piece) :
    ∀ last, ∀ p ∈ workloadWrites piece last, ∃ (fetched : AppsDeployment) (listing : List (String × String)),
      p.1 = some fetched ∧ listing.Perm old.EnvVars.entries ∧
      updateEnvVars listing new { fetched with Spec.Replicas := updateReplicas new } =
        Outcome.ret p.2 := by
  rcases h with ⟨n, err, rfl⟩ | ⟨n, fetched, st, tail, rfl, hφ, hne, hnil, htail⟩
  · intro last p hp
    simp [workloadWrites] at hp
  · intro last p hp
    have hst := workloadWrites_other st (fun e he => Or.inl (hφ e he).1) (some fetched)
    simp only [workloadWrites, workloadWrites_append, hst.1, hst.2, List.nil_append] at hp
    rcases htail with rfl | ⟨w, r, listing, rfl, hperm, hw⟩
    · simp [workloadWrites] at hp
    · simp only [workloadWrites, List.mem_singleton] at hp
      subst hp
      exact ⟨fetched, listing, rfl, hperm, hw⟩

/-- The pairing of `WorkloadPiece.writes` holds for the whole log of `Update`. -/
theorem Update_writes {σ : Type} (cs : Clientset σ) (order : MapOrder (σ × List Event))
    (old new : Deployment) (s : σ) :
    ∀ p ∈ workloadWrites (Update cs.traced order old new (s, [])).2.2 none,
      ∃ (fetched : AppsDeployment) (listing : List (String × String)),
        p.1 = some fetched ∧ listing.Perm old.EnvVars.entries ∧
        updateEnvVars listing new { fetched with Spec.Replicas := updateReplicas new } =
          Outcome.ret p.2 := by
  obtain ⟨w1, wrest, slog, hlog, hw1, ⟨segs, rfl, hsegs⟩, hs⟩ := Update_traced_shape cs order old new s
  have hjoin : ∀ (segs : List (List Event)), (∀ x ∈ segs, WorkloadPiece old new x) →
      ∀ last, ∀ p ∈ workloadWrites segs.flatten last, ∃ (fetched : AppsDeployment) (listing : List (String × String)),
        p.1 = some fetched ∧ listing.Perm old.EnvVars.entries ∧
        updateEnvVars listing new { fetched with Spec.Replicas := updateReplicas new } =
          Outcome.ret p.2 := by
    intro segs
    induction segs with
    | nil => intro _ last p hp; simp [workloadWrites] at hp
    | cons x xs ih =>
      intro hx last p hp
      simp only [List.flatten_cons, workloadWrites_append, List.mem_append] at hp
      rcases hp with hp | hp
      · exact (hx x (List.mem_cons_self _ _)).writes last p hp
      · exact ih (fun y hy => hx y (List.mem_cons_of_mem _ hy)) _ p hp
  intro p hp
  rw [hlog] at hp
  simp only [workloadWrites_append, List.mem_append,
    (workloadWrites_other slog (fun e he => Or.inr (hs e he)) _).1, List.not_mem_nil,
    or_false] at hp
  rcases hp with hp | hp
  · exact hw1.writes none p hp
  · exact hjoin segs hsegs _ p hp


/-! ## Runs of `Update` in which no call fails -/

theorem Clean.append_iff (a b : List Event) : Clean (a ++ b) ↔ Clean a ∧ Clean b := by
  simp only [Clean, List.mem_append]
  constructor
  · intro h
    exact ⟨fun e he => h e (Or.inl he), fun e he => h e (Or.inr he)⟩
  · rintro ⟨ha, hb⟩ e (he | he)
    · exact ha e he
    · exact hb e he

theorem Clean.not_failed {log : List Event} (h : Clean log) (c : Call) (err : APIError) :
    (⟨c, Reply.failed err⟩ : Event) ∉ log := by
  intro hin
  have := h _ hin
  simp [Reply.isFailed] at this

/-- One step of `RetryOnConflict`: the first attempt, and up to four more after a conflict. -/
theorem RetryOnConflict_step {σ : Type} (fn : σ → Outcome (Option APIError) × σ) (s : σ) :
    RetryOnConflict fn s =
      match fn s with
      | (Outcome.panic msg, s) => (Outcome.panic msg, s)
      | (Outcome.ret none, s) => (Outcome.ret none, s)
      | (Outcome.ret (some err), s) =>
        if err.reason = StatusReason.Conflict then retryLoop fn 4 (some err) s
        else (Outcome.ret (some err), s) := rfl

/-- When an attempt returns an error only together with a failed call, a retry scope in
which no call fails consists of its first attempt. -/
theorem RetryOnConflict_clean {σ : Type} (R : Outcome (Option APIError) → List Event → Prop)
    (fn : σ × List Event → Outcome (Option APIError) × (σ × List Event))
    (hfn : ∀ st, ∃ seg, (fn st).2.2 = st.2 ++ seg ∧
      (Clean seg → (∀ err, (fn st).1 ≠ Outcome.ret (some err)) ∧ R (fn st).1 seg))
    (st : σ × List Event) :
    ∃ seg, (RetryOnConflict fn st).2.2 = st.2 ++ seg ∧
      (Clean seg → (∀ err, (RetryOnConflict fn st).1 ≠ Outcome.ret (some err)) ∧
        R (RetryOnConflict fn st).1 seg) := by
  have happ : Appends (fun _ => True) fn := fun st0 => by
    obtain ⟨seg, h, -⟩ := hfn st0
    exact ⟨seg, h, trivial⟩
  rw [RetryOnConflict_step]
  obtain ⟨seg1, h1, hc1⟩ := hfn st
  rcases hf : fn st with ⟨r, st1⟩
  rw [hf] at h1 hc1
  simp only at h1 hc1
  cases r with
  | panic msg => exact ⟨seg1, h1, hc1⟩
  | ret v =>
    cases v with
    | none => exact ⟨seg1, h1, hc1⟩
    | some err =>
      by_cases hc : err.reason = StatusReason.Conflict
      · simp only [hc, if_true]
        obtain ⟨seg2, h2, -⟩ := retryLoop_appends (fun _ => True) fn happ 4 (some err) st1
        refine ⟨seg1 ++ seg2, by rw [h2, h1, List.append_assoc], ?_⟩
        intro hclean
        exact absurd rfl ((hc1 ((Clean.append_iff _ _).1 hclean).1).1 err)
      · simp only [hc, if_false]
        exact ⟨seg1, h1, hc1⟩

/-- The storage block in a run without failed calls: it returns nil, and when the volume
changed it has submitted the storage-volume and the storage-claim. -/
theorem updateStorage_clean {σ : Type} (cs : Clientset σ) (old new : Deployment)
    (name : String) (st : σ × List Event) :
    ∃ seg, (updateStorage cs.traced old new name st).2.2 = st.2 ++ seg ∧
      (Clean seg → (updateStorage cs.traced old new name st).1 = Outcome.ret none ∧
        (volumeChanged old new = true →
          (∃ pv r, (⟨Call.updatePV pv, r⟩ : Event) ∈ seg) ∧
          (∃ pvc r, (⟨Call.updatePVC pvc, r⟩ : Event) ∈ seg))) := by
  have hpv : ∀ st0 : σ × List Event, ∃ seg,
      (updatePvAttempt cs.traced name (formatInt new.Volume ++ "Gi") st0).2.2 = st0.2 ++ seg ∧
      (Clean seg →
        (∀ err, (updatePvAttempt cs.traced name (formatInt new.Volume ++ "Gi") st0).1 ≠
          Outcome.ret (some err)) ∧
        ((updatePvAttempt cs.traced name (formatInt new.Volume ++ "Gi") st0).1 =
            Outcome.ret none ∧ ∃ pv r, (⟨Call.updatePV pv, r⟩ : Event) ∈ seg)) := by
    rintro ⟨s0, log0⟩
    rcases updatePvAttempt_traced cs name (formatInt new.Volume ++ "Gi") s0 log0 with
      ⟨err, s1, h⟩ | ⟨pv, err, s2, h⟩ | ⟨pv, pv2, s2, h⟩
    · rw [h]
      exact ⟨_, rfl, fun hcl => absurd (List.mem_singleton.2 rfl) (hcl.not_failed _ err)⟩
    · rw [h]
      exact ⟨_, rfl, fun hcl => absurd (by simp) (hcl.not_failed
        (Call.updatePV { pv with Spec.Capacity :=
          [(ResourceStorage, MustParse (formatInt new.Volume ++ "Gi"))] }) err)⟩
    · rw [h]
      exact ⟨_, rfl, fun _ => ⟨by simp, rfl,
        { pv with Spec.Capacity :=
          [(ResourceStorage, MustParse (formatInt new.Volume ++ "Gi"))] }, Reply.pv pv2,
        by simp⟩⟩
  have hpvc : ∀ st0 : σ × List Event, ∃ seg,
      (updatePvcAttempt cs.traced name (formatInt new.Volume ++ "Gi") st0).2.2 = st0.2 ++ seg ∧
      (Clean seg →
        (∀ err, (updatePvcAttempt cs.traced name (formatInt new.Volume ++ "Gi") st0).1 ≠
          Outcome.ret (some err)) ∧
        ((updatePvcAttempt cs.traced name (formatInt new.Volume ++ "Gi") st0).1 =
            Outcome.ret none ∧ ∃ pvc r, (⟨Call.updatePVC pvc, r⟩ : Event) ∈ seg)) := by
    rintro ⟨s0, log0⟩
    rcases updatePvcAttempt_traced cs name (formatInt new.Volume ++ "Gi") s0 log0 with
      ⟨err, s1, h⟩ | ⟨pvc, err, s2, h⟩ | ⟨pvc, pvc2, s2, h⟩
    · rw [h]
      exact ⟨_, rfl, fun hcl => absurd (List.mem_singleton.2 rfl) (hcl.not_failed _ err)⟩
    · rw [h]
      exact ⟨_, rfl, fun hcl => absurd (by simp) (hcl.not_failed
        (Call.updatePVC { pvc with Spec.Requests :=
          [(ResourceStorage, MustParse (formatInt new.Volume ++ "Gi"))] }) err)⟩
    · rw [h]
      exact ⟨_, rfl, fun _ => ⟨by simp, rfl,
        { pvc with Spec.Requests :=
          [(ResourceStorage, MustParse (formatInt new.Volume ++ "Gi"))] }, Reply.pvc pvc2,
        by simp⟩⟩
  unfold updateStorage
  by_cases hc : volumeChanged old new = true
  · rw [if_pos hc]
    dsimp only
    obtain ⟨a, ha, hca⟩ := RetryOnConflict_clean
      (fun res seg => res = Outcome.ret none ∧ ∃ pv r, (⟨Call.updatePV pv, r⟩ : Event) ∈ seg)
      _ hpv st
    rcases h1 : RetryOnConflict
      (updatePvAttempt cs.traced name (formatInt new.Volume ++ "Gi")) st with ⟨r1, st1⟩
    rw [h1] at ha hca
    simp only at ha hca
    cases r1 with
    | panic msg =>
      exact ⟨a, ha, fun hcl => by simpa using (hca hcl).2.1⟩
    | ret v =>
      cases v with
      | some err => exact ⟨a, ha, fun hcl => absurd rfl ((hca hcl).1 err)⟩
      | none =>
        simp only
        obtain ⟨b, hb, hcb⟩ := RetryOnConflict_clean
          (fun res seg => res = Outcome.ret none ∧
            ∃ pvc r, (⟨Call.updatePVC pvc, r⟩ : Event) ∈ seg) _ hpvc st1
        rcases h2 : RetryOnConflict
          (updatePvcAttempt cs.traced name (formatInt new.Volume ++ "Gi")) st1 with ⟨r2, st2⟩
        rw [h2] at hb hcb
        simp only at hb hcb
        refine ⟨a ++ b, ?_, ?_⟩
        · cases r2 with
          | panic msg => simp only; rw [hb, ha, List.append_assoc]
          | ret v => cases v <;> (simp only; rw [hb, ha, List.append_assoc])
        · intro hcl
          obtain ⟨hcla, hclb⟩ := (Clean.append_iff _ _).1 hcl
          obtain ⟨-, -, pv, r, hpvm⟩ := hca hcla
          obtain ⟨hnb, hrb, pvc, rc, hpvcm⟩ := hcb hclb
          subst hrb
          exact ⟨rfl, fun _ => ⟨⟨pv, r, List.mem_append_left _ hpvm⟩,
            ⟨pvc, rc, List.mem_append_right _ hpvcm⟩⟩⟩
  · simp only [Bool.not_eq_true] at hc
    simp only [hc, Bool.false_eq_true, if_false]
    exact ⟨[], by simp, fun _ => by simp⟩


theorem updateEnvVars_of_empty (listing : List (String × String)) (new : Deployment)
    (obj : AppsDeployment) (h : new.EnvVars.len = 0) :
    updateEnvVars listing new obj = Outcome.ret obj := by
  simp [updateEnvVars, h]

/-- What a run without failed calls has done, read off the log segment `seg`: both storage
objects submitted when the volume changed, and a workload submitted when the new map is
empty (so that the environment assignment cannot panic). -/
theorem updateWorkloadAttempt_clean {σ : Type} (cs : Clientset σ)
    (order : MapOrder (σ × List Event)) (old new : Deployment) (name : String)
    (st : σ × List Event) :
    ∃ seg, (updateWorkloadAttempt cs.traced order old new name st).2.2 = st.2 ++ seg ∧
      (Clean seg →
        (∀ err, (updateWorkloadAttempt cs.traced order old new name st).1 ≠
          Outcome.ret (some err)) ∧
        ((volumeChanged old new = true →
            (∃ pv r, (⟨Call.updatePV pv, r⟩ : Event) ∈ seg) ∧
            (∃ pvc r, (⟨Call.updatePVC pvc, r⟩ : Event) ∈ seg)) ∧
          (new.EnvVars.len = 0 → ∃ w r, (⟨Call.updateDeployment w, r⟩ : Event) ∈ seg))) := by
  obtain ⟨s, log⟩ := st
  unfold updateWorkloadAttempt
  simp only [traced_getDeployment, traced_updateDeployment]
  rcases h1 : cs.getDeployment (name ++ "-deployment") s with ⟨r1, s1⟩
  cases r1 with
  | error err =>
    exact ⟨_, rfl, fun hcl => absurd (by simp [Reply.ofExcept])
      (hcl.not_failed (Call.getDeployment (name ++ "-deployment")) err)⟩
  | ok fetched =>
    simp only [Reply.ofExcept]
    obtain ⟨stS, hS, hclS⟩ := updateStorage_clean cs old new name
      (s1, log ++ [⟨Call.getDeployment (name ++ "-deployment"), Reply.deployment fetched⟩])
    rcases hU : updateStorage cs.traced old new name
      (s1, log ++ [⟨Call.getDeployment (name ++ "-deployment"), Reply.deployment fetched⟩])
      with ⟨r2, st2⟩
    rw [hU] at hS hclS
    simp only at hS hclS
    try rw [hU]
    have hlog : st2.2 = log ++
        (⟨Call.getDeployment (name ++ "-deployment"), Reply.deployment fetched⟩ :: stS) := by
      rw [hS]; simp
    have hsub : Clean ((⟨Call.getDeployment (name ++ "-deployment"),
        Reply.deployment fetched⟩ : Event) :: stS) → Clean stS :=
      fun hcl e he => hcl e (List.mem_cons_of_mem _ he)
    cases r2 with
    | panic msg =>
      exact ⟨_, hlog, fun hcl => by simpa using (hclS (hsub hcl)).1⟩
    | ret v =>
      cases v with
      | some err => exact ⟨_, hlog, fun hcl => by simpa using (hclS (hsub hcl)).1⟩
      | none =>
        simp only
        cases hE : updateEnvVars (order st2 old.EnvVars).1 new
          { fetched with Spec.Replicas := updateReplicas new } with
        | panic msg =>
          refine ⟨_, hlog, fun hcl => ⟨by simp, ?_, ?_⟩⟩
          · intro hv
            obtain ⟨⟨pv, r, hpv⟩, ⟨pvc, rc, hpvc⟩⟩ := (hclS (hsub hcl)).2 hv
            exact ⟨⟨pv, r, List.mem_cons_of_mem _ hpv⟩, ⟨pvc, rc, List.mem_cons_of_mem _ hpvc⟩⟩
          · intro h0
            rw [updateEnvVars_of_empty _ new _ h0] at hE
            cases hE
        | ret w =>
          simp only
          rcases h3 : cs.updateDeployment w st2.1 with ⟨r3, s3⟩
          refine ⟨⟨Call.getDeployment (name ++ "-deployment"), Reply.deployment fetched⟩ ::
            (stS ++ [⟨Call.updateDeployment w, Reply.ofExcept Reply.deployment r3⟩]), ?_, ?_⟩
          · cases r3 <;> simp [hS, Reply.ofExcept]
          · intro hcl
            have hclS2 : Clean stS := fun e he =>
              hcl e (List.mem_cons_of_mem _ (List.mem_append_left _ he))
            cases r3 with
            | error err =>
              exact absurd (by simp [Reply.ofExcept])
                (hcl.not_failed (Call.updateDeployment w) err)
            | ok w2 =>
              refine ⟨by simp, ?_, fun _ =>
                ⟨w, Reply.ofExcept Reply.deployment (Except.ok w2), by simp⟩⟩
              intro hv
              obtain ⟨⟨pv, r, hpv⟩, ⟨pvc, rc, hpvc⟩⟩ := (hclS hclS2).2 hv
              exact ⟨⟨pv, r, List.mem_cons_of_mem _ (List.mem_append_left _ hpv)⟩,
                ⟨pvc, rc, List.mem_cons_of_mem _ (List.mem_append_left _ hpvc)⟩⟩

/-- A run of `Update` in which no call fails has submitted both storage objects when the
volume changed, and has submitted a workload when the new map is empty. -/
theorem Update_clean {σ : Type} (cs : Clientset σ) (order : MapOrder (σ × List Event))
    (old new : Deployment) (s : σ) (hcl : Clean (Update cs.traced order old new (s, [])).2.2) :
    (volumeChanged old new = true →
      (∃ pv r, (⟨Call.updatePV pv, r⟩ : Event) ∈ (Update cs.traced order old new (s, [])).2.2) ∧
      (∃ pvc r,
        (⟨Call.updatePVC pvc, r⟩ : Event) ∈ (Update cs.traced order old new (s, [])).2.2)) ∧
    (new.EnvVars.len = 0 →
      ∃ w r,
        (⟨Call.updateDeployment w, r⟩ : Event) ∈ (Update cs.traced order old new (s, [])).2.2) := by
  revert hcl
  unfold Update
  dsimp only
  obtain ⟨a, ha, hca⟩ := RetryOnConflict_clean
    (fun _ seg => (volumeChanged old new = true →
        (∃ pv r, (⟨Call.updatePV pv, r⟩ : Event) ∈ seg) ∧
        (∃ pvc r, (⟨Call.updatePVC pvc, r⟩ : Event) ∈ seg)) ∧
      (new.EnvVars.len = 0 → ∃ w r, (⟨Call.updateDeployment w, r⟩ : Event) ∈ seg))
    _ (updateWorkloadAttempt_clean cs order old new (appName old.ID old.UserID)) (s, [])
  rcases h1 : RetryOnConflict
    (updateWorkloadAttempt cs.traced order old new (appName old.ID old.UserID)) (s, [])
    with ⟨r1, st1⟩
  rw [h1] at ha hca
  simp only [List.nil_append] at ha hca
  have hstop : Clean st1.2 →
      (volumeChanged old new = true →
        (∃ pv r, (⟨Call.updatePV pv, r⟩ : Event) ∈ st1.2) ∧
        (∃ pvc r, (⟨Call.updatePVC pvc, r⟩ : Event) ∈ st1.2)) ∧
      (new.EnvVars.len = 0 → ∃ w r, (⟨Call.updateDeployment w, r⟩ : Event) ∈ st1.2) := by
    rw [ha]
    exact fun hcl => (hca hcl).2
  cases r1 with
  | panic msg => exact hstop
  | ret v =>
    cases v with
    | some err => exact hstop
    | none =>
      simp only
      obtain ⟨b, hb, -, -⟩ := RetryOnConflict_events _ _
        (updateServiceAttempt_appends cs new (appName old.ID old.UserID)) st1
      rcases h2 : RetryOnConflict
        (updateServiceAttempt cs.traced new (appName old.ID old.UserID)) st1 with ⟨r2, st2⟩
      rw [h2] at hb
      simp only at hb
      have hdone : Clean st2.2 →
          (volumeChanged old new = true →
            (∃ pv r, (⟨Call.updatePV pv, r⟩ : Event) ∈ st2.2) ∧
            (∃ pvc r, (⟨Call.updatePVC pvc, r⟩ : Event) ∈ st2.2)) ∧
          (new.EnvVars.len = 0 → ∃ w r, (⟨Call.updateDeployment w, r⟩ : Event) ∈ st2.2) := by
        rw [hb]
        intro hcl
        obtain ⟨hv, he⟩ := hstop ((Clean.append_iff _ _).1 hcl).1
        refine ⟨fun h => ?_, fun h => ?_⟩
        · obtain ⟨⟨pv, r, hpv⟩, ⟨pvc, rc, hpvc⟩⟩ := hv h
          exact ⟨⟨pv, r, List.mem_append_left _ hpv⟩, ⟨pvc, rc, List.mem_append_left _ hpvc⟩⟩
        · obtain ⟨w, r, hw⟩ := he h
          exact ⟨w, r, List.mem_append_left _ hw⟩
      cases r2 with
      | panic msg => exact hdone
      | ret v =>
        cases v with
        | some err => exact hdone
        | none => exact hdone


/-! ## `Update`: claims -/

/-- The list `env_vars` is the list of the variables that the values give, in the order of
the listing. -/
theorem updateEnvList_eq_filterMap (listing : List (String × String)) :
    updateEnvList listing = listing.filterMap (fun e =>
      match splitOnEq e.2 with
      | [key, value] => some { Name := key, Value := value }
      | _ => none) := by
  unfold updateEnvList
  have h : ∀ (l : List (String × String)) (acc : List EnvVar),
      l.foldl (fun env_vars e =>
        match splitOnEq e.2 with
        | [key, value] => env_vars ++ [{ Name := key, Value := value }]
        | _ => env_vars) acc =
      acc ++ l.filterMap (fun e =>
        match splitOnEq e.2 with
        | [key, value] => some { Name := key, Value := value }
        | _ => none) := by
    intro l
    induction l with
    | nil => intro acc; simp
    | cons e l ih =>
      intro acc
      rw [List.foldl_cons, ih, List.filterMap_cons]
      split <;> simp_all
  simpa using h listing []

/-- Two listings of one map give the same variables, possibly in another order. -/
theorem updateEnvList_perm (l1 l2 : List (String × String)) (h : l1.Perm l2) :
    (updateEnvList l1).Perm (updateEnvList l2) := by
  rw [updateEnvList_eq_filterMap, updateEnvList_eq_filterMap]
  exact h.filterMap _

/-- When no value has the form `key=value`, `env_vars` is empty. -/
theorem updateEnvList_eq_nil (listing : List (String × String))
    (h : ∀ e ∈ listing, (splitOnEq e.2).length ≠ 2) : updateEnvList listing = [] := by
  rw [updateEnvList_eq_filterMap, List.filterMap_eq_nil_iff]
  intro e he
  have := h e he
  split
  · rename_i heq
    rw [heq] at this
    simp at this
  · rfl

/-- Where the order of the loop cannot be seen in the submitted workload, it cannot be seen
in the run. -/
theorem Update_order_irrelevant {σ : Type} (cs : Clientset σ) (order : MapOrder σ)
    (old new : Deployment)
    (h : ∀ listing obj, listing.Perm old.EnvVars.entries →
      updateEnvVars listing new obj = updateEnvVars old.EnvVars.entries new obj) (s : σ) :
    Update cs order old new s = Update cs MapOrder.listed old new s := by
  have hA : ∀ n, updateWorkloadAttempt cs order old new n =
      updateWorkloadAttempt cs MapOrder.listed old new n := by
    intro n
    funext st
    have hrw : ∀ st obj, updateEnvVars (order st old.EnvVars).1 new obj =
        updateEnvVars (MapOrder.listed st old.EnvVars).1 new obj :=
      fun st obj => h _ obj (order st old.EnvVars).2
    unfold updateWorkloadAttempt
    simp only [hrw]
  unfold Update
  simp only [hA]

/-- With an empty new map the loop over the old map is not run. -/
theorem Update_order_irrelevant_of_empty {σ : Type} (cs : Clientset σ) (order : MapOrder σ)
    (old new : Deployment) (h : new.EnvVars.len = 0) (s : σ) :
    Update cs order old new s = Update cs MapOrder.listed old new s :=
  Update_order_irrelevant cs order old new
    (fun _ _ _ => by rw [updateEnvVars_of_empty _ new _ h, updateEnvVars_of_empty _ new _ h]) s

/-- With no old value of the form `key=value` every order gives the empty list. -/
theorem Update_order_irrelevant_of_values {σ : Type} (cs : Clientset σ) (order : MapOrder σ)
    (old new : Deployment) (h : ∀ e ∈ old.EnvVars.entries, (splitOnEq e.2).length ≠ 2)
    (s : σ) :
    Update cs order old new s = Update cs MapOrder.listed old new s :=
  Update_order_irrelevant cs order old new
    (fun listing obj hp => by
      unfold updateEnvVars
      rw [updateEnvList_eq_nil listing (fun e he => h e (hp.mem_iff.1 he)),
        updateEnvList_eq_nil _ h]) s

/-- When the new map is not empty, every workload that `Update` submits has, as the
environment of its first container, the list built from the values of the old map, in the
order of some listing of it. -/
theorem Update_env_is_old_list {σ : Type} (cs : Clientset σ) (order : MapOrder (σ × List Event))
    (old new : Deployment) (s : σ) (hne : new.EnvVars.len ≠ 0) :
    ∀ p ∈ workloadWrites (Update cs.traced order old new (s, [])).2.2 none,
      ∃ c cs listing, p.2.Spec.Template.Spec.Containers = c :: cs ∧
        listing.Perm old.EnvVars.entries ∧ c.Env = updateEnvList listing := by
  intro p hp
  obtain ⟨fetched, listing, -, hperm, hw⟩ := Update_writes cs order old new s p hp
  unfold updateEnvVars at hw
  simp only [bne_iff_ne, ne_eq, hne, not_false_eq_true, if_true] at hw
  split at hw
  · injection hw with hw
    rw [← hw]
    exact ⟨_, _, listing, rfl, hperm, rfl⟩
  · cases hw

/-- C11 (the code departs from the claim).  `postgresNewEnv` has a non-empty map with new
values, and all calls succeed, yet the one workload that `Update` submits has an empty
environment, not one variable per entry of the new map: the environment is built from the
values of the old map, none of which has the form `key=value`.  This is so in whatever order
the loop visits the old map. -/
theorem Update_env_not_replaced_by_new
    (order : MapOrder ((Store × Option ObjKind) × List Event)) :
    postgresNewEnv.EnvVars.len ≠ 0 ∧
    (Update (storeClientset 31000).traced order postgresExactKeys postgresNewEnv
      (postgresStore, [])).1 = Outcome.ret none ∧
    (workloadWrites (Update (storeClientset 31000).traced order postgresExactKeys
      postgresNewEnv (postgresStore, [])).2.2 none).map
        (fun p => p.2.Spec.Template.Spec.Containers.map Container.Env) = [[[]]] ∧
    postgresNewEnv.EnvVars.entries.map (fun e => EnvVar.mk e.1 e.2) =
      [⟨"POSTGRES_DB", "shop"⟩, ⟨"POSTGRES_PASSWORD", "hunter2"⟩, ⟨"POSTGRES_USER", "root"⟩] := by
  rw [Update_order_irrelevant_of_values _ order postgresExactKeys postgresNewEnv (by decide)]
  decide

/-- C12.  Every workload that `Update` submits has replica count
`new.Running ? new.Replicas : 0`, whatever the fetched workload had; when the new map is
empty it is the workload answered by the latest fetch with only the replica count changed,
so the fetched environment is submitted as it is; and in a run without a failed call such a
workload is submitted. -/
theorem Update_workload_replicas {σ : Type} (cs : Clientset σ)
    (order : MapOrder (σ × List Event)) (old new : Deployment) (s : σ) :
    (∀ p ∈ workloadWrites (Update cs.traced order old new (s, [])).2.2 none,
      p.2.Spec.Replicas = some (if new.Running then new.Replicas else 0) ∧
      (new.EnvVars.len = 0 → ∃ fetched : AppsDeployment, p.1 = some fetched ∧
        p.2 = { fetched with
          Spec.Replicas := some (if new.Running then new.Replicas else 0) })) ∧
    (new.EnvVars.len = 0 → Clean (Update cs.traced order old new (s, [])).2.2 →
      workloadWrites (Update cs.traced order old new (s, [])).2.2 none ≠ []) := by
  constructor
  · intro p hp
    obtain ⟨fetched, listing, hf, -, hw⟩ := Update_writes cs order old new s p hp
    obtain ⟨hr, he⟩ := updateEnvVars_ret listing new _ _ hw
    rw [updateReplicas_eq] at hr he
    exact ⟨hr, fun h0 => ⟨fetched, hf, he h0⟩⟩
  · intro h0 hcl
    obtain ⟨w, r, hw⟩ := (Update_clean cs order old new s hcl).2 h0
    exact workloadWrites_ne_nil _ w r hw none

/-- C12 at an input: pausing `port40000` on the control plane that `Create` left submits one
workload, with replica count 0. -/
theorem Update_workload_replicas_witness :
    workloadWrites (Update (storeClientset 31000).traced MapOrder.listed port40000
      redisOnlyPaused (redisStore, [])).2.2 none ≠ [] ∧
    ∀ p ∈ workloadWrites (Update (storeClientset 31000).traced MapOrder.listed port40000
      redisOnlyPaused (redisStore, [])).2.2 none, p.2.Spec.Replicas = some 0 :=
  ⟨(Update_workload_replicas (storeClientset 31000) MapOrder.listed port40000 redisOnlyPaused
      redisStore).2
      (by decide) (by decide),
   fun p hp =>
    ((Update_workload_replicas (storeClientset 31000) MapOrder.listed port40000 redisOnlyPaused
      redisStore).1
      p hp).1⟩

theorem volumeChanged_iff (old new : Deployment) :
    volumeChanged old new = true ↔
      old.Volume ≠ 0 ∧ new.Volume ≠ 0 ∧ old.Volume ≠ new.Volume := by
  simp [volumeChanged, and_assoc]

/-- C13, as it is worded, fails: from volume 2 to volume 3, on a control plane that refuses
the fetch of the workload, `Update` touches no storage object although both volumes are
non-zero and differ. -/
theorem Update_storage_untouched_when_fetch_fails :
    ¬ ((∃ e ∈ (Update (scriptedClientset 31000).traced MapOrder.listed port40000
          redisResized ([some refused], [])).2.2, isStorageCall e.call = true) ↔
        (port40000.Volume ≠ 0 ∧ redisResized.Volume ≠ 0 ∧
          port40000.Volume ≠ redisResized.Volume)) := by
  decide

/-- C13, amended.  `Update` reads or writes a storage object if and only if both volumes are
non-zero and differ and a fetch of the workload has succeeded (the storage block sits inside
the closure that first fetches the workload); every storage-volume and storage-claim that it
writes carries the capacity `<new.Volume>Gi`; and when both volumes are non-zero and differ
and no call fails, both are written.  In every other case no storage object is fetched or
written. -/
theorem Update_storage_iff {σ : Type} (cs : Clientset σ) (order : MapOrder (σ × List Event))
    (old new : Deployment) (s : σ) :
    ((∃ e ∈ (Update cs.traced order old new (s, [])).2.2, isStorageCall e.call = true) ↔
      (old.Volume ≠ 0 ∧ new.Volume ≠ 0 ∧ old.Volume ≠ new.Volume) ∧
        ∃ f ∈ (Update cs.traced order old new (s, [])).2.2, isWorkloadFetched f = true) ∧
    (∀ pv, Call.updatePV pv ∈ calls (Update cs.traced order old new (s, [])).2.2 →
      pv.Spec.Capacity = [(ResourceStorage, MustParse (formatInt new.Volume ++ "Gi"))]) ∧
    (∀ pvc, Call.updatePVC pvc ∈ calls (Update cs.traced order old new (s, [])).2.2 →
      pvc.Spec.Requests = [(ResourceStorage, MustParse (formatInt new.Volume ++ "Gi"))]) ∧
    ((old.Volume ≠ 0 ∧ new.Volume ≠ 0 ∧ old.Volume ≠ new.Volume) →
      Clean (Update cs.traced order old new (s, [])).2.2 →
      (∃ pv, Call.updatePV pv ∈ calls (Update cs.traced order old new (s, [])).2.2) ∧
      (∃ pvc, Call.updatePVC pvc ∈ calls (Update cs.traced order old new (s, [])).2.2)) := by
  have hev := Update_event_cases cs order old new s
  have hcap : newCapacity new =
      [(ResourceStorage, MustParse (formatInt new.Volume ++ "Gi"))] := rfl
  have hstorage : ∀ e ∈ (Update cs.traced order old new (s, [])).2.2, isStorageCall e.call = true →
      volumeChanged old new = true ∧ StorageEvent (newCapacity new) e ∧
        ∃ f ∈ (Update cs.traced order old new (s, [])).2.2, isWorkloadFetched f = true := by
    intro e he hs
    rcases hev e he with ⟨piece, hp, hin, hsub⟩ | hsvc
    · obtain ⟨hv, hse, f, hf, hff⟩ := (hp.facts).2.1 e hin hs
      exact ⟨hv, hse, f, hsub f hf, hff⟩
    · cases hc : e.call <;> simp [hc, isStorageCall] at hs <;> simp [hc, isServiceCall] at hsvc
  refine ⟨⟨?_, ?_⟩, ?_, ?_, ?_⟩
  · rintro ⟨e, he, hs⟩
    obtain ⟨hv, -, hf⟩ := hstorage e he hs
    exact ⟨(volumeChanged_iff old new).1 hv, hf⟩
  · rintro ⟨hv, f, hf, hff⟩
    rcases hev f hf with ⟨piece, hp, hin, hsub⟩ | hsvc
    · obtain ⟨e, he, hes⟩ := (hp.facts).2.2.1 f hin hff ((volumeChanged_iff old new).2 hv)
      exact ⟨e, hsub e he, hes⟩
    · obtain ⟨c, r⟩ := f
      cases c <;> simp [isServiceCall] at hsvc <;> cases r <;> simp [isWorkloadFetched] at hff
  · intro pv hpv
    obtain ⟨e, he, hec⟩ := List.mem_map.1 hpv
    rw [← hcap]
    exact (hstorage e he (by rw [hec]; rfl)).2.1.2.1 pv hec
  · intro pvc hpvc
    obtain ⟨e, he, hec⟩ := List.mem_map.1 hpvc
    rw [← hcap]
    exact (hstorage e he (by rw [hec]; rfl)).2.1.2.2 pvc hec
  · intro hv hcl
    obtain ⟨⟨pv, r, hpv⟩, ⟨pvc, rc, hpvc⟩⟩ :=
      (Update_clean cs order old new s hcl).1 ((volumeChanged_iff old new).2 hv)
    exact ⟨⟨pv, List.mem_map.2 ⟨_, hpv, rfl⟩⟩, ⟨pvc, List.mem_map.2 ⟨_, hpvc, rfl⟩⟩⟩

/-- C13 (amended) at an input: on the control plane that `Create` left, from volume 2 to
volume 3 with no call failing, both storage objects are written; every written
storage-volume carries `3Gi`. -/
theorem Update_storage_iff_witness :
    ((∃ pv, Call.updatePV pv ∈ calls (Update (storeClientset 31000).traced MapOrder.listed
        port40000 redisResized (redisStore, [])).2.2) ∧
      (∃ pvc, Call.updatePVC pvc ∈ calls (Update (storeClientset 31000).traced MapOrder.listed
        port40000 redisResized (redisStore, [])).2.2)) ∧
    (∀ pv, Call.updatePV pv ∈ calls (Update (storeClientset 31000).traced MapOrder.listed
        port40000 redisResized (redisStore, [])).2.2 →
      pv.Spec.Capacity = [(ResourceStorage, MustParse (formatInt 3 ++ "Gi"))]) :=
  ⟨(Update_storage_iff (storeClientset 31000) MapOrder.listed port40000 redisResized
      redisStore).2.2.2
      (by decide) (by decide),
   (Update_storage_iff (storeClientset 31000) MapOrder.listed port40000 redisResized
      redisStore).2.1⟩


/-- In every run of `Update` the service events come last: once the service has been
fetched, no workload or storage object is fetched or written any more, whatever the answer
to a service call is. -/
theorem Update_service_scope_last {σ : Type} (cs : Clientset σ)
    (order : MapOrder (σ × List Event)) (old new : Deployment) (s : σ) :
    ∃ wlog slog, (Update cs.traced order old new (s, [])).2.2 = wlog ++ slog ∧
      (∀ e ∈ wlog, isServiceCall e.call = false) ∧
      (∀ e ∈ slog, isServiceCall e.call = true) := by
  obtain ⟨w1, wrest, slog, hlog, hw1, hJ, hs⟩ := Update_traced_shape cs order old new s
  refine ⟨w1 ++ wrest, slog, hlog, ?_, hs⟩
  intro e he
  rcases List.mem_append.1 he with h | h
  · exact (hw1.facts).1 e h
  · exact Joined.forall_mem hJ (fun x hx => (WorkloadPiece.facts hx).1) e h

/-- C14 (the code departs from the claim).  The storage scopes are nested in the closure of
the workload scope.  On the control plane that `Create` left, with the first write of the
workload rejected once with a conflict and no other call failing, the storage-volume and the
storage-claim are each fetched and written twice.  On a scripted control plane where the
write of the storage-volume meets four conflicts and the write of the workload one, the
storage-volume is written six times, more than the five attempts of one scope.  (The new map
is empty, so no loop over the old map is run: the orders play no part.) -/
theorem Update_workload_conflict_repeats_storage
    (order : MapOrder ((Store × Option ObjKind) × List Event))
    (scriptOrder : MapOrder (List (Option APIError) × List Event)) :
    ((Update (storeClientset 31000).traced order port40000 redisResized
        ((redisStore.1, some ObjKind.deployment), [])).2.2.filter
          (fun e => e.reply.isFailed)).map (fun e => isWorkloadWrite e.call) = [true] ∧
    ((Update (storeClientset 31000).traced order port40000 redisResized
        ((redisStore.1, some ObjKind.deployment), [])).2.2.filter
          (fun e => isPvWrite e.call)).length = 2 ∧
    ((Update (storeClientset 31000).traced order port40000 redisResized
        ((redisStore.1, some ObjKind.deployment), [])).2.2.filter
          (fun e => isPvcWrite e.call)).length = 2 ∧
    ((Update (scriptedClientset 31000).traced scriptOrder port40000 redisResized
        (conflictScript, [])).2.2.filter (fun e => isPvWrite e.call)).length = 6 ∧
    DefaultRetrySteps = 5 := by
  rw [Update_order_irrelevant_of_empty _ order port40000 redisResized (by decide),
    Update_order_irrelevant_of_empty _ scriptOrder port40000 redisResized (by decide)]
  decide

/-! ## `Delete`: claims -/

/-- The five ways `Delete` can go on an observed control plane. -/
theorem Delete_traced {σ : Type} (cs : Clientset σ) (id userID : Int) (s : σ) :
    (∃ err s1, Delete cs.traced id userID (s, []) = (some err, (s1,
      [⟨Call.deletePV (appName id userID ++ "-pv"), Reply.failed err⟩]))) ∨
    (∃ err s1, Delete cs.traced id userID (s, []) = (some err, (s1,
      [⟨Call.deletePV (appName id userID ++ "-pv"), Reply.deleted⟩,
        ⟨Call.deletePVC (appName id userID ++ "-pv-claim"), Reply.failed err⟩]))) ∨
    (∃ err s1, Delete cs.traced id userID (s, []) = (some err, (s1,
      [⟨Call.deletePV (appName id userID ++ "-pv"), Reply.deleted⟩,
        ⟨Call.deletePVC (appName id userID ++ "-pv-claim"), Reply.deleted⟩,
        ⟨Call.deleteService (appName id userID ++ "-service"), Reply.failed err⟩]))) ∨
    (∃ err s1, Delete cs.traced id userID (s, []) = (some err, (s1,
      [⟨Call.deletePV (appName id userID ++ "-pv"), Reply.deleted⟩,
        ⟨Call.deletePVC (appName id userID ++ "-pv-claim"), Reply.deleted⟩,
        ⟨Call.deleteService (appName id userID ++ "-service"), Reply.deleted⟩,
        ⟨Call.deleteDeployment (appName id userID ++ "-deployment"), Reply.failed err⟩]))) ∨
    (∃ s1, Delete cs.traced id userID (s, []) = (none, (s1,
      [⟨Call.deletePV (appName id userID ++ "-pv"), Reply.deleted⟩,
        ⟨Call.deletePVC (appName id userID ++ "-pv-claim"), Reply.deleted⟩,
        ⟨Call.deleteService (appName id userID ++ "-service"), Reply.deleted⟩,
        ⟨Call.deleteDeployment (appName id userID ++ "-deployment"), Reply.deleted⟩]))) := by
  simp only [Delete, Clientset.traced, logged]
  rcases h1 : cs.deletePV (appName id userID ++ "-pv") s with ⟨r1, s1⟩
  cases r1 with
  | some err => exact Or.inl ⟨err, s1, by simp [Reply.ofDelete]⟩
  | none =>
    rcases h2 : cs.deletePVC (appName id userID ++ "-pv-claim") s1 with ⟨r2, s2⟩
    cases r2 with
    | some err => exact Or.inr (Or.inl ⟨err, s2, by simp [h2, Reply.ofDelete]⟩)
    | none =>
      rcases h3 : cs.deleteService (appName id userID ++ "-service") s2 with ⟨r3, s3⟩
      cases r3 with
      | some err => exact Or.inr (Or.inr (Or.inl ⟨err, s3, by simp [h2, h3, Reply.ofDelete]⟩))
      | none =>
        rcases h4 : cs.deleteDeployment (appName id userID ++ "-deployment") s3 with ⟨r4, s4⟩
        cases r4 with
        | some err =>
          exact Or.inr (Or.inr (Or.inr (Or.inl ⟨err, s4, by simp [h2, h3, h4, Reply.ofDelete]⟩)))
        | none =>
          exact Or.inr (Or.inr (Or.inr (Or.inr ⟨s4, by simp [h2, h3, h4, Reply.ofDelete]⟩)))

/-- C15.  On every control plane `Delete` issues its calls in the order storage-volume,
storage-claim, service, workload, on the names derived from `(id, userID)`: the calls made
are a non-empty initial part of these four.  A call that fails is the last call made and its
error is what `Delete` returns; `Delete` returns an error only if a call failed; and it
returns nil exactly when all four calls were made and none failed. -/
theorem Delete_order_and_result {σ : Type} (cs : Clientset σ) (id userID : Int) (s : σ) :
    calls (Delete cs.traced id userID (s, [])).2.2 <+:
      [Call.deletePV (appName id userID ++ "-pv"),
        Call.deletePVC (appName id userID ++ "-pv-claim"),
        Call.deleteService (appName id userID ++ "-service"),
        Call.deleteDeployment (appName id userID ++ "-deployment")] ∧
    calls (Delete cs.traced id userID (s, [])).2.2 ≠ [] ∧
    (∀ c err, ⟨c, Reply.failed err⟩ ∈ (Delete cs.traced id userID (s, [])).2.2 →
      (Delete cs.traced id userID (s, [])).1 = some err ∧
      (Delete cs.traced id userID (s, [])).2.2.getLast? = some ⟨c, Reply.failed err⟩) ∧
    (∀ err, (Delete cs.traced id userID (s, [])).1 = some err →
      ∃ c, (Delete cs.traced id userID (s, [])).2.2.getLast? = some ⟨c, Reply.failed err⟩) ∧
    ((Delete cs.traced id userID (s, [])).1 = none ↔
      (calls (Delete cs.traced id userID (s, [])).2.2 =
        [Call.deletePV (appName id userID ++ "-pv"),
          Call.deletePVC (appName id userID ++ "-pv-claim"),
          Call.deleteService (appName id userID ++ "-service"),
          Call.deleteDeployment (appName id userID ++ "-deployment")] ∧
        Clean (Delete cs.traced id userID (s, [])).2.2)) := by
  rcases Delete_traced cs id userID s with
    ⟨err, s1, h⟩ | ⟨err, s1, h⟩ | ⟨err, s1, h⟩ | ⟨err, s1, h⟩ | ⟨s1, h⟩
  · rw [h]
    refine ⟨⟨_, rfl⟩, by simp [calls], ?_, ?_, ?_⟩
    · intro c e hm
      simp only [List.mem_singleton, Event.mk.injEq, Reply.failed.injEq] at hm
      obtain ⟨rfl, rfl⟩ := hm
      simp
    · intro e he
      simp only [Option.some.injEq] at he
      subst he
      exact ⟨_, rfl⟩
    · simp [calls, Clean, Reply.isFailed]
  · rw [h]
    refine ⟨⟨_, rfl⟩, by simp [calls], ?_, ?_, ?_⟩
    · intro c e hm
      simp only [List.mem_cons, Event.mk.injEq, reduceCtorEq, and_false, false_or,
        List.mem_nil_iff, or_false, Reply.failed.injEq] at hm
      obtain ⟨rfl, rfl⟩ := hm
      simp
    · intro e he
      simp only [Option.some.injEq] at he
      subst he
      exact ⟨_, rfl⟩
    · simp [calls, Clean, Reply.isFailed]
  · rw [h]
    refine ⟨⟨_, rfl⟩, by simp [calls], ?_, ?_, ?_⟩
    · intro c e hm
      simp only [List.mem_cons, Event.mk.injEq, reduceCtorEq, and_false, false_or,
        List.mem_nil_iff, or_false, Reply.failed.injEq] at hm
      obtain ⟨rfl, rfl⟩ := hm
      simp
    · intro e he
      simp only [Option.some.injEq] at he
      subst he
      exact ⟨_, rfl⟩
    · simp [calls, Clean, Reply.isFailed]
  · rw [h]
    refine ⟨⟨_, rfl⟩, by simp [calls], ?_, ?_, ?_⟩
    · intro c e hm
      simp only [List.mem_cons, Event.mk.injEq, reduceCtorEq, and_false, false_or,
        List.mem_nil_iff, or_false, Reply.failed.injEq] at hm
      obtain ⟨rfl, rfl⟩ := hm
      simp
    · intro e he
      simp only [Option.some.injEq] at he
      subst he
      exact ⟨_, rfl⟩
    · simp [calls, Clean, Reply.isFailed]
  · rw [h]
    refine ⟨⟨_, rfl⟩, by simp [calls], ?_, ?_, ?_⟩
    · intro c e hm
      simp at hm
    · intro e he
      simp at he
    · simp [calls, Clean, Reply.isFailed]

/-- C15 at an input: a control plane that deletes the storage-volume and refuses to delete
the storage-claim. -/
theorem Delete_order_and_result_witness :
    (Delete (scriptedClientset 31000).traced 1 1 ([none, some refused], [])).1 = some refused ∧
    (Delete (scriptedClientset 31000).traced 1 1
      ([none, some refused], [])).2.2.getLast? =
        some ⟨Call.deletePVC (appName 1 1 ++ "-pv-claim"), Reply.failed refused⟩ :=
  (Delete_order_and_result (scriptedClientset 31000) 1 1 [none, some refused]).2.2.1
    (Call.deletePVC (appName 1 1 ++ "-pv-claim")) refused (by decide)

/-- C16, as it is worded, fails: for `redisNoVolume`, which asks for no volume, `Create`
succeeds on the empty control plane and submits no storage object; `Delete` with its id and
owner then fails with not-found at its first call, the deletion of the storage-volume, and
leaves the workload and the service that `Create` submitted.  (`ValidateDeployment` lets no
deployment without a volume through to `Create`.) -/
theorem Delete_after_Create_without_volume :
    (Create (storeClientset 31000) redisNoVolume (Store.empty, none)).1 =
      Outcome.ret (31000, none) ∧
    (Delete (storeClientset 31000) redisNoVolume.ID redisNoVolume.UserID
      (Create (storeClientset 31000) redisNoVolume (Store.empty, none)).2).1 =
      some (notFoundError "deployment-3-user-1-pv") ∧
    (Delete (storeClientset 31000) redisNoVolume.ID redisNoVolume.UserID
      (Create (storeClientset 31000) redisNoVolume (Store.empty, none)).2).2.1.deployments.map
        deploymentName = ["deployment-3-user-1-deployment"] ∧
    (Delete (storeClientset 31000) redisNoVolume.ID redisNoVolume.UserID
      (Create (storeClientset 31000) redisNoVolume (Store.empty, none)).2).2.1.services.map
        serviceName = ["deployment-3-user-1-service"] := by
  decide

/-- What `Create` leaves on the empty control plane when a volume is asked for, and what it
returns. -/
theorem Create_on_empty (np : Int) (d : Deployment) (f : Option ObjKind) (hv : d.Volume ≠ 0) :
    Create (storeClientset np) d (Store.empty, f) =
      (Outcome.ret (np, none),
        (Store.mk
          [createPvObj (appName d.ID d.UserID) (formatInt d.Volume ++ "Gi")
            (appName d.ID d.UserID ++ "-storage-class")]
          [createPvcObj (appName d.ID d.UserID) (formatInt d.Volume ++ "Gi")
            (appName d.ID d.UserID ++ "-storage-class")]
          [createAddEnvVars d (createMountVolume (appName d.ID d.UserID)
            (createDeploymentObj (appName d.ID d.UserID) d))]
          [assignNodePort np (createServiceObj (appName d.ID d.UserID))], f)) := by
  simp [Create, createSubmit, hv, storeClientset, storeAdd, storeFind, Store.empty,
    createReturnPort, assignNodePort, createServiceObj]

theorem modifyContainer0_meta (obj : AppsDeployment) (g : Container → Container) :
    (obj.modifyContainer0 g).ObjectMeta = obj.ObjectMeta := by
  unfold AppsDeployment.modifyContainer0
  split <;> rfl

/-- The environment loop of `Create` keeps the name of the workload. -/
theorem createAddEnvVars_meta (d : Deployment) (obj : AppsDeployment) :
    (createAddEnvVars d obj).ObjectMeta = obj.ObjectMeta := by
  have hfold : ∀ (es : List (String × String)) (o : AppsDeployment),
      (es.foldl (fun obj e => obj.modifyContainer0
          (fun c => { c with Env := c.Env ++ [{ Name := e.1, Value := e.2 }] })) o).ObjectMeta
        = o.ObjectMeta := by
    intro es
    induction es with
    | nil => intro o; rfl
    | cons e es ih =>
      intro o
      simp only [List.foldl_cons]
      exact (ih _).trans (modifyContainer0_meta o _)
  unfold createAddEnvVars
  split
  · exact hfold _ _
  · rfl

/-- The name of the workload that `Create` submits when a volume is asked for. -/
theorem createWorkload_name (d : Deployment) (n : String) :
    deploymentName (createAddEnvVars d (createMountVolume n (createDeploymentObj n d))) =
      n ++ "-deployment" := by
  unfold deploymentName
  rw [createAddEnvVars_meta]
  unfold createMountVolume
  simp only [modifyContainer0_meta]
  rfl

/-- C16, amended.  On the control plane that stores named objects, for every deployment
that asks for a volume: `Create` on the empty control plane succeeds and leaves the four
objects it submitted; `Delete` with the id and owner of the deployment then succeeds and
leaves no object; and a second `Delete` with the same arguments fails with not-found. -/
theorem Delete_after_Create_with_volume (np : Int) (d : Deployment) (f : Option ObjKind)
    (hv : d.Volume ≠ 0) :
    (Create (storeClientset np) d (Store.empty, f)).1 = Outcome.ret (np, none) ∧
    (Create (storeClientset np) d (Store.empty, f)).2.1 =
      Store.mk
        [createPvObj (appName d.ID d.UserID) (formatInt d.Volume ++ "Gi")
          (appName d.ID d.UserID ++ "-storage-class")]
        [createPvcObj (appName d.ID d.UserID) (formatInt d.Volume ++ "Gi")
          (appName d.ID d.UserID ++ "-storage-class")]
        [createAddEnvVars d (createMountVolume (appName d.ID d.UserID)
          (createDeploymentObj (appName d.ID d.UserID) d))]
        [assignNodePort np (createServiceObj (appName d.ID d.UserID))] ∧
    Delete (storeClientset np) d.ID d.UserID (Create (storeClientset np) d (Store.empty, f)).2 =
      (none, (Store.empty, f)) ∧
    (Delete (storeClientset np) d.ID d.UserID
      (Delete (storeClientset np) d.ID d.UserID
        (Create (storeClientset np) d (Store.empty, f)).2).2).1 =
      some (notFoundError (appName d.ID d.UserID ++ "-pv")) := by
  rw [Create_on_empty np d f hv]
  have hw := createWorkload_name d (appName d.ID d.UserID)
  have hdel : Delete (storeClientset np) d.ID d.UserID
      (Store.mk
        [createPvObj (appName d.ID d.UserID) (formatInt d.Volume ++ "Gi")
          (appName d.ID d.UserID ++ "-storage-class")]
        [createPvcObj (appName d.ID d.UserID) (formatInt d.Volume ++ "Gi")
          (appName d.ID d.UserID ++ "-storage-class")]
        [createAddEnvVars d (createMountVolume (appName d.ID d.UserID)
          (createDeploymentObj (appName d.ID d.UserID) d))]
        [assignNodePort np (createServiceObj (appName d.ID d.UserID))], f) =
      (none, (Store.empty, f)) := by
    simp [Delete, storeClientset, storeRemove, storeFind, Store.empty, hw, pvName, pvcName,
      serviceName, createPvObj, createPvcObj, createServiceObj, assignNodePort]
  refine ⟨rfl, rfl, hdel, ?_⟩
  rw [hdel]
  simp [Delete, storeClientset, storeRemove, storeFind, Store.empty]

/-- C16 (amended) at an input: `postgresExactKeys`, which asks for volume 1, on node port
31000. -/
theorem Delete_after_Create_with_volume_witness :
    postgresExactKeys.Volume ≠ 0 ∧
    (Create (storeClientset 31000) postgresExactKeys (Store.empty, none)).1 =
      Outcome.ret (31000, none) ∧
    Delete (storeClientset 31000) 1 1 postgresStore = (none, (Store.empty, none)) ∧
    (Delete (storeClientset 31000) 1 1 (Store.empty, none)).1 =
      some (notFoundError "deployment-1-user-1-pv") :=
  ⟨by decide,
    (Delete_after_Create_with_volume 31000 postgresExactKeys none (by decide)).1,
    (Delete_after_Create_with_volume 31000 postgresExactKeys none (by decide)).2.2.1,
    by decide⟩

/-! ## `deleteUserDeploymentHandler`: claims -/

/-- After `DeleteFromUser` no record with that id and owner is left. -/
theorem DeleteFromUser_removes (table : List Deployment) (id userID : Int) (h : 1 ≤ id) :
    hasRecord (DeleteFromUser table id userID).2 id userID = false := by
  have hf : hasRecord (table.filter (fun d => !(d.ID == id && d.UserID == userID)))
      id userID = false := by
    simp only [hasRecord, List.any_eq_false, List.mem_filter]
    rintro d ⟨-, hd⟩
    simp only [Bool.not_eq_true', Bool.and_eq_false_iff, beq_eq_false_iff_ne, ne_eq] at hd
    cases h1 : (d.ID == id) <;> cases h2 : (d.UserID == userID) <;> simp_all
  unfold DeleteFromUser
  have hid : ¬ id < 1 := by omega
  simp only [hid, if_false]
  split <;> exact hf

/-- Whenever the handler has called `Delete` and it failed, the record is gone: the handler
removes the record before it calls `Delete`. -/
theorem deleteUserDeploymentHandler_serverError {σ : Type} (cs : Clientset σ) (id userID : Int)
    (table : List Deployment) (s : σ)
    (h : (deleteUserDeploymentHandler cs (some id) userID table s).1 = Response.serverError) :
    hasRecord (deleteUserDeploymentHandler cs (some id) userID table s).2.1 id userID =
      false := by
  unfold deleteUserDeploymentHandler at h ⊢
  by_cases hid : id < 1
  · simp [hid] at h
  · simp only [hid, if_false] at h ⊢
    have hrem := DeleteFromUser_removes table id userID (by omega)
    rcases hD : DeleteFromUser table id userID with ⟨r, t⟩
    rw [hD] at hrem h
    simp only at hrem
    cases r with
    | some e =>
      cases e with
      | RecordNotFound => simp at h
      | Other msg => simpa using hrem
    | none =>
      simp only
      rcases hX : Delete cs id userID s with ⟨r2, s2⟩
      cases r2 <;> simpa using hrem

/-- C18 (the code departs from the claim).  With a record for `(1, 1)` in the table and a
control plane that refuses the first call of `Delete`, the handler answers with a server
error, `Delete` has failed, and the record for `(1, 1)` is no longer in the table: the
handler deletes the record first and calls `Delete` afterwards. -/
theorem deleteUserDeploymentHandler_drops_record_first :
    hasRecord [postgresExactKeys] 1 1 = true ∧
    (Delete (scriptedClientset 31000) 1 1 [some refused]).1 = some refused ∧
    (deleteUserDeploymentHandler (scriptedClientset 31000) (some 1) 1
      [postgresExactKeys] [some refused]).1 = Response.serverError ∧
    hasRecord (deleteUserDeploymentHandler (scriptedClientset 31000) (some 1) 1
      [postgresExactKeys] [some refused]).2.1 1 1 = false := by
  decide

/-! ## `Update` on the control plane with another writer -/

theorem storeFind_name {α : Type} (nameOf : α → String) (objs : List α) (name : String)
    (o : α) (h : storeFind nameOf objs name = some o) : nameOf o = name := by
  have := List.find?_some h
  simpa using this

theorem storeFind_replace {α : Type} (nameOf : α → String) (objs : List α) (obj o : α)
    (h : storeFind nameOf objs (nameOf obj) = some o) :
    storeFind nameOf (storeReplace nameOf objs obj) (nameOf obj) = some obj := by
  unfold storeFind storeReplace at *
  induction objs with
  | nil => simp at h
  | cons x xs ih =>
    by_cases hx : nameOf x = nameOf obj
    · simp [List.find?, hx]
    · have hx2 : (nameOf x == nameOf obj) = false := by simpa using hx
      simp only [List.find?, hx2] at h
      simp only [List.map_cons, hx, if_false, List.find?, hx2]
      exact ih h

theorem storeReplace_idem {α : Type} (nameOf : α → String) (objs : List α) (obj : α) :
    storeReplace nameOf (storeReplace nameOf objs obj) obj = storeReplace nameOf objs obj := by
  unfold storeReplace
  rw [List.map_map]
  apply List.map_congr_left
  intro x _
  by_cases hx : nameOf x = nameOf obj
  · simp [hx]
  · simp [hx]

/-- A retry scope whose first attempt succeeds. -/
theorem RetryOnConflict_ok {σ : Type} (fn : σ → Outcome (Option APIError) × σ) (s s1 : σ)
    (h : fn s = (Outcome.ret none, s1)) : RetryOnConflict fn s = (Outcome.ret none, s1) := by
  rw [RetryOnConflict_step, h]

/-- A retry scope whose first attempt meets a conflict and whose second attempt succeeds. -/
theorem RetryOnConflict_conflict_then {σ : Type} (fn : σ → Outcome (Option APIError) × σ)
    (s s1 s2 : σ) (err : APIError) (hc : err.reason = StatusReason.Conflict)
    (h1 : fn s = (Outcome.ret (some err), s1)) (h2 : fn s1 = (Outcome.ret none, s2)) :
    RetryOnConflict fn s = (Outcome.ret none, s2) := by
  rw [RetryOnConflict_step, h1]
  simp only [hc, if_true]
  unfold retryLoop
  rw [h2]

theorem conflictError_reason (name : String) :
    (conflictError name).reason = StatusReason.Conflict := rfl

/-- A write when the other client writes no object of this kind. -/
theorem racedWrite_pass {α : Type} (kind : ObjKind) (name : String)
    (write : Store × Option ObjKind → Except APIError α × (Store × Option ObjKind))
    (st : Store × Option Race) (h2 : ∀ r, st.2 = some r → r.kind ≠ kind) :
    racedWrite kind name write st = withRace write st := by
  obtain ⟨S, p⟩ := st
  cases p with
  | none => rfl
  | some r =>
    have := h2 r rfl
    simp [racedWrite, this]

/-- Either the write of the other client lands at a write of this kind, or there is none to
land. -/
theorem landIf_cases (kind : ObjKind) (name : String) (S : Store) (p : Option Race) :
    (∃ r, p = some r ∧ r.kind = kind ∧ landIf kind name (S, p) = (r.land name S, none)) ∨
    ((∀ r, p = some r → r.kind ≠ kind) ∧ landIf kind name (S, p) = (S, p)) := by
  cases p with
  | none => exact Or.inr ⟨by simp, rfl⟩
  | some r =>
    by_cases h : r.kind = kind
    · exact Or.inl ⟨r, rfl, h, by simp [landIf, h]⟩
    · exact Or.inr ⟨by rintro r2 ⟨rfl⟩; exact h, by simp [landIf, h]⟩

/-- One attempt on the storage-volume when no write of another client is in its way. -/
theorem updatePvAttempt_pass (np : Int) (n vol : String) (S : Store) (p : Option Race)
    (hp : ∀ r, p = some r → r.kind ≠ ObjKind.pv)
    (h : (storeFind pvName S.pvs (n ++ "-pv")).isSome = true) :
    updatePvAttempt (racingClientset np) n vol (S, p) =
      (Outcome.ret none,
        (Store.mk (pvsAfter vol n S.pvs) S.pvcs S.deployments S.services, p)) := by
  obtain ⟨pv, hpv⟩ := Option.isSome_iff_exists.1 h
  have hn : pvName pv = n ++ "-pv" := storeFind_name _ _ _ _ hpv
  have hfind : storeFind pvName S.pvs
      (pvName { pv with Spec.Capacity := [(ResourceStorage, MustParse vol)] }) = some pv := by
    rw [show pvName { pv with Spec.Capacity := [(ResourceStorage, MustParse vol)] } =
      n ++ "-pv" from hn]
    exact hpv
  unfold updatePvAttempt
  have hget : (racingClientset np).getPV (n ++ "-pv") (S, p) = (Except.ok pv, (S, p)) := by
    simp [racingClientset, withRace, storeClientset, storeGet, hpv]
  rw [hget]
  dsimp only
  have hput : (racingClientset np).updatePV
      { pv with Spec.Capacity := [(ResourceStorage, MustParse vol)] } (S, p) =
      (Except.ok { pv with Spec.Capacity := [(ResourceStorage, MustParse vol)] },
        (Store.mk (pvsAfter vol n S.pvs) S.pvcs S.deployments S.services, p)) := by
    have hpass := racedWrite_pass ObjKind.pv
      (pvName { pv with Spec.Capacity := [(ResourceStorage, MustParse vol)] })
      ((storeClientset np).updatePV
        { pv with Spec.Capacity := [(ResourceStorage, MustParse vol)] }) (S, p)
      hp
    show racedWrite _ _ _ _ = _
    rw [hpass]
    simp [withRace, storeClientset, storePut, hfind, pvsAfter, hpv]
  rw [hput]

/-- One attempt on the storage-volume when the write of the other client has landed on the
storage-volume since the fetch. -/
theorem updatePvAttempt_race (np : Int) (n vol : String) (S : Store) (r : Race)
    (hk : r.kind = ObjKind.pv)
    (h : (storeFind pvName S.pvs (n ++ "-pv")).isSome = true) :
    updatePvAttempt (racingClientset np) n vol (S, some r) =
      (Outcome.ret (some (conflictError (n ++ "-pv"))), (r.land (n ++ "-pv") S, none)) := by
  obtain ⟨pv, hpv⟩ := Option.isSome_iff_exists.1 h
  have hn : pvName pv = n ++ "-pv" := storeFind_name _ _ _ _ hpv
  have hn2 : pvName { pv with Spec.Capacity := [(ResourceStorage, MustParse vol)] } =
      n ++ "-pv" := hn
  unfold updatePvAttempt
  have hget : (racingClientset np).getPV (n ++ "-pv") (S, some r) =
      (Except.ok pv, (S, some r)) := by
    simp [racingClientset, withRace, storeClientset, storeGet, hpv]
  rw [hget]
  dsimp only
  have hput : (racingClientset np).updatePV
      { pv with Spec.Capacity := [(ResourceStorage, MustParse vol)] } (S, some r) =
      (Except.error (conflictError (n ++ "-pv")), (r.land (n ++ "-pv") S, none)) := by
    simp [racingClientset, racedWrite, hk, hn2]
  rw [hput]

/-- The retry scope of the storage-volume on the control plane with another writer: it
returns nil; the write of the other client, if it is to storage-volumes, has landed; and the
stored storage-volume has the new capacity. -/
theorem pvScope_racing (np : Int) (n vol : String) (st : Store × Option Race)
    (hA : (storeFind pvName st.1.pvs (n ++ "-pv")).isSome = true)
    (hB : (storeFind pvName (landIf ObjKind.pv (n ++ "-pv") st).1.pvs (n ++ "-pv")).isSome =
      true) :
    RetryOnConflict (updatePvAttempt (racingClientset np) n vol) st =
      (Outcome.ret none,
        (Store.mk (pvsAfter vol n (landIf ObjKind.pv (n ++ "-pv") st).1.pvs)
          (landIf ObjKind.pv (n ++ "-pv") st).1.pvcs
          (landIf ObjKind.pv (n ++ "-pv") st).1.deployments
          (landIf ObjKind.pv (n ++ "-pv") st).1.services,
          (landIf ObjKind.pv (n ++ "-pv") st).2)) := by
  obtain ⟨S, p⟩ := st
  rcases landIf_cases ObjKind.pv (n ++ "-pv") S p with ⟨r, rfl, hk, hl⟩ | ⟨hp, hl⟩
  · rw [hl] at hB ⊢
    exact RetryOnConflict_conflict_then _ _ _ _ _ (conflictError_reason _)
      (updatePvAttempt_race np n vol S r hk hA)
      (updatePvAttempt_pass np n vol _ none (by simp) hB)
  · rw [hl]
    exact RetryOnConflict_ok _ _ _ (updatePvAttempt_pass np n vol S p hp hA)

/-- One attempt on the storage-claim when no write of another client is in its way. -/
theorem updatePvcAttempt_pass (np : Int) (n vol : String) (S : Store) (p : Option Race)
    (hp : ∀ r, p = some r → r.kind ≠ ObjKind.pvc)
    (h : (storeFind pvcName S.pvcs (n ++ "-pv-claim")).isSome = true) :
    updatePvcAttempt (racingClientset np) n vol (S, p) =
      (Outcome.ret none,
        (Store.mk S.pvs (pvcsAfter vol n S.pvcs) S.deployments S.services, p)) := by
  obtain ⟨pvc, hpvc⟩ := Option.isSome_iff_exists.1 h
  have hn : pvcName pvc = n ++ "-pv-claim" := storeFind_name _ _ _ _ hpvc
  have hfind : storeFind pvcName S.pvcs
      (pvcName { pvc with Spec.Requests := [(ResourceStorage, MustParse vol)] }) = some pvc := by
    rw [show pvcName { pvc with Spec.Requests := [(ResourceStorage, MustParse vol)] } =
      n ++ "-pv-claim" from hn]
    exact hpvc
  unfold updatePvcAttempt
  have hget : (racingClientset np).getPVC (n ++ "-pv-claim") (S, p) = (Except.ok pvc, (S, p)) := by
    simp [racingClientset, withRace, storeClientset, storeGet, hpvc]
  rw [hget]
  dsimp only
  have hput : (racingClientset np).updatePVC
      { pvc with Spec.Requests := [(ResourceStorage, MustParse vol)] } (S, p) =
      (Except.ok { pvc with Spec.Requests := [(ResourceStorage, MustParse vol)] },
        (Store.mk S.pvs (pvcsAfter vol n S.pvcs) S.deployments S.services, p)) := by
    have hpass := racedWrite_pass ObjKind.pvc
      (pvcName { pvc with Spec.Requests := [(ResourceStorage, MustParse vol)] })
      ((storeClientset np).updatePVC
        { pvc with Spec.Requests := [(ResourceStorage, MustParse vol)] }) (S, p)
      hp
    show racedWrite _ _ _ _ = _
    rw [hpass]
    simp [withRace, storeClientset, storePut, hfind, pvcsAfter, hpvc]
  rw [hput]

/-- One attempt on the storage-claim when the write of the other client has landed on the
storage-claim since the fetch. -/
theorem updatePvcAttempt_race (np : Int) (n vol : String) (S : Store) (r : Race)
    (hk : r.kind = ObjKind.pvc)
    (h : (storeFind pvcName S.pvcs (n ++ "-pv-claim")).isSome = true) :
    updatePvcAttempt (racingClientset np) n vol (S, some r) =
      (Outcome.ret (some (conflictError (n ++ "-pv-claim"))), (r.land (n ++ "-pv-claim") S, none)) := by
  obtain ⟨pvc, hpvc⟩ := Option.isSome_iff_exists.1 h
  have hn : pvcName pvc = n ++ "-pv-claim" := storeFind_name _ _ _ _ hpvc
  have hn2 : pvcName { pvc with Spec.Requests := [(ResourceStorage, MustParse vol)] } =
      n ++ "-pv-claim" := hn
  unfold updatePvcAttempt
  have hget : (racingClientset np).getPVC (n ++ "-pv-claim") (S, some r) =
      (Except.ok pvc, (S, some r)) := by
    simp [racingClientset, withRace, storeClientset, storeGet, hpvc]
  rw [hget]
  dsimp only
  have hput : (racingClientset np).updatePVC
      { pvc with Spec.Requests := [(ResourceStorage, MustParse vol)] } (S, some r) =
      (Except.error (conflictError (n ++ "-pv-claim")), (r.land (n ++ "-pv-claim") S, none)) := by
    simp [racingClientset, racedWrite, hk, hn2]
  rw [hput]

/-- The retry scope of the storage-claim on the control plane with another writer: it
returns nil; the write of the other client, if it is to storage-claims, has landed; and the
stored storage-claim has the new capacity. -/
theorem pvcScope_racing (np : Int) (n vol : String) (st : Store × Option Race)
    (hA : (storeFind pvcName st.1.pvcs (n ++ "-pv-claim")).isSome = true)
    (hB : (storeFind pvcName (landIf ObjKind.pvc (n ++ "-pv-claim") st).1.pvcs (n ++ "-pv-claim")).isSome =
      true) :
    RetryOnConflict (updatePvcAttempt (racingClientset np) n vol) st =
      (Outcome.ret none,
        (Store.mk (landIf ObjKind.pvc (n ++ "-pv-claim") st).1.pvs
          (pvcsAfter vol n (landIf ObjKind.pvc (n ++ "-pv-claim") st).1.pvcs)
          (landIf ObjKind.pvc (n ++ "-pv-claim") st).1.deployments
          (landIf ObjKind.pvc (n ++ "-pv-claim") st).1.services,
          (landIf ObjKind.pvc (n ++ "-pv-claim") st).2)) := by
  obtain ⟨S, p⟩ := st
  rcases landIf_cases ObjKind.pvc (n ++ "-pv-claim") S p with ⟨r, rfl, hk, hl⟩ | ⟨hp, hl⟩
  · rw [hl] at hB ⊢
    exact RetryOnConflict_conflict_then _ _ _ _ _ (conflictError_reason _)
      (updatePvcAttempt_race np n vol S r hk hA)
      (updatePvcAttempt_pass np n vol _ none (by simp) hB)
  · rw [hl]
    exact RetryOnConflict_ok _ _ _ (updatePvcAttempt_pass np n vol S p hp hA)


/-- The port assignment of `Update` keeps the name of the service. -/
theorem updateNodePort_name (new : Deployment) (svc svc1 : Service)
    (h : updateNodePort new svc = Outcome.ret svc1) : serviceName svc1 = serviceName svc := by
  unfold updateNodePort at h
  split at h
  · injection h with h
    rw [← h]
    rfl
  · cases h

theorem updateNodePort_ret (new : Deployment) (svc : Service) (h : svc.Spec.Ports ≠ []) :
    ∃ svc1, updateNodePort new svc = Outcome.ret svc1 := by
  unfold updateNodePort
  cases hp : svc.Spec.Ports with
  | nil => exact absurd hp h
  | cons p ps => exact ⟨_, rfl⟩

/-- One attempt on the service when no write of another client is in its way. -/
theorem updateServiceAttempt_pass (np : Int) (new : Deployment) (n : String) (S : Store)
    (p : Option Race) (hp : ∀ r, p = some r → r.kind ≠ ObjKind.service)
    (h : ∃ svc, storeFind serviceName S.services (n ++ "-service") = some svc ∧
      svc.Spec.Ports ≠ []) :
    updateServiceAttempt (racingClientset np) new n (S, p) =
      (Outcome.ret none,
        (Store.mk S.pvs S.pvcs S.deployments (servicesAfter new n S.services), p)) := by
  obtain ⟨svc, hsvc, hports⟩ := h
  obtain ⟨svc1, h1⟩ := updateNodePort_ret new svc hports
  have hn : serviceName svc1 = n ++ "-service" :=
    (updateNodePort_name new svc svc1 h1).trans (storeFind_name _ _ _ _ hsvc)
  have hfind : storeFind serviceName S.services (serviceName svc1) = some svc := by
    rw [hn]; exact hsvc
  unfold updateServiceAttempt
  have hget : (racingClientset np).getService (n ++ "-service") (S, p) =
      (Except.ok svc, (S, p)) := by
    simp [racingClientset, withRace, storeClientset, storeGet, hsvc]
  rw [hget]
  dsimp only
  rw [h1]
  dsimp only
  have hput : (racingClientset np).updateService svc1 (S, p) =
      (Except.ok svc1,
        (Store.mk S.pvs S.pvcs S.deployments (servicesAfter new n S.services), p)) := by
    have hpass := racedWrite_pass ObjKind.service (serviceName svc1)
      ((storeClientset np).updateService svc1) (S, p) hp
    show racedWrite _ _ _ _ = _
    rw [hpass]
    simp [withRace, storeClientset, storePut, hfind, servicesAfter, hsvc, h1]
  rw [hput]

/-- One attempt on the service when the write of the other client has landed on the service
since the fetch. -/
theorem updateServiceAttempt_race (np : Int) (new : Deployment) (n : String) (S : Store)
    (r : Race) (hk : r.kind = ObjKind.service)
    (h : ∃ svc, storeFind serviceName S.services (n ++ "-service") = some svc ∧
      svc.Spec.Ports ≠ []) :
    updateServiceAttempt (racingClientset np) new n (S, some r) =
      (Outcome.ret (some (conflictError (n ++ "-service"))),
        (r.land (n ++ "-service") S, none)) := by
  obtain ⟨svc, hsvc, hports⟩ := h
  obtain ⟨svc1, h1⟩ := updateNodePort_ret new svc hports
  have hn : serviceName svc1 = n ++ "-service" :=
    (updateNodePort_name new svc svc1 h1).trans (storeFind_name _ _ _ _ hsvc)
  unfold updateServiceAttempt
  have hget : (racingClientset np).getService (n ++ "-service") (S, some r) =
      (Except.ok svc, (S, some r)) := by
    simp [racingClientset, withRace, storeClientset, storeGet, hsvc]
  rw [hget]
  dsimp only
  rw [h1]
  dsimp only
  have hput : (racingClientset np).updateService svc1 (S, some r) =
      (Except.error (conflictError (n ++ "-service")), (r.land (n ++ "-service") S, none)) := by
    simp [racingClientset, racedWrite, hk, hn]
  rw [hput]

/-- The last retry scope on the control plane with another writer: it returns nil; the write
of the other client, if it is to services, has landed; and the first port entry of the
stored service has the new node port. -/
theorem serviceScope_racing (np : Int) (new : Deployment) (n : String)
    (st : Store × Option Race)
    (hA : ∃ svc, storeFind serviceName st.1.services (n ++ "-service") = some svc ∧
      svc.Spec.Ports ≠ [])
    (hB : ∃ svc, storeFind serviceName (landIf ObjKind.service (n ++ "-service") st).1.services
      (n ++ "-service") = some svc ∧ svc.Spec.Ports ≠ []) :
    RetryOnConflict (updateServiceAttempt (racingClientset np) new n) st =
      (Outcome.ret none,
        (Store.mk (landIf ObjKind.service (n ++ "-service") st).1.pvs
          (landIf ObjKind.service (n ++ "-service") st).1.pvcs
          (landIf ObjKind.service (n ++ "-service") st).1.deployments
          (servicesAfter new n (landIf ObjKind.service (n ++ "-service") st).1.services),
          (landIf ObjKind.service (n ++ "-service") st).2)) := by
  obtain ⟨S, p⟩ := st
  rcases landIf_cases ObjKind.service (n ++ "-service") S p with ⟨r, rfl, hk, hl⟩ | ⟨hp, hl⟩
  · rw [hl] at hB ⊢
    exact RetryOnConflict_conflict_then _ _ _ _ _ (conflictError_reason _)
      (updateServiceAttempt_race np new n S r hk hA)
      (updateServiceAttempt_pass np new n _ none (by simp) hB)
  · rw [hl]
    exact RetryOnConflict_ok _ _ _ (updateServiceAttempt_pass np new n S p hp hA)


theorem Race.land_frame (r : Race) (name : String) (S : Store) :
    (r.kind ≠ ObjKind.pv → (r.land name S).pvs = S.pvs) ∧
    (r.kind ≠ ObjKind.pvc → (r.land name S).pvcs = S.pvcs) ∧
    (r.kind ≠ ObjKind.deployment → (r.land name S).deployments = S.deployments) ∧
    (r.kind ≠ ObjKind.service → (r.land name S).services = S.services) := by
  cases r <;> simp [Race.land, Race.kind]

/-- The storage block when the volume does not change: nothing is done. -/
theorem updateStorage_unchanged {σ : Type} (cs : Clientset σ) (old new : Deployment)
    (n : String) (st : σ) (hc : volumeChanged old new = false) :
    updateStorage cs old new n st = (Outcome.ret none, st) := by
  simp [updateStorage, hc]

/-- The storage block when the volume changes and the other client, if any, writes neither
storage-volumes nor storage-claims. -/
theorem updateStorage_pass (np : Int) (old new : Deployment) (n : String) (S : Store)
    (p : Option Race) (hc : volumeChanged old new = true)
    (hp : ∀ r, p = some r → r.kind ≠ ObjKind.pv ∧ r.kind ≠ ObjKind.pvc)
    (hpv : (storeFind pvName S.pvs (n ++ "-pv")).isSome = true)
    (hpvc : (storeFind pvcName S.pvcs (n ++ "-pv-claim")).isSome = true) :
    updateStorage (racingClientset np) old new n (S, p) =
      (Outcome.ret none,
        (Store.mk (pvsAfter (formatInt new.Volume ++ "Gi") n S.pvs)
          (pvcsAfter (formatInt new.Volume ++ "Gi") n S.pvcs) S.deployments S.services, p)) := by
  have h1 : landIf ObjKind.pv (n ++ "-pv") (S, p) = (S, p) := by
    rcases landIf_cases ObjKind.pv (n ++ "-pv") S p with ⟨r, h1, h2, -⟩ | ⟨-, h2⟩
    · exact absurd h2 (hp r h1).1
    · exact h2
  have h2 : ∀ X : Store, landIf ObjKind.pvc (n ++ "-pv-claim") (X, p) = (X, p) := by
    intro X
    rcases landIf_cases ObjKind.pvc (n ++ "-pv-claim") X p with ⟨r, h1, h2, -⟩ | ⟨-, h2⟩
    · exact absurd h2 (hp r h1).2
    · exact h2
  unfold updateStorage
  rw [if_pos hc]
  dsimp only
  rw [pvScope_racing np n _ (S, p) hpv (by rw [h1]; exact hpv), h1]
  dsimp only
  rw [pvcScope_racing np n _ _ hpvc (by rw [h2]; exact hpvc), h2]

/-- The storage block when the volume changes and the other client writes the
storage-volume. -/
theorem updateStorage_race_pv (np : Int) (old new : Deployment) (n : String) (S : Store)
    (r : Race) (hc : volumeChanged old new = true) (hk : r.kind = ObjKind.pv)
    (hpv : (storeFind pvName S.pvs (n ++ "-pv")).isSome = true)
    (hpv2 : (storeFind pvName (r.land (n ++ "-pv") S).pvs (n ++ "-pv")).isSome = true)
    (hpvc : (storeFind pvcName S.pvcs (n ++ "-pv-claim")).isSome = true) :
    updateStorage (racingClientset np) old new n (S, some r) =
      (Outcome.ret none,
        (Store.mk (pvsAfter (formatInt new.Volume ++ "Gi") n (r.land (n ++ "-pv") S).pvs)
          (pvcsAfter (formatInt new.Volume ++ "Gi") n S.pvcs) S.deployments S.services,
          none)) := by
  have h1 : landIf ObjKind.pv (n ++ "-pv") (S, some r) = (r.land (n ++ "-pv") S, none) := by
    simp [landIf, hk]
  obtain ⟨-, f2, f3, f4⟩ := r.land_frame (n ++ "-pv") S
  rw [hk] at f2 f3 f4
  unfold updateStorage
  rw [if_pos hc]
  dsimp only
  rw [pvScope_racing np n _ (S, some r) hpv (by rw [h1]; exact hpv2), h1]
  dsimp only
  rw [f2 (by decide), f3 (by decide), f4 (by decide)]
  rw [pvcScope_racing np n _ _ hpvc (by simpa [landIf] using hpvc)]
  rfl

/-- The storage block when the volume changes and the other client writes the
storage-claim. -/
theorem updateStorage_race_pvc (np : Int) (old new : Deployment) (n : String) (S : Store)
    (r : Race) (hc : volumeChanged old new = true) (hk : r.kind = ObjKind.pvc)
    (hpv : (storeFind pvName S.pvs (n ++ "-pv")).isSome = true)
    (hpvc : (storeFind pvcName S.pvcs (n ++ "-pv-claim")).isSome = true)
    (hpvc2 : (storeFind pvcName (r.land (n ++ "-pv-claim") S).pvcs
      (n ++ "-pv-claim")).isSome = true) :
    updateStorage (racingClientset np) old new n (S, some r) =
      (Outcome.ret none,
        (Store.mk (pvsAfter (formatInt new.Volume ++ "Gi") n S.pvs)
          (pvcsAfter (formatInt new.Volume ++ "Gi") n (r.land (n ++ "-pv-claim") S).pvcs)
          S.deployments S.services, none)) := by
  have h1 : landIf ObjKind.pv (n ++ "-pv") (S, some r) = (S, some r) := by
    simp [landIf, hk]
  have h2 : ∀ X : Store, landIf ObjKind.pvc (n ++ "-pv-claim") (X, some r) =
      (r.land (n ++ "-pv-claim") X, none) := by
    intro X
    simp [landIf, hk]
  unfold updateStorage
  rw [if_pos hc]
  dsimp only
  rw [pvScope_racing np n _ (S, some r) hpv (by rw [h1]; exact hpv), h1]
  dsimp only
  have hl : r.land (n ++ "-pv-claim")
      (Store.mk (pvsAfter (formatInt new.Volume ++ "Gi") n S.pvs) S.pvcs S.deployments
        S.services) =
      Store.mk (pvsAfter (formatInt new.Volume ++ "Gi") n S.pvs)
        (r.land (n ++ "-pv-claim") S).pvcs S.deployments S.services := by
    cases r <;> simp [Race.kind] at hk
    rfl
  rw [pvcScope_racing np n _ _ hpvc (by rw [h2, hl]; exact hpvc2), h2, hl]


theorem updateEnvVars_meta (listing : List (String × String)) (new : Deployment)
    (obj w : AppsDeployment) (h : updateEnvVars listing new obj = Outcome.ret w) :
    w.ObjectMeta = obj.ObjectMeta := by
  unfold updateEnvVars at h
  split at h
  · split at h
    · injection h with h
      rw [← h]
    · cases h
  · injection h with h
    rw [← h]

/-- With an empty new map, or a fetched workload that has a container, the environment
assignment of `Update` does not panic. -/
theorem updateEnvVars_ret_of (listing : List (String × String)) (new : Deployment)
    (obj : AppsDeployment)
    (h : new.EnvVars.len ≠ 0 → obj.Spec.Template.Spec.Containers ≠ []) :
    ∃ w, updateEnvVars listing new obj = Outcome.ret w := by
  unfold updateEnvVars
  by_cases h0 : new.EnvVars.len = 0
  · exact ⟨obj, by simp [h0]⟩
  · simp only [bne_iff_ne, ne_eq, h0, not_false_eq_true, if_true]
    cases hc : obj.Spec.Template.Spec.Containers with
    | nil => exact absurd hc (h h0)
    | cons c cs => exact ⟨_, rfl⟩

/-- One attempt of the first retry scope on the control plane with another writer, given
what the storage block does: when no write of another client is in the way of the write of
the workload. -/
theorem updateWorkloadAttempt_pass (np : Int) (order : MapOrder (Store × Option Race))
    (old new : Deployment) (n : String) (S S1 : Store) (p p1 : Option Race)
    (hS : updateStorage (racingClientset np) old new n (S, p) = (Outcome.ret none, (S1, p1)))
    (hD : S1.deployments = S.deployments)
    (hp : ∀ r, p1 = some r → r.kind ≠ ObjKind.deployment)
    (hW : ∃ w, storeFind deploymentName S.deployments (n ++ "-deployment") = some w ∧
      (new.EnvVars.len ≠ 0 → w.Spec.Template.Spec.Containers ≠ [])) :
    updateWorkloadAttempt (racingClientset np) order old new n (S, p) =
      (Outcome.ret none,
        (Store.mk S1.pvs S1.pvcs
          (workloadsAfter (order (S1, p1) old.EnvVars).1 new n S1.deployments) S1.services,
          p1)) := by
  obtain ⟨w, hw, hC⟩ := hW
  obtain ⟨w1, hE⟩ := updateEnvVars_ret_of (order (S1, p1) old.EnvVars).1 new
    { w with Spec.Replicas := updateReplicas new } hC
  have hn : deploymentName w1 = n ++ "-deployment" := by
    have h1 := updateEnvVars_meta _ new { w with Spec.Replicas := updateReplicas new } w1 hE
    have h2 : deploymentName w = n ++ "-deployment" := storeFind_name _ _ _ _ hw
    unfold deploymentName at *
    rw [h1]; exact h2
  have hfind : storeFind deploymentName S1.deployments (deploymentName w1) = some w := by
    rw [hn, hD]; exact hw
  have hget : (racingClientset np).getDeployment (n ++ "-deployment") (S, p) =
      (Except.ok w, (S, p)) := by
    simp [racingClientset, withRace, storeClientset, storeGet, hw]
  have hput : (racingClientset np).updateDeployment w1 (S1, p1) =
      (Except.ok w1,
        (Store.mk S1.pvs S1.pvcs
          (workloadsAfter (order (S1, p1) old.EnvVars).1 new n S1.deployments) S1.services,
          p1)) := by
    have hpass := racedWrite_pass ObjKind.deployment (deploymentName w1)
      ((storeClientset np).updateDeployment w1) (S1, p1) hp
    show racedWrite _ _ _ _ = _
    rw [hpass]
    have hw1 : storeFind deploymentName S1.deployments (n ++ "-deployment") = some w := by
      rw [hD]; exact hw
    simp [withRace, storeClientset, storePut, hfind, workloadsAfter, hw1, hE]
  unfold updateWorkloadAttempt
  rw [hget]
  dsimp only
  rw [hS]
  dsimp only
  rw [hE]
  dsimp only
  rw [hput]

/-- One attempt of the first retry scope on the control plane with another writer, given
what the storage block does: when the write of the other client has landed on the workload
since the fetch. -/
theorem updateWorkloadAttempt_race (np : Int) (order : MapOrder (Store × Option Race))
    (old new : Deployment) (n : String) (S S1 : Store) (p : Option Race) (r : Race)
    (hS : updateStorage (racingClientset np) old new n (S, p) =
      (Outcome.ret none, (S1, some r)))
    (hk : r.kind = ObjKind.deployment)
    (hW : ∃ w, storeFind deploymentName S.deployments (n ++ "-deployment") = some w ∧
      (new.EnvVars.len ≠ 0 → w.Spec.Template.Spec.Containers ≠ [])) :
    updateWorkloadAttempt (racingClientset np) order old new n (S, p) =
      (Outcome.ret (some (conflictError (n ++ "-deployment"))),
        (r.land (n ++ "-deployment") S1, none)) := by
  obtain ⟨w, hw, hC⟩ := hW
  obtain ⟨w1, hE⟩ := updateEnvVars_ret_of (order (S1, some r) old.EnvVars).1 new
    { w with Spec.Replicas := updateReplicas new } hC
  have hn : deploymentName w1 = n ++ "-deployment" := by
    have h1 := updateEnvVars_meta _ new { w with Spec.Replicas := updateReplicas new } w1 hE
    have h2 : deploymentName w = n ++ "-deployment" := storeFind_name _ _ _ _ hw
    unfold deploymentName at *
    rw [h1]; exact h2
  have hget : (racingClientset np).getDeployment (n ++ "-deployment") (S, p) =
      (Except.ok w, (S, p)) := by
    simp [racingClientset, withRace, storeClientset, storeGet, hw]
  have hput : (racingClientset np).updateDeployment w1 (S1, some r) =
      (Except.error (conflictError (n ++ "-deployment")),
        (r.land (n ++ "-deployment") S1, none)) := by
    simp [racingClientset, racedWrite, hk, hn]
  unfold updateWorkloadAttempt
  rw [hget]
  dsimp only
  rw [hS]
  dsimp only
  rw [hE]
  dsimp only
  rw [hput]


theorem pvsAfter_isSome (vol n : String) (pvs : List PersistentVolume)
    (h : (storeFind pvName pvs (n ++ "-pv")).isSome = true) :
    (storeFind pvName (pvsAfter vol n pvs) (n ++ "-pv")).isSome = true := by
  obtain ⟨pv, hpv⟩ := Option.isSome_iff_exists.1 h
  have hn : pvName { pv with Spec.Capacity := [(ResourceStorage, MustParse vol)] } =
      n ++ "-pv" := storeFind_name pvName pvs _ pv hpv
  have := storeFind_replace pvName pvs
    { pv with Spec.Capacity := [(ResourceStorage, MustParse vol)] } pv (by rw [hn]; exact hpv)
  rw [hn] at this
  simp [pvsAfter, hpv, this]

/-- Setting the capacity twice is setting it once. -/
theorem pvsAfter_idem (vol n : String) (pvs : List PersistentVolume) :
    pvsAfter vol n (pvsAfter vol n pvs) = pvsAfter vol n pvs := by
  cases hf : storeFind pvName pvs (n ++ "-pv") with
  | none => simp [pvsAfter, hf]
  | some pv =>
    have hn : pvName { pv with Spec.Capacity := [(ResourceStorage, MustParse vol)] } =
        n ++ "-pv" := storeFind_name pvName pvs _ pv hf
    have h2 := storeFind_replace pvName pvs
      { pv with Spec.Capacity := [(ResourceStorage, MustParse vol)] } pv (by rw [hn]; exact hf)
    rw [hn] at h2
    have h1 : pvsAfter vol n pvs = storeReplace pvName pvs
        { pv with Spec.Capacity := [(ResourceStorage, MustParse vol)] } := by
      simp [pvsAfter, hf]
    rw [h1]
    unfold pvsAfter
    rw [h2]
    exact storeReplace_idem _ _ _

theorem pvcsAfter_isSome (vol n : String) (pvcs : List PersistentVolumeClaim)
    (h : (storeFind pvcName pvcs (n ++ "-pv-claim")).isSome = true) :
    (storeFind pvcName (pvcsAfter vol n pvcs) (n ++ "-pv-claim")).isSome = true := by
  obtain ⟨pvc, hpvc⟩ := Option.isSome_iff_exists.1 h
  have hn : pvcName { pvc with Spec.Requests := [(ResourceStorage, MustParse vol)] } =
      n ++ "-pv-claim" := storeFind_name pvcName pvcs _ pvc hpvc
  have := storeFind_replace pvcName pvcs
    { pvc with Spec.Requests := [(ResourceStorage, MustParse vol)] } pvc
    (by rw [hn]; exact hpvc)
  rw [hn] at this
  simp [pvcsAfter, hpvc, this]

/-- Setting the requested capacity twice is setting it once. -/
theorem pvcsAfter_idem (vol n : String) (pvcs : List PersistentVolumeClaim) :
    pvcsAfter vol n (pvcsAfter vol n pvcs) = pvcsAfter vol n pvcs := by
  cases hf : storeFind pvcName pvcs (n ++ "-pv-claim") with
  | none => simp [pvcsAfter, hf]
  | some pvc =>
    have hn : pvcName { pvc with Spec.Requests := [(ResourceStorage, MustParse vol)] } =
        n ++ "-pv-claim" := storeFind_name pvcName pvcs _ pvc hf
    have h2 := storeFind_replace pvcName pvcs
      { pvc with Spec.Requests := [(ResourceStorage, MustParse vol)] } pvc
      (by rw [hn]; exact hf)
    rw [hn] at h2
    have h1 : pvcsAfter vol n pvcs = storeReplace pvcName pvcs
        { pvc with Spec.Requests := [(ResourceStorage, MustParse vol)] } := by
      simp [pvcsAfter, hf]
    rw [h1]
    unfold pvcsAfter
    rw [h2]
    exact storeReplace_idem _ _ _

/-- The storage block when the other client, if any, writes neither storage-volumes nor
storage-claims. -/
theorem updateStorage_other (np : Int) (old new : Deployment) (n : String) (S : Store)
    (p : Option Race) (hp : ∀ r, p = some r → r.kind ≠ ObjKind.pv ∧ r.kind ≠ ObjKind.pvc)
    (hV : volumeChanged old new = true →
      (storeFind pvName S.pvs (n ++ "-pv")).isSome = true ∧
      (storeFind pvcName S.pvcs (n ++ "-pv-claim")).isSome = true) :
    updateStorage (racingClientset np) old new n (S, p) =
      (Outcome.ret none,
        (Store.mk
          (if volumeChanged old new then pvsAfter (formatInt new.Volume ++ "Gi") n S.pvs
            else S.pvs)
          (if volumeChanged old new then pvcsAfter (formatInt new.Volume ++ "Gi") n S.pvcs
            else S.pvcs)
          S.deployments S.services, p)) := by
  cases hc : volumeChanged old new with
  | true =>
    simp only [if_true]
    exact updateStorage_pass np old new n S p hc hp (hV hc).1 (hV hc).2
  | false =>
    simp only [Bool.false_eq_true, if_false]
    exact updateStorage_unchanged _ old new n (S, p) hc

/-- What a store that is ready holds. -/
theorem Store.ready_holds (old new : Deployment) (S : Store) (h : S.ready old new = true) :
    (∃ w, storeFind deploymentName S.deployments
        (appName old.ID old.UserID ++ "-deployment") = some w ∧
      (new.EnvVars.len ≠ 0 → w.Spec.Template.Spec.Containers ≠ [])) ∧
    (∃ svc, storeFind serviceName S.services
        (appName old.ID old.UserID ++ "-service") = some svc ∧ svc.Spec.Ports ≠ []) ∧
    (volumeChanged old new = true →
      (storeFind pvName S.pvs (appName old.ID old.UserID ++ "-pv")).isSome = true ∧
      (storeFind pvcName S.pvcs (appName old.ID old.UserID ++ "-pv-claim")).isSome = true) := by
  unfold Store.ready at h
  simp only [Bool.and_eq_true, Bool.or_eq_true, Bool.not_eq_true'] at h
  obtain ⟨⟨h1, h2⟩, h3⟩ := h
  refine ⟨?_, ?_, ?_⟩
  · cases hw : storeFind deploymentName S.deployments
        (appName old.ID old.UserID ++ "-deployment") with
    | none => rw [hw] at h1; simp at h1
    | some w =>
      rw [hw] at h1
      refine ⟨w, rfl, fun hne hnil => ?_⟩
      simp only [Bool.or_eq_true, beq_iff_eq, Bool.not_eq_true', List.isEmpty_eq_false] at h1
      rcases h1 with h1 | h1
      · exact hne h1
      · exact h1 hnil
  · cases hs : storeFind serviceName S.services
        (appName old.ID old.UserID ++ "-service") with
    | none => rw [hs] at h2; simp at h2
    | some svc =>
      rw [hs] at h2
      refine ⟨svc, rfl, fun hnil => ?_⟩
      simp [hnil] at h2
  · intro hc
    rcases h3 with h3 | h3
    · rw [hc] at h3; cases h3
    · exact h3


/-- The first retry scope when no write of another client is in the way of the write of the
workload. -/
theorem workloadScope_pass (np : Int) (order : MapOrder (Store × Option Race))
    (old new : Deployment) (n : String) (S S1 : Store) (p p1 : Option Race)
    (hS : updateStorage (racingClientset np) old new n (S, p) = (Outcome.ret none, (S1, p1)))
    (hD : S1.deployments = S.deployments)
    (hp : ∀ r, p1 = some r → r.kind ≠ ObjKind.deployment)
    (hW : ∃ w, storeFind deploymentName S.deployments (n ++ "-deployment") = some w ∧
      (new.EnvVars.len ≠ 0 → w.Spec.Template.Spec.Containers ≠ [])) :
    RetryOnConflict (updateWorkloadAttempt (racingClientset np) order old new n) (S, p) =
      (Outcome.ret none,
        (Store.mk S1.pvs S1.pvcs
          (workloadsAfter (order (S1, p1) old.EnvVars).1 new n S1.deployments) S1.services,
          p1)) :=
  RetryOnConflict_ok _ _ _ (updateWorkloadAttempt_pass np order old new n S S1 p p1 hS hD hp hW)

/-- The first retry scope when the write of the other client lands on the workload: the
first attempt ends with a conflict, the second attempt runs the storage block again, fetches
the workload that the other client wrote, and submits it with the replica count and
environment of `Update`. -/
theorem workloadScope_race (np : Int) (order : MapOrder (Store × Option Race))
    (old new : Deployment) (n : String) (S S1 : Store) (p : Option Race) (r : Race)
    (hS : updateStorage (racingClientset np) old new n (S, p) =
      (Outcome.ret none, (S1, some r)))
    (hk : r.kind = ObjKind.deployment)
    (hW : ∃ w, storeFind deploymentName S.deployments (n ++ "-deployment") = some w ∧
      (new.EnvVars.len ≠ 0 → w.Spec.Template.Spec.Containers ≠ []))
    (hS2 : updateStorage (racingClientset np) old new n (r.land (n ++ "-deployment") S1, none) =
      (Outcome.ret none, (r.land (n ++ "-deployment") S1, none)))
    (hW2 : ∃ w, storeFind deploymentName (r.land (n ++ "-deployment") S1).deployments
        (n ++ "-deployment") = some w ∧
      (new.EnvVars.len ≠ 0 → w.Spec.Template.Spec.Containers ≠ [])) :
    RetryOnConflict (updateWorkloadAttempt (racingClientset np) order old new n) (S, p) =
      (Outcome.ret none,
        (Store.mk (r.land (n ++ "-deployment") S1).pvs (r.land (n ++ "-deployment") S1).pvcs
          (workloadsAfter (order (r.land (n ++ "-deployment") S1, none) old.EnvVars).1 new n
            (r.land (n ++ "-deployment") S1).deployments)
          (r.land (n ++ "-deployment") S1).services, none)) :=
  RetryOnConflict_conflict_then _ _ _ _ _ (conflictError_reason _)
    (updateWorkloadAttempt_race np order old new n S S1 p r hS hk hW)
    (updateWorkloadAttempt_pass np order old new n _ _ none none hS2 rfl (by simp) hW2)

/-- A run of `Update` on the control plane with another writer, from a store that is ready
before and after the write of the other client has landed: `Update` returns nil, the write of
the other client has landed, and the store is what `Update` leaves of the store with that
write, for some listing of the old map. -/
theorem Update_racing (np : Int) (order : MapOrder (Store × Option Race))
    (old new : Deployment) (S : Store) (p : Option Race)
    (hready : S.ready old new = true)
    (hlanded : (landed (appName old.ID old.UserID) (S, p)).ready old new = true)
    (hfires : ∀ r, p = some r → r.kind = ObjKind.pv ∨ r.kind = ObjKind.pvc →
      volumeChanged old new = true) :
    ∃ listing : List (String × String), listing.Perm old.EnvVars.entries ∧
      Update (racingClientset np) order old new (S, p) =
        (Outcome.ret none,
          (storeAfter old new listing (landed (appName old.ID old.UserID) (S, p)), none)) := by
  obtain ⟨hW, hSv, hV⟩ := Store.ready_holds old new S hready
  obtain ⟨hW2, hSv2, hV2⟩ := Store.ready_holds old new _ hlanded
  unfold Update
  dsimp only
  cases p with
  | none =>
    have hS := updateStorage_other np old new (appName old.ID old.UserID) S none (by simp) hV
    generalize hS1 : Store.mk
      (if volumeChanged old new then
        pvsAfter (formatInt new.Volume ++ "Gi") (appName old.ID old.UserID) S.pvs else S.pvs)
      (if volumeChanged old new then
        pvcsAfter (formatInt new.Volume ++ "Gi") (appName old.ID old.UserID) S.pvcs
        else S.pvcs)
      S.deployments S.services = S1 at hS
    have hD : S1.deployments = S.deployments := by rw [← hS1]
    have hSS : S1.services = S.services := by rw [← hS1]
    refine ⟨(order (S1, none) old.EnvVars).1, (order _ _).2, ?_⟩
    rw [workloadScope_pass np order old new _ S S1 none none hS hD (by simp) hW]
    dsimp only
    rw [serviceScope_racing np new _ _ (by rw [hSS]; exact hSv)
      (by simpa [landIf, hSS] using hSv)]
    subst hS1
    simp [landIf, storeAfter, landed]
  | some r =>
    cases r with
    | pv ch =>
      have hc : volumeChanged old new = true := hfires _ rfl (Or.inl rfl)
      have hpv2 : (storeFind pvName
          ((Race.pv ch).land (appName old.ID old.UserID ++ "-pv") S).pvs
          (appName old.ID old.UserID ++ "-pv")).isSome = true := by
        simpa [landed, Race.objectName, Race.kind] using (hV2 hc).1
      have hS := updateStorage_race_pv np old new (appName old.ID old.UserID) S (Race.pv ch)
        hc rfl (hV hc).1 hpv2 (hV hc).2
      generalize hS1 : Store.mk
        (pvsAfter (formatInt new.Volume ++ "Gi") (appName old.ID old.UserID)
          ((Race.pv ch).land (appName old.ID old.UserID ++ "-pv") S).pvs)
        (pvcsAfter (formatInt new.Volume ++ "Gi") (appName old.ID old.UserID) S.pvcs)
        S.deployments S.services = S1 at hS
      have hD : S1.deployments = S.deployments := by rw [← hS1]
      have hSS : S1.services = S.services := by rw [← hS1]
      refine ⟨(order (S1, none) old.EnvVars).1, (order _ _).2, ?_⟩
      rw [workloadScope_pass np order old new _ S S1 _ _ hS hD (by simp) hW]
      dsimp only
      rw [serviceScope_racing np new _ _ (by rw [hSS]; exact hSv)
        (by simpa [landIf, hSS] using hSv)]
      subst hS1
      simp [landIf, storeAfter, landed, Race.kind, Race.land, Race.objectName, hc]
    | pvc ch =>
      have hc : volumeChanged old new = true := hfires _ rfl (Or.inr rfl)
      have hpvc2 : (storeFind pvcName
          ((Race.pvc ch).land (appName old.ID old.UserID ++ "-pv-claim") S).pvcs
          (appName old.ID old.UserID ++ "-pv-claim")).isSome = true := by
        simpa [landed, Race.objectName, Race.kind] using (hV2 hc).2
      have hS := updateStorage_race_pvc np old new (appName old.ID old.UserID) S (Race.pvc ch)
        hc rfl (hV hc).1 (hV hc).2 hpvc2
      generalize hS1 : Store.mk
        (pvsAfter (formatInt new.Volume ++ "Gi") (appName old.ID old.UserID) S.pvs)
        (pvcsAfter (formatInt new.Volume ++ "Gi") (appName old.ID old.UserID)
          ((Race.pvc ch).land (appName old.ID old.UserID ++ "-pv-claim") S).pvcs)
        S.deployments S.services = S1 at hS
      have hD : S1.deployments = S.deployments := by rw [← hS1]
      have hSS : S1.services = S.services := by rw [← hS1]
      refine ⟨(order (S1, none) old.EnvVars).1, (order _ _).2, ?_⟩
      rw [workloadScope_pass np order old new _ S S1 _ _ hS hD (by simp) hW]
      dsimp only
      rw [serviceScope_racing np new _ _ (by rw [hSS]; exact hSv)
        (by simpa [landIf, hSS] using hSv)]
      subst hS1
      simp [landIf, storeAfter, landed, Race.kind, Race.land, Race.objectName, hc]
    | deployment ch =>
      have hk : ∀ r, some (Race.deployment ch) = some r →
          r.kind ≠ ObjKind.pv ∧ r.kind ≠ ObjKind.pvc := by
        intro r h; cases h; exact ⟨by simp [Race.kind], by simp [Race.kind]⟩
      have hS := updateStorage_other np old new (appName old.ID old.UserID) S
        (some (Race.deployment ch)) hk hV
      generalize hS1 : Store.mk
        (if volumeChanged old new then
          pvsAfter (formatInt new.Volume ++ "Gi") (appName old.ID old.UserID) S.pvs else S.pvs)
        (if volumeChanged old new then
          pvcsAfter (formatInt new.Volume ++ "Gi") (appName old.ID old.UserID) S.pvcs
          else S.pvcs)
        S.deployments S.services = S1 at hS
      have hD : S1.deployments = S.deployments := by rw [← hS1]
      have hSS : S1.services = S.services := by rw [← hS1]
      have hV1 : volumeChanged old new = true →
          (storeFind pvName S1.pvs (appName old.ID old.UserID ++ "-pv")).isSome = true ∧
          (storeFind pvcName S1.pvcs
            (appName old.ID old.UserID ++ "-pv-claim")).isSome = true := by
        intro hc
        rw [← hS1]
        simp only [hc, if_true]
        exact ⟨pvsAfter_isSome _ _ _ (hV hc).1, pvcsAfter_isSome _ _ _ (hV hc).2⟩
      have hS2 := updateStorage_other np old new (appName old.ID old.UserID)
        ((Race.deployment ch).land (appName old.ID old.UserID ++ "-deployment") S1) none
        (by simp) hV1
      have hfix : Store.mk
          (if volumeChanged old new then
            pvsAfter (formatInt new.Volume ++ "Gi") (appName old.ID old.UserID) S1.pvs
            else S1.pvs)
          (if volumeChanged old new then
            pvcsAfter (formatInt new.Volume ++ "Gi") (appName old.ID old.UserID) S1.pvcs
            else S1.pvcs)
          ((Race.deployment ch).land (appName old.ID old.UserID ++ "-deployment")
            S1).deployments S1.services =
          (Race.deployment ch).land (appName old.ID old.UserID ++ "-deployment") S1 := by
        rw [← hS1]
        cases hc : volumeChanged old new <;>
          simp [Race.land, pvsAfter_idem, pvcsAfter_idem]
      have hS2b : updateStorage (racingClientset np) old new (appName old.ID old.UserID)
          ((Race.deployment ch).land (appName old.ID old.UserID ++ "-deployment") S1, none) =
          (Outcome.ret none,
            ((Race.deployment ch).land (appName old.ID old.UserID ++ "-deployment") S1,
              none)) := by
        rw [hS2]
        exact congrArg (fun X => (Outcome.ret none, (X, none))) hfix
      have hW3 : ∃ w, storeFind deploymentName
          ((Race.deployment ch).land (appName old.ID old.UserID ++ "-deployment")
            S1).deployments (appName old.ID old.UserID ++ "-deployment") = some w ∧
          (new.EnvVars.len ≠ 0 → w.Spec.Template.Spec.Containers ≠ []) := by
        simpa [landed, Race.objectName, Race.kind, Race.land, hD] using hW2
      refine ⟨(order ((Race.deployment ch).land
        (appName old.ID old.UserID ++ "-deployment") S1, none) old.EnvVars).1,
        (order _ _).2, ?_⟩
      rw [workloadScope_race np order old new _ S S1 _ (Race.deployment ch) hS rfl hW hS2b hW3]
      dsimp only
      rw [serviceScope_racing np new _ _
        (by simpa [Race.land, hSS] using hSv) (by simpa [landIf, Race.land, hSS] using hSv)]
      subst hS1
      simp [landIf, storeAfter, landed, Race.kind, Race.land, Race.objectName]
    | service ch =>
      have hk : ∀ r, some (Race.service ch) = some r →
          r.kind ≠ ObjKind.pv ∧ r.kind ≠ ObjKind.pvc := by
        intro r h; cases h; exact ⟨by simp [Race.kind], by simp [Race.kind]⟩
      have hS := updateStorage_other np old new (appName old.ID old.UserID) S
        (some (Race.service ch)) hk hV
      generalize hS1 : Store.mk
        (if volumeChanged old new then
          pvsAfter (formatInt new.Volume ++ "Gi") (appName old.ID old.UserID) S.pvs else S.pvs)
        (if volumeChanged old new then
          pvcsAfter (formatInt new.Volume ++ "Gi") (appName old.ID old.UserID) S.pvcs
          else S.pvcs)
        S.deployments S.services = S1 at hS
      have hD : S1.deployments = S.deployments := by rw [← hS1]
      have hSS : S1.services = S.services := by rw [← hS1]
      refine ⟨(order (S1, some (Race.service ch)) old.EnvVars).1, (order _ _).2, ?_⟩
      rw [workloadScope_pass np order old new _ S S1 _ _ hS hD
        (by intro r h; cases h; simp [Race.kind]) hW]
      dsimp only
      rw [serviceScope_racing np new _ _ (by rw [hSS]; exact hSv)
        (by simpa [landIf, Race.kind, Race.land, hSS, landed, Race.objectName] using hSv2)]
      subst hS1
      simp [landIf, storeAfter, landed, Race.kind, Race.land, Race.objectName]


theorem SameButEnvOrder.refl (a : AppsDeployment) : SameButEnvOrder a a := Or.inl rfl

theorem storeReplace_forall₂ {α : Type} (nameOf : α → String) (R : α → α → Prop)
    (objs : List α) (a b : α) (hname : nameOf a = nameOf b) (hR : R a b)
    (hrefl : ∀ x, R x x) :
    List.Forall₂ R (storeReplace nameOf objs a) (storeReplace nameOf objs b) := by
  unfold storeReplace
  rw [List.forall₂_map_left_iff, List.forall₂_map_right_iff]
  refine List.forall₂_same.2 (fun x _ => ?_)
  rw [← hname]
  by_cases hn : nameOf x = nameOf a
  · rw [if_pos hn, if_pos hn]; exact hR
  · rw [if_neg hn, if_neg hn]; exact hrefl x

/-- Two listings of the old map leave the same workloads but for the order of the
environment of the first container of the workload of the deployment. -/
theorem workloadsAfter_perm (lA lB : List (String × String)) (h : lA.Perm lB)
    (new : Deployment) (n : String) (ws : List AppsDeployment) :
    List.Forall₂ SameButEnvOrder (workloadsAfter lA new n ws) (workloadsAfter lB new n ws) := by
  have hrefl : List.Forall₂ SameButEnvOrder ws ws :=
    List.forall₂_same.2 (fun a _ => SameButEnvOrder.refl a)
  unfold workloadsAfter
  cases hf : storeFind deploymentName ws (n ++ "-deployment") with
  | none => exact hrefl
  | some w =>
    simp only
    unfold updateEnvVars
    by_cases h0 : new.EnvVars.len = 0
    · simp only [h0, bne_self_eq_false, Bool.false_eq_true, if_false]
      exact List.forall₂_same.2 (fun a _ => SameButEnvOrder.refl a)
    · simp only [bne_iff_ne, ne_eq, h0, not_false_eq_true, if_true]
      cases hc : w.Spec.Template.Spec.Containers with
      | nil => exact hrefl
      | cons c cs =>
        simp only
        exact storeReplace_forall₂ _ _ _ _ _ rfl
          (Or.inr ⟨{ c with Env := updateEnvList lA }, cs, updateEnvList lB, rfl,
            (updateEnvList_perm lA lB h).symm, rfl⟩) SameButEnvOrder.refl

/-- Where the order of the loop cannot be seen in the submitted workload, two listings of
the old map leave the same workloads. -/
theorem workloadsAfter_eq (old : Deployment) (lA lB : List (String × String))
    (hA : lA.Perm old.EnvVars.entries) (hB : lB.Perm old.EnvVars.entries)
    (new : Deployment) (n : String) (ws : List AppsDeployment)
    (h : new.EnvVars.len = 0 ∨ ∀ e ∈ old.EnvVars.entries, (splitOnEq e.2).length ≠ 2) :
    workloadsAfter lA new n ws = workloadsAfter lB new n ws := by
  have henv : ∀ obj, updateEnvVars lA new obj = updateEnvVars lB new obj := by
    intro obj
    rcases h with h | h
    · rw [updateEnvVars_of_empty _ new _ h, updateEnvVars_of_empty _ new _ h]
    · unfold updateEnvVars
      rw [updateEnvList_eq_nil lA (fun e he => h e (hA.mem_iff.1 he)),
        updateEnvList_eq_nil lB (fun e he => h e (hB.mem_iff.1 he))]
  unfold workloadsAfter
  simp only [henv]

/-- A write that changes nothing but the version leaves the objects as they are. -/
theorem storeChange_id {α : Type} (nameOf : α → String) (objs : List α) (name : String) :
    storeChange nameOf objs name id = objs := by
  unfold storeChange
  conv_rhs => rw [← List.map_id objs]
  apply List.map_congr_left
  intro x _
  split <;> rfl

/-- Once a write that changes nothing but the version has landed, the store is as it was. -/
theorem Race.land_touch (name : String) (S : Store) :
    (Race.pv id).land name S = S ∧ (Race.pvc id).land name S = S ∧
    (Race.deployment id).land name S = S ∧ (Race.service id).land name S = S := by
  simp [Race.land, storeChange_id]


/-- C17, as it is worded, fails.  On the control plane that `Create` left for deployment
`(1, 1)`, with an old map that has two values of the form `key=value` and a new map that is
not empty: a run in which the first write of the workload is rejected with a conflict (the
other client changed nothing but the version) and a run without conflict, from the same
state, both return nil, but their loops over the old map may take different orders, and then
the stored workloads differ.  And when the other client has set a label on the workload (here
for `port40000` resized to `redisResized`, on the control plane that `Create` left), the run
with the conflict keeps that label, which the run without conflict from the same state does
not have, even with the same order. -/
theorem Update_conflict_run_differs :
    ((Update (racingClientset 31000) MapOrder.listed postgresPairs postgresNewEnv
        (postgresStore.1, some touchWorkload)).1 = Outcome.ret none ∧
      (Update (racingClientset 31000) MapOrder.backwards postgresPairs postgresNewEnv
        (postgresStore.1, none)).1 = Outcome.ret none ∧
      (Update (racingClientset 31000) MapOrder.listed postgresPairs postgresNewEnv
        (postgresStore.1, some touchWorkload)).2.1.deployments ≠
      (Update (racingClientset 31000) MapOrder.backwards postgresPairs postgresNewEnv
        (postgresStore.1, none)).2.1.deployments) ∧
    ((Update (racingClientset 31000) MapOrder.listed port40000 redisResized
        (redisStore.1, some labelWorkload)).1 = Outcome.ret none ∧
      (Update (racingClientset 31000) MapOrder.listed port40000 redisResized
        (redisStore.1, none)).1 = Outcome.ret none ∧
      (Update (racingClientset 31000) MapOrder.listed port40000 redisResized
        (redisStore.1, some labelWorkload)).2.1.deployments ≠
      (Update (racingClientset 31000) MapOrder.listed port40000 redisResized
        (redisStore.1, none)).2.1.deployments) := by
  decide

/-- C17, amended.  On the control plane with another writer, for every old and new
deployment and every store that is ready for `Update` before and after the write of the other
client has landed (a write to a storage object is considered only when the volume changes,
since otherwise `Update` does not write storage objects): the run of `Update` in which that
write makes the first write of `Update` to the same object fail with a conflict, and the run
without conflict that starts once that write has landed (from the same state, when the other
client changed nothing but the version), both return nil; in the first the write of the other
client has landed; and they end with the same storage-volumes, storage-claims and services,
and with workloads that are the same but for the order of the environment of the first
container, which is the order that the last loop over the old map took.  When the new map is
empty or no value of the old map has the form `key=value`, they end with the same store. -/
theorem Update_converges_after_conflict (np : Int) (old new : Deployment) (store : Store)
    (r : Race) (orderA orderB : MapOrder (Store × Option Race))
    (hready : store.ready old new = true)
    (hlanded : (r.land (r.objectName (appName old.ID old.UserID)) store).ready old new = true)
    (hfires : r.kind = ObjKind.pv ∨ r.kind = ObjKind.pvc → volumeChanged old new = true) :
    (Update (racingClientset np) orderA old new (store, some r)).1 = Outcome.ret none ∧
    (Update (racingClientset np) orderA old new (store, some r)).2.2 = none ∧
    (Update (racingClientset np) orderB old new
      (r.land (r.objectName (appName old.ID old.UserID)) store, none)).1 = Outcome.ret none ∧
    (Update (racingClientset np) orderA old new (store, some r)).2.1.pvs =
      (Update (racingClientset np) orderB old new
        (r.land (r.objectName (appName old.ID old.UserID)) store, none)).2.1.pvs ∧
    (Update (racingClientset np) orderA old new (store, some r)).2.1.pvcs =
      (Update (racingClientset np) orderB old new
        (r.land (r.objectName (appName old.ID old.UserID)) store, none)).2.1.pvcs ∧
    (Update (racingClientset np) orderA old new (store, some r)).2.1.services =
      (Update (racingClientset np) orderB old new
        (r.land (r.objectName (appName old.ID old.UserID)) store, none)).2.1.services ∧
    List.Forall₂ SameButEnvOrder
      (Update (racingClientset np) orderA old new (store, some r)).2.1.deployments
      (Update (racingClientset np) orderB old new
        (r.land (r.objectName (appName old.ID old.UserID)) store, none)).2.1.deployments ∧
    ((new.EnvVars.len = 0 ∨ ∀ e ∈ old.EnvVars.entries, (splitOnEq e.2).length ≠ 2) →
      (Update (racingClientset np) orderA old new (store, some r)).2.1 =
        (Update (racingClientset np) orderB old new
          (r.land (r.objectName (appName old.ID old.UserID)) store, none)).2.1) := by
  obtain ⟨lA, hlA, hA⟩ := Update_racing np orderA old new store (some r) hready hlanded
    (fun r2 h => by cases h; exact hfires)
  obtain ⟨lB, hlB, hB⟩ := Update_racing np orderB old new
    (r.land (r.objectName (appName old.ID old.UserID)) store) none hlanded hlanded
    (fun r2 h => by cases h)
  rw [hA, hB]
  refine ⟨rfl, rfl, rfl, rfl, rfl, rfl, ?_, fun h => ?_⟩
  · exact workloadsAfter_perm lA lB (hlA.trans hlB.symm) new _ _
  · show storeAfter old new lA _ = storeAfter old new lB _
    unfold storeAfter
    rw [workloadsAfter_eq old lA lB hlA hlB new _ _ h]
    rfl

/-- C17 (amended) at an input: on the control plane that `Create` left for deployment
`(1, 1)`, from volume 1 to volume 2 with a new map that is not empty, the other client sets a
label on the workload, and the two runs take the old map in opposite orders.  Both runs
return nil and end with the same storage objects and services; the stored workloads differ,
but only in the order of the environment; the workload has the label, three replicas and the
two variables of the old map, the service the node port 31000 and the storage-volume the
capacity `2Gi`.  And when the other client changes nothing but the version, the run without
conflict is the run from the same state. -/
theorem Update_converges_after_conflict_witness :
    (labelWorkload.land (labelWorkload.objectName (appName 1 1)) postgresStore.1).ready
      postgresPairs postgresResized = true ∧
    postgresStore.1.ready postgresPairs postgresResized = true ∧
    volumeChanged postgresPairs postgresResized = true ∧
    (Update (racingClientset 31000) MapOrder.listed postgresPairs postgresResized
      (postgresStore.1, some labelWorkload)).1 = Outcome.ret none ∧
    (Update (racingClientset 31000) MapOrder.listed postgresPairs postgresResized
      (postgresStore.1, some labelWorkload)).2.1.pvs =
      (Update (racingClientset 31000) MapOrder.backwards postgresPairs postgresResized
        (labelWorkload.land (labelWorkload.objectName (appName 1 1)) postgresStore.1,
          none)).2.1.pvs ∧
    (Update (racingClientset 31000) MapOrder.listed postgresPairs postgresResized
      (postgresStore.1, some labelWorkload)).2.1.deployments ≠
      (Update (racingClientset 31000) MapOrder.backwards postgresPairs postgresResized
        (labelWorkload.land (labelWorkload.objectName (appName 1 1)) postgresStore.1,
          none)).2.1.deployments ∧
    List.Forall₂ SameButEnvOrder
      (Update (racingClientset 31000) MapOrder.listed postgresPairs postgresResized
        (postgresStore.1, some labelWorkload)).2.1.deployments
      (Update (racingClientset 31000) MapOrder.backwards postgresPairs postgresResized
        (labelWorkload.land (labelWorkload.objectName (appName 1 1)) postgresStore.1,
          none)).2.1.deployments ∧
    (Update (racingClientset 31000) MapOrder.listed postgresPairs postgresResized
      (postgresStore.1, some labelWorkload)).2.1.deployments.map
        (fun w => (w.ObjectMeta.Labels, w.Spec.Replicas,
          w.Spec.Template.Spec.Containers.map Container.Env)) =
      [([("tier", "db")], some 3, [[⟨"PGDATA", "/data"⟩, ⟨"TZ", "UTC"⟩]])] ∧
    (Update (racingClientset 31000) MapOrder.listed postgresPairs postgresResized
      (postgresStore.1, some labelWorkload)).2.1.services.map
        (fun svc => svc.Spec.Ports.map ServicePort.NodePort) = [[31000]] ∧
    (Update (racingClientset 31000) MapOrder.listed postgresPairs postgresResized
      (postgresStore.1, some labelWorkload)).2.1.pvs.map
        (fun pv => pv.Spec.Capacity) = [[(ResourceStorage, MustParse "2Gi")]] ∧
    List.Forall₂ SameButEnvOrder
      (Update (racingClientset 31000) MapOrder.listed postgresPairs postgresResized
        (postgresStore.1, some touchWorkload)).2.1.deployments
      (Update (racingClientset 31000) MapOrder.backwards postgresPairs postgresResized
        (postgresStore.1, none)).2.1.deployments :=
  ⟨by decide, by decide, by decide,
    (Update_converges_after_conflict 31000 postgresPairs postgresResized postgresStore.1
      labelWorkload MapOrder.listed MapOrder.backwards (by decide) (by decide)
      (by decide)).1,
    (Update_converges_after_conflict 31000 postgresPairs postgresResized postgresStore.1
      labelWorkload MapOrder.listed MapOrder.backwards (by decide) (by decide)
      (by decide)).2.2.2.1,
    by decide,
    (Update_converges_after_conflict 31000 postgresPairs postgresResized postgresStore.1
      labelWorkload MapOrder.listed MapOrder.backwards (by decide) (by decide)
      (by decide)).2.2.2.2.2.2.1,
    by decide, by decide, by decide,
    (Update_converges_after_conflict 31000 postgresPairs postgresResized postgresStore.1
      touchWorkload MapOrder.listed MapOrder.backwards (by decide) (by decide)
      (by decide)).2.2.2.2.2.2.1⟩

end Railclone
